import Mathlib

/-! Universal resource lifecycle engine: a shallow embedding.

The Go sources embedded here are

* `forNubes/universal_rebuild/internal/core/client.go` (package `core`),
* `forNubes/universal_rebuild/internal/resources_core/crud.go` (package `resources_core`),
* the normalizers of the earlier client `forNubes/internal/core/client.go`, and
* `doRequestWithRetry` of `forNubes/internal/provider/tubulus_resource.go`.

Conventions of the embedding.

* A Go `string` is the list of its runes (`Str`).  Strings reach the client through
  `encoding/json`, which only produces valid UTF-8.
* A Go `map[int]string` is the list of its entries in the order in which `range` visits them.
* A Go `error` is a value of the inductive type `Err`; every constructor names the
  `fmt.Errorf` format string it stands for.
* The remote side, the clock and the cancellation signal are a `World`: a script of answers to
  the successive HTTP requests, a script of outcomes of the successive `select` statements, the
  current time, and the log of the requests issued so far.  A script that has run out answers
  with a network failure, respectively with a cancelled context, so every operation is total.
-/

namespace Nubes

/-! ## Strings (`strings`, `unicode`) -/

/-- A Go string, as the list of its runes. -/
abbrev Str := List Char

/-- The predicate `unicode.IsSpace`: the Unicode White_Space property. -/
def isSpace (c : Char) : Bool :=
  let n := c.toNat
  n == 0x09 || n == 0x0A || n == 0x0B || n == 0x0C || n == 0x0D || n == 0x20 ||
  n == 0x85 || n == 0xA0 || n == 0x1680 || (decide (0x2000 ≤ n) && decide (n ≤ 0x200A)) ||
  n == 0x2028 || n == 0x2029 || n == 0x202F || n == 0x205F || n == 0x3000

/-- The function `strings.TrimSpace`: leading and trailing white space removed. -/
def TrimSpace (s : Str) : Str :=
  ((s.dropWhile isSpace).reverse.dropWhile isSpace).reverse

/-- The rune map `unicode.ToLower`, exact on ASCII and on the two non-ASCII runes whose lower
case is ASCII (U+0130 and U+212A).  Every other rune is left in place: its lower case is again
non-ASCII, and the program only ever tests lower-cased text against ASCII constants. -/
def lowerRune (c : Char) : Char :=
  if 65 ≤ c.toNat ∧ c.toNat ≤ 90 then Char.ofNat (c.toNat + 32)
  else if c.toNat = 0x130 then 'i'
  else if c.toNat = 0x212A then 'k'
  else c

/-- The function `strings.ToLower`: `unicode.ToLower` applied rune by rune. -/
def ToLower (s : Str) : Str := s.map lowerRune

/-- The simple case foldings of the runes from U+0080 on (Unicode 14.0, `CaseFolding.txt`,
statuses C and S), as rows `(lo, hi, step, target)`: a rune `c` with `lo ≤ c ≤ hi` and
`(c - lo) % step = 0` folds to `target + (c - lo)`.  A rune in no row folds to itself. -/
def foldTable : List (Nat × Nat × Nat × Nat) :=
  [(0xB5, 0xB5, 1, 0x3BC), (0xC0, 0xD6, 1, 0xE0), (0xD8, 0xDE, 1, 0xF8),
    (0x100, 0x12E, 2, 0x101), (0x132, 0x136, 2, 0x133), (0x139, 0x147, 2, 0x13A),
    (0x14A, 0x176, 2, 0x14B), (0x178, 0x178, 1, 0xFF), (0x179, 0x17D, 2, 0x17A),
    (0x17F, 0x17F, 1, 0x73), (0x181, 0x181, 1, 0x253), (0x182, 0x184, 2, 0x183),
    (0x186, 0x186, 1, 0x254), (0x187, 0x187, 1, 0x188), (0x189, 0x18A, 1, 0x256),
    (0x18B, 0x18B, 1, 0x18C), (0x18E, 0x18E, 1, 0x1DD), (0x18F, 0x18F, 1, 0x259),
    (0x190, 0x190, 1, 0x25B), (0x191, 0x191, 1, 0x192), (0x193, 0x193, 1, 0x260),
    (0x194, 0x194, 1, 0x263), (0x196, 0x196, 1, 0x269), (0x197, 0x197, 1, 0x268),
    (0x198, 0x198, 1, 0x199), (0x19C, 0x19C, 1, 0x26F), (0x19D, 0x19D, 1, 0x272),
    (0x19F, 0x19F, 1, 0x275), (0x1A0, 0x1A4, 2, 0x1A1), (0x1A6, 0x1A6, 1, 0x280),
    (0x1A7, 0x1A7, 1, 0x1A8), (0x1A9, 0x1A9, 1, 0x283), (0x1AC, 0x1AC, 1, 0x1AD),
    (0x1AE, 0x1AE, 1, 0x288), (0x1AF, 0x1AF, 1, 0x1B0), (0x1B1, 0x1B2, 1, 0x28A),
    (0x1B3, 0x1B5, 2, 0x1B4), (0x1B7, 0x1B7, 1, 0x292), (0x1B8, 0x1B8, 1, 0x1B9),
    (0x1BC, 0x1BC, 1, 0x1BD), (0x1C4, 0x1C4, 1, 0x1C6), (0x1C5, 0x1C5, 1, 0x1C6),
    (0x1C7, 0x1C7, 1, 0x1C9), (0x1C8, 0x1C8, 1, 0x1C9), (0x1CA, 0x1CA, 1, 0x1CC),
    (0x1CB, 0x1DB, 2, 0x1CC), (0x1DE, 0x1EE, 2, 0x1DF), (0x1F1, 0x1F1, 1, 0x1F3),
    (0x1F2, 0x1F4, 2, 0x1F3), (0x1F6, 0x1F6, 1, 0x195), (0x1F7, 0x1F7, 1, 0x1BF),
    (0x1F8, 0x21E, 2, 0x1F9), (0x220, 0x220, 1, 0x19E), (0x222, 0x232, 2, 0x223),
    (0x23A, 0x23A, 1, 0x2C65), (0x23B, 0x23B, 1, 0x23C), (0x23D, 0x23D, 1, 0x19A),
    (0x23E, 0x23E, 1, 0x2C66), (0x241, 0x241, 1, 0x242), (0x243, 0x243, 1, 0x180),
    (0x244, 0x244, 1, 0x289), (0x245, 0x245, 1, 0x28C), (0x246, 0x24E, 2, 0x247),
    (0x345, 0x345, 1, 0x3B9), (0x370, 0x372, 2, 0x371), (0x376, 0x376, 1, 0x377),
    (0x37F, 0x37F, 1, 0x3F3), (0x386, 0x386, 1, 0x3AC), (0x388, 0x38A, 1, 0x3AD),
    (0x38C, 0x38C, 1, 0x3CC), (0x38E, 0x38F, 1, 0x3CD), (0x391, 0x3A1, 1, 0x3B1),
    (0x3A3, 0x3AB, 1, 0x3C3), (0x3C2, 0x3C2, 1, 0x3C3), (0x3CF, 0x3CF, 1, 0x3D7),
    (0x3D0, 0x3D0, 1, 0x3B2), (0x3D1, 0x3D1, 1, 0x3B8), (0x3D5, 0x3D5, 1, 0x3C6),
    (0x3D6, 0x3D6, 1, 0x3C0), (0x3D8, 0x3EE, 2, 0x3D9), (0x3F0, 0x3F0, 1, 0x3BA),
    (0x3F1, 0x3F1, 1, 0x3C1), (0x3F4, 0x3F4, 1, 0x3B8), (0x3F5, 0x3F5, 1, 0x3B5),
    (0x3F7, 0x3F7, 1, 0x3F8), (0x3F9, 0x3F9, 1, 0x3F2), (0x3FA, 0x3FA, 1, 0x3FB),
    (0x3FD, 0x3FF, 1, 0x37B), (0x400, 0x40F, 1, 0x450), (0x410, 0x42F, 1, 0x430),
    (0x460, 0x480, 2, 0x461), (0x48A, 0x4BE, 2, 0x48B), (0x4C0, 0x4C0, 1, 0x4CF),
    (0x4C1, 0x4CD, 2, 0x4C2), (0x4D0, 0x52E, 2, 0x4D1), (0x531, 0x556, 1, 0x561),
    (0x10A0, 0x10C5, 1, 0x2D00), (0x10C7, 0x10C7, 1, 0x2D27), (0x10CD, 0x10CD, 1, 0x2D2D),
    (0x13F8, 0x13FD, 1, 0x13F0), (0x1C80, 0x1C80, 1, 0x432), (0x1C81, 0x1C81, 1, 0x434),
    (0x1C82, 0x1C82, 1, 0x43E), (0x1C83, 0x1C84, 1, 0x441), (0x1C85, 0x1C85, 1, 0x442),
    (0x1C86, 0x1C86, 1, 0x44A), (0x1C87, 0x1C87, 1, 0x463), (0x1C88, 0x1C88, 1, 0xA64B),
    (0x1C90, 0x1CBA, 1, 0x10D0), (0x1CBD, 0x1CBF, 1, 0x10FD), (0x1E00, 0x1E94, 2, 0x1E01),
    (0x1E9B, 0x1E9B, 1, 0x1E61), (0x1E9E, 0x1E9E, 1, 0xDF), (0x1EA0, 0x1EFE, 2, 0x1EA1),
    (0x1F08, 0x1F0F, 1, 0x1F00), (0x1F18, 0x1F1D, 1, 0x1F10), (0x1F28, 0x1F2F, 1, 0x1F20),
    (0x1F38, 0x1F3F, 1, 0x1F30), (0x1F48, 0x1F4D, 1, 0x1F40), (0x1F59, 0x1F5F, 2, 0x1F51),
    (0x1F68, 0x1F6F, 1, 0x1F60), (0x1F88, 0x1F8F, 1, 0x1F80), (0x1F98, 0x1F9F, 1, 0x1F90),
    (0x1FA8, 0x1FAF, 1, 0x1FA0), (0x1FB8, 0x1FB9, 1, 0x1FB0), (0x1FBA, 0x1FBB, 1, 0x1F70),
    (0x1FBC, 0x1FBC, 1, 0x1FB3), (0x1FBE, 0x1FBE, 1, 0x3B9), (0x1FC8, 0x1FCB, 1, 0x1F72),
    (0x1FCC, 0x1FCC, 1, 0x1FC3), (0x1FD8, 0x1FD9, 1, 0x1FD0), (0x1FDA, 0x1FDB, 1, 0x1F76),
    (0x1FE8, 0x1FE9, 1, 0x1FE0), (0x1FEA, 0x1FEB, 1, 0x1F7A), (0x1FEC, 0x1FEC, 1, 0x1FE5),
    (0x1FF8, 0x1FF9, 1, 0x1F78), (0x1FFA, 0x1FFB, 1, 0x1F7C), (0x1FFC, 0x1FFC, 1, 0x1FF3),
    (0x2126, 0x2126, 1, 0x3C9), (0x212A, 0x212A, 1, 0x6B), (0x212B, 0x212B, 1, 0xE5),
    (0x2132, 0x2132, 1, 0x214E), (0x2160, 0x216F, 1, 0x2170), (0x2183, 0x2183, 1, 0x2184),
    (0x24B6, 0x24CF, 1, 0x24D0), (0x2C00, 0x2C2F, 1, 0x2C30), (0x2C60, 0x2C60, 1, 0x2C61),
    (0x2C62, 0x2C62, 1, 0x26B), (0x2C63, 0x2C63, 1, 0x1D7D), (0x2C64, 0x2C64, 1, 0x27D),
    (0x2C67, 0x2C6B, 2, 0x2C68), (0x2C6D, 0x2C6D, 1, 0x251), (0x2C6E, 0x2C6E, 1, 0x271),
    (0x2C6F, 0x2C6F, 1, 0x250), (0x2C70, 0x2C70, 1, 0x252), (0x2C72, 0x2C72, 1, 0x2C73),
    (0x2C75, 0x2C75, 1, 0x2C76), (0x2C7E, 0x2C7F, 1, 0x23F), (0x2C80, 0x2CE2, 2, 0x2C81),
    (0x2CEB, 0x2CED, 2, 0x2CEC), (0x2CF2, 0x2CF2, 1, 0x2CF3), (0xA640, 0xA66C, 2, 0xA641),
    (0xA680, 0xA69A, 2, 0xA681), (0xA722, 0xA72E, 2, 0xA723), (0xA732, 0xA76E, 2, 0xA733),
    (0xA779, 0xA77B, 2, 0xA77A), (0xA77D, 0xA77D, 1, 0x1D79), (0xA77E, 0xA786, 2, 0xA77F),
    (0xA78B, 0xA78B, 1, 0xA78C), (0xA78D, 0xA78D, 1, 0x265), (0xA790, 0xA792, 2, 0xA791),
    (0xA796, 0xA7A8, 2, 0xA797), (0xA7AA, 0xA7AA, 1, 0x266), (0xA7AB, 0xA7AB, 1, 0x25C),
    (0xA7AC, 0xA7AC, 1, 0x261), (0xA7AD, 0xA7AD, 1, 0x26C), (0xA7AE, 0xA7AE, 1, 0x26A),
    (0xA7B0, 0xA7B0, 1, 0x29E), (0xA7B1, 0xA7B1, 1, 0x287), (0xA7B2, 0xA7B2, 1, 0x29D),
    (0xA7B3, 0xA7B3, 1, 0xAB53), (0xA7B4, 0xA7C2, 2, 0xA7B5), (0xA7C4, 0xA7C4, 1, 0xA794),
    (0xA7C5, 0xA7C5, 1, 0x282), (0xA7C6, 0xA7C6, 1, 0x1D8E), (0xA7C7, 0xA7C9, 2, 0xA7C8),
    (0xA7D0, 0xA7D0, 1, 0xA7D1), (0xA7D6, 0xA7D8, 2, 0xA7D7), (0xA7F5, 0xA7F5, 1, 0xA7F6),
    (0xAB70, 0xABBF, 1, 0x13A0), (0xFF21, 0xFF3A, 1, 0xFF41), (0x10400, 0x10427, 1, 0x10428),
    (0x104B0, 0x104D3, 1, 0x104D8), (0x10570, 0x1057A, 1, 0x10597),
    (0x1057C, 0x1058A, 1, 0x105A3), (0x1058C, 0x10592, 1, 0x105B3),
    (0x10594, 0x10595, 1, 0x105BB), (0x10C80, 0x10CB2, 1, 0x10CC0),
    (0x118A0, 0x118BF, 1, 0x118C0), (0x16E40, 0x16E5F, 1, 0x16E60),
    (0x1E900, 0x1E921, 1, 0x1E922)]

/-- The canonical representative of a rune under Unicode simple case folding: two runes have
the same representative exactly when `unicode.SimpleFold` leads from one to the other.  The
letters of ASCII fold to lower case; the runes from U+0080 on fold by `foldTable`. -/
def foldRune (c : Char) : Char :=
  if 65 ≤ c.toNat ∧ c.toNat ≤ 90 then Char.ofNat (c.toNat + 32)
  else if c.toNat < 128 then c
  else
    match foldTable.find? fun row =>
        decide (row.1 ≤ c.toNat) && decide (c.toNat ≤ row.2.1) &&
          decide ((c.toNat - row.1) % row.2.2.1 = 0) with
    | some row => Char.ofNat (row.2.2.2 + (c.toNat - row.1))
    | none => c

/-- The function `strings.EqualFold`: equality under simple case folding, rune by rune. -/
def EqualFold (a b : Str) : Bool := decide (a.map foldRune = b.map foldRune)

/-- The function `strings.HasPrefix s p`. -/
def HasPrefix : Str → Str → Bool
  | _, [] => true
  | [], _ :: _ => false
  | c :: s, p :: ps => decide (c = p) && HasPrefix s ps

/-- The function `strings.Contains s substr`. -/
def Contains : Str → Str → Bool
  | [], sub => sub.isEmpty
  | c :: s, sub => HasPrefix (c :: s) sub || Contains s sub

/-- The function `strings.TrimPrefix s p`. -/
def TrimPrefix (s p : Str) : Str :=
  if HasPrefix s p then s.drop p.length else s

/-- The length of a string in bytes (Go `len`): the sum of the UTF-8 sizes of its runes. -/
def byteLen (s : Str) : Nat := (s.map Char.utf8Size).sum

/-! ## Wire data (`client.go`, lines 22-60, 393-405, 523-531) -/

/-- The struct `universalCfsParam`: one parameter descriptor of an operation. -/
structure universalCfsParam where
  SvcOperationCfsParamId : Int
  ParamValue : Option Str
  DefaultValue : Option Str
  IsRequired : Bool
  DataType : Str
  Name : Str
  Code : Str
  Label : Str
  SvcOperationCfsParam : Str
  RefSvcId : Option Int
deriving DecidableEq, Repr

/-- The struct `ApiOperation`: an operation an instance currently offers. -/
structure ApiOperation where
  SvcOperationId : Int
  Operation : Str
deriving DecidableEq, Repr

/-- The struct `InstanceStateResponse`. -/
structure InstanceStateResponse where
  InstanceUid : Str
  ExplainedStatus : Str
  IsDeleted : Bool
  OperationIsInProgress : Bool
  OperationIsPending : Bool
  AvailableOperations : List ApiOperation
deriving DecidableEq, Repr

/-- The inner struct of `operationStatusResponse`: the polled status of an operation. -/
structure operationStatus where
  DtFinish : Option Str
  IsSuccessful : Option Bool
  ErrorLog : Option Str
  IsInProgress : Bool
  IsPending : Bool
deriving DecidableEq, Repr

/-- One element of `results` in an instance list page (the anonymous struct decoded by
`FindInstanceByDisplayName` and `findInstanceUidByDisplayNameRefSvc`). -/
structure listItem where
  InstanceUid : Str
  DisplayName : Str
  ServiceId : Int
deriving DecidableEq, Repr

/-- The JSON value under the key `instanceOperation`, with the fields the client decodes
(`universalOperation` and the inner struct of `operationStatusResponse`). -/
structure operationJson where
  cfsParams : List universalCfsParam
  status : operationStatus
deriving DecidableEq, Repr

/-- A JSON object of a reply body, seen through the fields the client decodes.  An absent or
`null` field holds the zero value of its Go type. -/
structure jsonObject where
  instanceUid : Str
  instanceOperationUid : Str
  instanceOperation : operationJson
  inst : InstanceStateResponse
  results : List listItem
deriving DecidableEq, Repr

/-- A reply body as `encoding/json` sees it. -/
inductive Body where
  /-- Not decodable into any target the client uses (malformed, or of a wrong JSON type). -/
  | undecodable : Body
  /-- The JSON value `null`: decodes into every target without changing it. -/
  | null : Body
  /-- A bare JSON string. -/
  | str : Str → Body
  /-- A JSON object. -/
  | obj : jsonObject → Body
deriving DecidableEq, Repr

/-- The zero value of `operationStatus`. -/
def operationStatus.zero : operationStatus :=
  { DtFinish := none, IsSuccessful := none, ErrorLog := none,
    IsInProgress := false, IsPending := false }

/-- The zero value of `InstanceStateResponse`. -/
def InstanceStateResponse.zero : InstanceStateResponse :=
  { InstanceUid := [], ExplainedStatus := [], IsDeleted := false,
    OperationIsInProgress := false, OperationIsPending := false, AvailableOperations := [] }

/-- The JSON object without any of the fields the client decodes. -/
def jsonObject.empty : jsonObject :=
  { instanceUid := [], instanceOperationUid := [],
    instanceOperation := { cfsParams := [], status := operationStatus.zero },
    inst := InstanceStateResponse.zero, results := [] }

/-- The call `json.Unmarshal(body, &s)` for a struct `s` holding `instanceUid`:
`none` is a decoding error. -/
def Body.decodeInstanceUid : Body → Option Str
  | .undecodable => none
  | .null => some []
  | .str _ => none
  | .obj o => some o.instanceUid

/-- The call `json.Unmarshal(body, &s)` for a struct `s` holding `instanceOperationUid`. -/
def Body.decodeInstanceOperationUid : Body → Option Str
  | .undecodable => none
  | .null => some []
  | .str _ => none
  | .obj o => some o.instanceOperationUid

/-- The call `json.Unmarshal(body, &justId)` for a Go string `justId`. -/
def Body.decodeString : Body → Option Str
  | .undecodable => none
  | .null => some []
  | .str s => some s
  | .obj _ => none

/-- The call `json.Unmarshal(body, &opDetails)` for `universalOpResponse`. -/
def Body.decodeCfsParams : Body → Option (List universalCfsParam)
  | .undecodable => none
  | .null => some []
  | .str _ => none
  | .obj o => some o.instanceOperation.cfsParams

/-- The call `json.Unmarshal(body, &status)` for `operationStatusResponse`. -/
def Body.decodeOperationStatus : Body → Option operationStatus
  | .undecodable => none
  | .null => some operationStatus.zero
  | .str _ => none
  | .obj o => some o.instanceOperation.status

/-- The decoding of the `instance` field of an instance reply (`GetInstanceState`). -/
def Body.decodeInstance : Body → Option InstanceStateResponse
  | .undecodable => none
  | .null => some InstanceStateResponse.zero
  | .str _ => none
  | .obj o => some o.inst

/-- The decoding of the `results` field of a list page. -/
def Body.decodeResults : Body → Option (List listItem)
  | .undecodable => none
  | .null => some []
  | .str _ => none
  | .obj o => some o.results

/-! ## Errors -/

/-- The errors of the client; each constructor stands for one `fmt.Errorf` site (or for an
error of the HTTP or JSON library), and keeps the values the message is formatted from. -/
inductive Err where
  /-- An error of `HttpClient.Do` or `io.ReadAll`. -/
  | transport : Err
  /-- An error of `encoding/json`. -/
  | json : Err
  /-- `API error %d: %s` (`doRequest`). -/
  | apiError (status : Nat) (body : Body) : Err
  /-- `status %d` (`FindInstanceByDisplayName`, `GetInstanceState`). -/
  | badStatus (status : Nat) : Err
  /-- `could not extract instanceUid from response (Header: %s)`. -/
  | noInstanceUid (header : Str) : Err
  /-- `failed to extract instanceOperationUid (Header: %s)`. -/
  | noOperationUid (header : Str) : Err
  /-- `failed to get operation details: %w`. -/
  | getOperationDetails (cause : Err) : Err
  /-- `failed to parse operation details: %w`. -/
  | parseOperationDetails (cause : Err) : Err
  /-- `failed to set param %d: %w`. -/
  | setParam (paramId : Int) (cause : Err) : Err
  /-- `failed to submit default param %d: %w`. -/
  | submitDefaultParam (paramId : Int) (cause : Err) : Err
  /-- `validation failed: %w`. -/
  | validationFailed (cause : Err) : Err
  /-- `execution failed: %w`. -/
  | executionFailed (cause : Err) : Err
  /-- `action %s not available for instance %s`. -/
  | actionNotAvailable (action instanceUid : Str) : Err
  /-- `failed to create %s operation: %w`. -/
  | createOperation (action : Str) (cause : Err) : Err
  /-- `failed to get operation UID for %s`. -/
  | noOperationUidFor (action : Str) : Err
  /-- `operation %s cancelled`. -/
  | operationCancelled (opUid : Str) : Err
  /-- `timeout waiting for operation %s to finish`. -/
  | operationTimeout (opUid : Str) : Err
  /-- `failed to check operation %s status: %w`. -/
  | checkOperationStatus (opUid : Str) (cause : Err) : Err
  /-- `failed to parse operation %s status: %w`. -/
  | parseOperationStatus (opUid : Str) (cause : Err) : Err
  /-- `operation %s failed: %s`, with the error log of the server. -/
  | operationFailedLog (opUid errorLog : Str) : Err
  /-- `operation %s failed`. -/
  | operationFailed (opUid : Str) : Err
  /-- `operation wait cancelled for instance %s`. -/
  | idleCancelled (instanceUid : Str) : Err
  /-- `timeout waiting for instance %s to become idle`. -/
  | idleTimeout (instanceUid : Str) : Err
  /-- `failed to check instance %s state: %w`. -/
  | checkInstanceState (instanceUid : Str) (cause : Err) : Err
  /-- `failed to resolve param %d: no instance found for serviceId=%d displayName=%s`. -/
  | resolveParam (paramId refSvcId : Int) (value : Str) : Err
  /-- `failed to fetch instance state after create: %w`. -/
  | fetchStateAfterCreate (cause : Err) : Err
  /-- `instance %s is deleted after create`. -/
  | deletedAfterCreate (instanceUid : Str) : Err
  /-- `instance %s not created after operation finish`. -/
  | notCreatedAfterFinish (instanceUid : Str) : Err
  /-- `instance %s is deleted` (`validateInstanceStatus`). -/
  | instanceDeleted (instanceUid : Str) : Err
  /-- `instance %s not ready: operation pending`. -/
  | instanceNotReady (instanceUid : Str) : Err
  /-- `instance %s not created`. -/
  | instanceNotCreated (instanceUid : Str) : Err
  /-- `instance %s pending`. -/
  | instancePending (instanceUid : Str) : Err
  /-- `instance %s failed: %s`. -/
  | instanceFailed (instanceUid status : Str) : Err
  /-- `resource with resource_name already exists: %s` (`CreateResource`). -/
  | alreadyExists (displayName : Str) : Err
  /-- `resource exists but not ready for adopt: %s`. -/
  | notReadyForAdopt (status : Str) : Err
  /-- `resource not ready after resume: %s`. -/
  | notReadyAfterResume (status : Str) : Err
  /-- `missing instance id for modify` (`UpdateResource`). -/
  | missingInstanceId : Err
  /-- `invalid delete_mode: %s` (`DeleteResource`). -/
  | invalidDeleteMode (deleteMode : Str) : Err
deriving DecidableEq, Repr

deriving instance DecidableEq for Except

/-! ## The remote side, the clock and cancellation -/

/-- The HTTP method of a request. -/
inductive Method where
  | GET : Method
  | POST : Method
deriving DecidableEq, Repr

/-- The requests the client issues, one constructor per endpoint and payload type. -/
inductive Request where
  /-- `POST /instances` with a `genericInstanceReq`. -/
  | postInstance (serviceId : Int) (displayName descr : Str) : Request
  /-- `POST /instanceOperations` with a `genericOpReq`. -/
  | postOperation (instanceUid operation : Str) : Request
  /-- `POST /instanceOperations` with `instanceUid`, `svcOperationId` and `operation`. -/
  | postAction (instanceUid : Str) (svcOperationId : Int) (operation : Str) : Request
  /-- `GET /instanceOperations/%s?fields=cfsParams`. -/
  | getOperationParams (opUid : Str) : Request
  /-- `POST /instanceOperationCfsParams` with a `genericParamReq`. -/
  | postParam (opUid : Str) (paramId : Int) (value : Str) : Request
  /-- `GET /instanceOperations/%s/validate-cfs`. -/
  | getValidate (opUid : Str) : Request
  /-- `POST /instanceOperations/%s/run` with an empty object. -/
  | postRun (opUid : Str) : Request
  /-- `GET /instanceOperations/%s`. -/
  | getOperationStatus (opUid : Str) : Request
  /-- `GET /instances/%s`. -/
  | getInstance (instanceUid : Str) : Request
  /-- `GET /instances?page=%d&size=100`. -/
  | getInstancesPage (page : Nat) : Request
deriving DecidableEq, Repr

/-- The HTTP method of each request. -/
def Request.method : Request → Method
  | .postInstance _ _ _ => .POST
  | .postOperation _ _ => .POST
  | .postAction _ _ _ => .POST
  | .getOperationParams _ => .GET
  | .postParam _ _ _ => .POST
  | .getValidate _ => .GET
  | .postRun _ => .POST
  | .getOperationStatus _ => .GET
  | .getInstance _ => .GET
  | .getInstancesPage _ => .GET

/-- An HTTP response: status code, `Location` header (empty when absent) and body. -/
structure Response where
  status : Nat
  location : Str
  body : Body
deriving DecidableEq, Repr

/-- What the client gets back for one request. -/
inductive Answer where
  /-- The request failed below HTTP (`HttpClient.Do` or `io.ReadAll` returned an error). -/
  | netErr : Answer
  /-- The server answered. -/
  | resp : Response → Answer
deriving DecidableEq, Repr

/-- The outcome of one `select` of a polling loop. -/
inductive Tick where
  /-- The case `<-ctx.Done()` was taken. -/
  | done : Tick
  /-- The case `<-ticker.C` was taken; `now` is what `time.Now()` reads afterwards. -/
  | fire (now : Nat) : Tick
deriving DecidableEq, Repr

/-- The environment of the client.  Times are in nanoseconds, as `time.Duration`. -/
structure World where
  /-- What `time.Now()` reads: the time of the last tick, or the time at the start. -/
  now : Nat
  /-- The outcomes of the coming `select` statements; after them the context is cancelled. -/
  ticks : List Tick
  /-- The answers to the coming requests; after them the network is down. -/
  answers : List Answer
  /-- The requests issued so far, oldest first. -/
  log : List Request
deriving DecidableEq, Repr

/-- One round trip of `HttpClient.Do`: the request is logged and the next answer consumed. -/
def World.send (w : World) (r : Request) : Answer × World :=
  match w.answers with
  | [] => (Answer.netErr, { w with log := w.log ++ [r] })
  | a :: rest => (a, { w with answers := rest, log := w.log ++ [r] })

/-- The method `doRequest`: an error for a failed round trip and for every status of 400 or
more, otherwise the body and the `Location` header.  (Encoding the payload and building the
request are taken not to fail.) -/
def doRequest (r : Request) (w : World) : Except Err (Body × Str) × World :=
  match w.send r with
  | (Answer.netErr, w1) => (.error Err.transport, w1)
  | (Answer.resp rp, w1) =>
    if rp.status ≥ 400 then (.error (Err.apiError rp.status rp.body), w1)
    else (.ok (rp.body, rp.location), w1)

/-! ## Instance state (`client.go`, lines 469-511, 795-816) -/

/-- The function `validateInstanceStatus` (its argument is never `nil` here). -/
def validateInstanceStatus (state : InstanceStateResponse) : Except Err Unit :=
  if state.IsDeleted then .error (Err.instanceDeleted state.InstanceUid)
  else if state.OperationIsPending || state.OperationIsInProgress then
    .error (Err.instanceNotReady state.InstanceUid)
  else
    let status := ToLower (TrimSpace state.ExplainedStatus)
    if Contains status "not created".toList then .error (Err.instanceNotCreated state.InstanceUid)
    else if Contains status "pending".toList then .error (Err.instancePending state.InstanceUid)
    else if Contains status "failed".toList || Contains status "error".toList then
      .error (Err.instanceFailed state.InstanceUid state.ExplainedStatus)
    else .ok ()

/-- The method `GetInstanceState`: one `GET /instances/%s`; any status other than 200 is an
error; the decoded state must pass `validateInstanceStatus`. -/
def GetInstanceState (instanceUid : Str) (w : World) : Except Err InstanceStateResponse × World :=
  match w.send (Request.getInstance instanceUid) with
  | (Answer.netErr, w1) => (.error Err.transport, w1)
  | (Answer.resp rp, w1) =>
    if rp.status ≠ 200 then (.error (Err.badStatus rp.status), w1)
    else
      match rp.body.decodeInstance with
      | none => (.error Err.json, w1)
      | some inst =>
        match validateInstanceStatus inst with
        | .error e => (.error e, w1)
        | .ok _ => (.ok inst, w1)

/-- The function `isInstanceDeleted`. -/
def isInstanceDeleted (state : InstanceStateResponse) : Bool :=
  if state.IsDeleted then true
  else EqualFold (TrimSpace state.ExplainedStatus) "deleted".toList

/-- The inner `for _, item := range res.Results` of `FindInstanceByDisplayName`: `some r` is
the `return` taken inside the loop, `none` means the loop ran to its end. -/
def FindInstanceByDisplayName.scan (serviceId : Int) (displayName : Str) :
    List listItem → World → Option (Except Err InstanceStateResponse) × World
  | [], w => (none, w)
  | item :: rest, w =>
    if item.ServiceId = serviceId ∧ item.DisplayName = displayName then
      match GetInstanceState item.InstanceUid w with
      | (.error e, w1) => (some (.error e), w1)
      | (.ok state, w1) =>
        if isInstanceDeleted state then FindInstanceByDisplayName.scan serviceId displayName rest w1
        else (some (.ok state), w1)
    else FindInstanceByDisplayName.scan serviceId displayName rest w

/-- The outer `for` of `FindInstanceByDisplayName`, entered with `page`; `fuel` bounds the
number of iterations (the loop itself leaves once `page` exceeds 100). -/
def FindInstanceByDisplayName.pages (serviceId : Int) (displayName : Str) :
    Nat → Nat → World → Except Err (Option InstanceStateResponse) × World
  | 0, _, w => (.ok none, w)
  | fuel + 1, page, w =>
    match w.send (Request.getInstancesPage page) with
    | (Answer.netErr, w1) => (.error Err.transport, w1)
    | (Answer.resp rp, w1) =>
      if rp.status ≠ 200 then (.error (Err.badStatus rp.status), w1)
      else
        match rp.body.decodeResults with
        | none => (.error Err.json, w1)
        | some results =>
          if results.length = 0 then (.ok none, w1)
          else
            match FindInstanceByDisplayName.scan serviceId displayName results w1 with
            | (some (.error e), w2) => (.error e, w2)
            | (some (.ok state), w2) => (.ok (some state), w2)
            | (none, w2) =>
              if page + 1 > 100 then (.ok none, w2)
              else FindInstanceByDisplayName.pages serviceId displayName fuel (page + 1) w2

/-- The method `FindInstanceByDisplayName`; `none` is the result `nil, nil`. -/
def FindInstanceByDisplayName (serviceId : Int) (displayName : Str) (w : World) :
    Except Err (Option InstanceStateResponse) × World :=
  FindInstanceByDisplayName.pages serviceId displayName 100 1 w

/-! ## Waiting (`client.go`, lines 513-595) -/

/-- The constant `defaultOperationTimeout`: 30 minutes, in nanoseconds. -/
def defaultOperationTimeout : Nat := 30 * (60 * 1000000000)

/-- What one tick of `waitForOperationFinish` does with the decoded status (lines 557-566):
`none` keeps polling, `some r` returns `r`. -/
def waitForOperationFinish.decision (opUid : Str) (status : operationStatus) :
    Option (Except Err Unit) :=
  match status.DtFinish with
  | none => none
  | some dtFinish =>
    if TrimSpace dtFinish ≠ [] then
      match status.IsSuccessful with
      | some false =>
        match status.ErrorLog with
        | some errorLog =>
          if TrimSpace errorLog ≠ [] then some (.error (Err.operationFailedLog opUid errorLog))
          else some (.error (Err.operationFailed opUid))
        | none => some (.error (Err.operationFailed opUid))
      | _ => some (.ok ())
    else none

/-- The loop of `waitForOperationFinish`, run on the outcomes of its `select` statements. -/
def waitForOperationFinish.loop (opUid : Str) (deadline : Nat) :
    List Tick → World → Except Err Unit × World
  | [], w => (.error (Err.operationCancelled opUid), w)
  | Tick.done :: ts, w => (.error (Err.operationCancelled opUid), { w with ticks := ts })
  | Tick.fire t :: ts, w =>
    let w1 : World := { w with ticks := ts, now := t }
    if t > deadline then (.error (Err.operationTimeout opUid), w1)
    else
      match doRequest (Request.getOperationStatus opUid) w1 with
      | (.error e, w2) => (.error (Err.checkOperationStatus opUid e), w2)
      | (.ok (body, _), w2) =>
        match body.decodeOperationStatus with
        | none => (.error (Err.parseOperationStatus opUid Err.json), w2)
        | some status =>
          match waitForOperationFinish.decision opUid status with
          | some r => (r, w2)
          | none => waitForOperationFinish.loop opUid deadline ts w2

/-- The method `waitForOperationFinish`. -/
def waitForOperationFinish (opUid : Str) (timeout : Nat) (w : World) : Except Err Unit × World :=
  waitForOperationFinish.loop opUid (w.now + timeout) w.ticks w

/-- The loop of `waitForInstanceIdle`. -/
def waitForInstanceIdle.loop (instanceUid : Str) (deadline : Nat) :
    List Tick → World → Except Err Unit × World
  | [], w => (.error (Err.idleCancelled instanceUid), w)
  | Tick.done :: ts, w => (.error (Err.idleCancelled instanceUid), { w with ticks := ts })
  | Tick.fire t :: ts, w =>
    let w1 : World := { w with ticks := ts, now := t }
    if t > deadline then (.error (Err.idleTimeout instanceUid), w1)
    else
      match GetInstanceState instanceUid w1 with
      | (.error e, w2) => (.error (Err.checkInstanceState instanceUid e), w2)
      | (.ok state, w2) =>
        if !state.OperationIsPending && !state.OperationIsInProgress then (.ok (), w2)
        else waitForInstanceIdle.loop instanceUid deadline ts w2

/-- The method `waitForInstanceIdle`. -/
def waitForInstanceIdle (instanceUid : Str) (timeout : Nat) (w : World) :
    Except Err Unit × World :=
  waitForInstanceIdle.loop instanceUid (w.now + timeout) w.ticks w

/-! ## Parameter values (`client.go`, lines 201-224, 658-775) -/

/-- The function `normalizeUniversalValueV6`. -/
def normalizeUniversalValueV6 (val : Str) (param : universalCfsParam) : Str :=
  let trimmed := TrimSpace val
  let trimmed := if EqualFold trimmed "null".toList then [] else trimmed
  let trimmed := if trimmed = "\"\"".toList then [] else trimmed
  if trimmed ≠ [] then trimmed
  else
    let dataType := ToLower param.DataType
    let nameHint := ToLower (param.Name ++ " ".toList ++ param.Code ++ " ".toList ++
      param.Label ++ " ".toList ++ param.SvcOperationCfsParam)
    if Contains dataType "array".toList || Contains nameHint "array".toList ||
        Contains nameHint "list".toList then "[]".toList
    else if Contains dataType "map".toList || Contains dataType "json".toList ||
        Contains nameHint "map".toList || Contains nameHint "json".toList then "\x7b\x7d".toList
    else trimmed

/-- The function `extractUIDFromLocation`. -/
def extractUIDFromLocation (loc : Str) : Str :=
  if loc = [] then [] else TrimPrefix loc "./".toList

/-- The function `isHexDigit`. -/
def isHexDigit (r : Char) : Bool :=
  (decide ('0' ≤ r) && decide (r ≤ '9')) || (decide ('a' ≤ r) && decide (r ≤ 'f')) ||
  (decide ('A' ≤ r) && decide (r ≤ 'F'))

/-- The loop `for i, r := range trimmed` of `isUUIDLike`; `i` is the byte offset of the rune. -/
def isUUIDLike.loop : Nat → Str → Bool
  | _, [] => true
  | i, r :: rest =>
    if i = 8 ∨ i = 13 ∨ i = 18 ∨ i = 23 then
      if r ≠ '-' then false else isUUIDLike.loop (i + r.utf8Size) rest
    else
      if !isHexDigit r then false else isUUIDLike.loop (i + r.utf8Size) rest

/-- The function `isUUIDLike`. -/
def isUUIDLike (value : Str) : Bool :=
  let trimmed := TrimSpace value
  if byteLen trimmed ≠ 36 then false else isUUIDLike.loop 0 trimmed

/-- The inner loop of `findInstanceUidByDisplayNameRefSvc` over one page: the uid of the first
item with the service id and a display name equal under case folding. -/
def findInstanceUidByDisplayNameRefSvc.scan (serviceId : Int) (displayName : Str) :
    List listItem → Option Str
  | [] => none
  | item :: rest =>
    if item.ServiceId = serviceId ∧ EqualFold item.DisplayName displayName = true then
      some item.InstanceUid
    else findInstanceUidByDisplayNameRefSvc.scan serviceId displayName rest

/-- The outer `for` of `findInstanceUidByDisplayNameRefSvc`, entered with `page`. -/
def findInstanceUidByDisplayNameRefSvc.pages (serviceId : Int) (displayName : Str) :
    Nat → Nat → World → Except Err Str × World
  | 0, _, w => (.ok [], w)
  | fuel + 1, page, w =>
    match doRequest (Request.getInstancesPage page) w with
    | (.error e, w1) => (.error e, w1)
    | (.ok (body, _), w1) =>
      match body.decodeResults with
      | none => (.error Err.json, w1)
      | some results =>
        if results.length = 0 then (.ok [], w1)
        else
          match findInstanceUidByDisplayNameRefSvc.scan serviceId displayName results with
          | some uid => (.ok uid, w1)
          | none =>
            if page + 1 > 100 then (.ok [], w1)
            else findInstanceUidByDisplayNameRefSvc.pages serviceId displayName fuel (page + 1) w1

/-- The method `findInstanceUidByDisplayNameRefSvc`; the empty string is `not found`. -/
def findInstanceUidByDisplayNameRefSvc (serviceId : Int) (displayName : Str) (w : World) :
    Except Err Str × World :=
  findInstanceUidByDisplayNameRefSvc.pages serviceId displayName 100 1 w

/-- The map `refById` of `resolveRefSvcParamValues`, as the list of its assignments in order. -/
def resolveRefSvcParamValues.refById (opParams : List universalCfsParam) : List (Int × Int) :=
  opParams.filterMap fun p =>
    match p.RefSvcId with
    | some r => if r > 0 then some (p.SvcOperationCfsParamId, r) else none
    | none => none

/-- The lookup `refById[paramId]`: the last assignment to the key wins. -/
def resolveRefSvcParamValues.lookup (refById : List (Int × Int)) (paramId : Int) : Option Int :=
  (refById.reverse.find? fun kv => decide (kv.1 = paramId)).map Prod.snd

/-- The loop `for paramId, value := range params` of `resolveRefSvcParamValues`. -/
def resolveRefSvcParamValues.loop (refById : List (Int × Int)) :
    List (Int × Str) → World → Except Err (List (Int × Str)) × World
  | [], w => (.ok [], w)
  | (paramId, value) :: rest, w =>
    match resolveRefSvcParamValues.lookup refById paramId with
    | some refSvcId =>
      if !isUUIDLike value then
        match findInstanceUidByDisplayNameRefSvc refSvcId value w with
        | (.error e, w1) => (.error e, w1)
        | (.ok uid, w1) =>
          if uid = [] then (.error (Err.resolveParam paramId refSvcId value), w1)
          else
            match resolveRefSvcParamValues.loop refById rest w1 with
            | (.error e, w2) => (.error e, w2)
            | (.ok resolved, w2) => (.ok ((paramId, uid) :: resolved), w2)
      else
        match resolveRefSvcParamValues.loop refById rest w with
        | (.error e, w2) => (.error e, w2)
        | (.ok resolved, w2) => (.ok ((paramId, value) :: resolved), w2)
    | none =>
      match resolveRefSvcParamValues.loop refById rest w with
      | (.error e, w2) => (.error e, w2)
      | (.ok resolved, w2) => (.ok ((paramId, value) :: resolved), w2)

/-- The method `resolveRefSvcParamValues`.  The resolved map is listed in the order of the
supplied one. -/
def resolveRefSvcParamValues (opParams : List universalCfsParam) (params : List (Int × Str))
    (w : World) : Except Err (List (Int × Str)) × World :=
  if params.length = 0 ∨ opParams.length = 0 then (.ok params, w)
  else
    let refById := resolveRefSvcParamValues.refById opParams
    if refById.length = 0 then (.ok params, w)
    else resolveRefSvcParamValues.loop refById params w

/-! ## Running operations (`client.go`, lines 62-199, 226-389, 638-656, 777-793) -/

/-- The method `postIgnoreResponse`. -/
def postIgnoreResponse (r : Request) (returnLocation : Bool) (w : World) :
    Except Err Str × World :=
  match doRequest r w with
  | (.error e, w1) => (.error e, w1)
  | (.ok (respBody, location), w1) =>
    if returnLocation ∧ location ≠ [] then (.ok (extractUIDFromLocation location), w1)
    else
      match respBody.decodeString with
      | some justId => if justId ≠ [] then (.ok justId, w1) else (.ok [], w1)
      | none => (.ok [], w1)

/-- The loop over `state.AvailableOperations` in `RunInstanceOperationUniversal`: the
`SvcOperationId` of the first operation whose name equals `action` under case folding, and 0
when there is none. -/
def findOperationId (action : Str) : List ApiOperation → Int
  | [] => 0
  | op :: rest =>
    if EqualFold op.Operation action then op.SvcOperationId else findOperationId action rest

/-- The loop `for paramId, value := range params` that submits the supplied parameters; it
returns the map `sent` (as the list of the ids set to true, newest first). -/
def submitParams (opUid : Str) : List (Int × Str) → List Int → World →
    Except Err (List Int) × World
  | [], sent, w => (.ok sent, w)
  | (paramId, value) :: rest, sent, w =>
    match doRequest (Request.postParam opUid paramId value) w with
    | (.error e, w1) => (.error (Err.setParam paramId e), w1)
    | (.ok _, w1) => submitParams opUid rest (paramId :: sent) w1

/-- The value a descriptor starts from: `ParamValue` if present, else `DefaultValue` if
present, else the empty string. -/
def initialValue (param : universalCfsParam) : Str :=
  match param.ParamValue with
  | some v => v
  | none =>
    match param.DefaultValue with
    | some d => d
    | none => []

/-- The loop over the descriptors in `CreateGenericInstanceUniversalV6` (lines 150-178). -/
def submitRequiredDefaults (opUid : Str) (sent : List Int) :
    List universalCfsParam → World → Except Err Unit × World
  | [], w => (.ok (), w)
  | param :: rest, w =>
    if param.SvcOperationCfsParamId ∈ sent then submitRequiredDefaults opUid sent rest w
    else if !param.IsRequired then submitRequiredDefaults opUid sent rest w
    else
      let val := normalizeUniversalValueV6 (initialValue param) param
      if !param.IsRequired && decide (TrimSpace val = []) then
        submitRequiredDefaults opUid sent rest w
      else
        match doRequest (Request.postParam opUid param.SvcOperationCfsParamId val) w with
        | (.error e, w1) => (.error (Err.submitDefaultParam param.SvcOperationCfsParamId e), w1)
        | (.ok _, w1) => submitRequiredDefaults opUid sent rest w1

/-- The loop over the descriptors in `RunInstanceOperationUniversalWithDefaults`
(lines 353-375). -/
def submitAllDefaults (opUid : Str) (sent : List Int) :
    List universalCfsParam → World → Except Err Unit × World
  | [], w => (.ok (), w)
  | param :: rest, w =>
    if param.SvcOperationCfsParamId ∈ sent then submitAllDefaults opUid sent rest w
    else
      let val := normalizeUniversalValueV6 (initialValue param) param
      match doRequest (Request.postParam opUid param.SvcOperationCfsParamId val) w with
      | (.error e, w1) => (.error (Err.submitDefaultParam param.SvcOperationCfsParamId e), w1)
      | (.ok _, w1) => submitAllDefaults opUid sent rest w1

/-- The method `ensureInstanceCreated`. -/
def ensureInstanceCreated (instanceUid : Str) (w : World) : Except Err Unit × World :=
  match GetInstanceState instanceUid w with
  | (.error e, w1) => (.error (Err.fetchStateAfterCreate e), w1)
  | (.ok state, w1) =>
    if state.IsDeleted then (.error (Err.deletedAfterCreate instanceUid), w1)
    else
      let status := ToLower (TrimSpace state.ExplainedStatus)
      if status = "not created".toList then (.error (Err.notCreatedAfterFinish instanceUid), w1)
      else (.ok (), w1)

/-- The extraction of a new identifier (lines 76-89 and 104-117): the `Location` header, then
the field of the decoded struct, then a bare string body. -/
def extractUid (location : Str) (field bare : Option Str) : Str :=
  let uid := extractUIDFromLocation location
  if uid = [] then
    match field with
    | some f =>
      if f ≠ [] then f
      else
        match bare with
        | some justId => if justId ≠ [] then justId else uid
        | none => uid
    | none =>
      match bare with
      | some justId => if justId ≠ [] then justId else uid
      | none => uid
  else uid

/-- The method `RunInstanceOperationUniversal`; a `nil` map of parameters is the empty list. -/
def RunInstanceOperationUniversal (instanceUid action : Str) (params : List (Int × Str))
    (w : World) : Except Err Unit × World :=
  match GetInstanceState instanceUid w with
  | (.error e, w1) => (.error e, w1)
  | (.ok state, w1) =>
    let idle : Except Err Unit × World :=
      if state.OperationIsPending || state.OperationIsInProgress then
        waitForInstanceIdle instanceUid defaultOperationTimeout w1
      else (.ok (), w1)
    match idle with
    | (.error e, w2) => (.error e, w2)
    | (.ok _, w2) =>
      let opId := findOperationId action state.AvailableOperations
      if opId = 0 then (.error (Err.actionNotAvailable action instanceUid), w2)
      else
        match postIgnoreResponse (Request.postAction instanceUid opId action) true w2 with
        | (.error e, w3) => (.error (Err.createOperation action e), w3)
        | (.ok opUid, w3) =>
          if opUid = [] then (.error (Err.noOperationUidFor action), w3)
          else
            match submitParams opUid params [] w3 with
            | (.error e, w4) => (.error e, w4)
            | (.ok _, w4) =>
              match doRequest (Request.postRun opUid) w4 with
              | (.error e, w5) => (.error e, w5)
              | (.ok _, w5) => waitForOperationFinish opUid defaultOperationTimeout w5

/-- The method `RunInstanceOperationUniversalWithDefaults`. -/
def RunInstanceOperationUniversalWithDefaults (instanceUid action : Str)
    (params : List (Int × Str)) (w : World) : Except Err Unit × World :=
  match GetInstanceState instanceUid w with
  | (.error e, w1) => (.error e, w1)
  | (.ok state, w1) =>
    let idle : Except Err Unit × World :=
      if state.OperationIsPending || state.OperationIsInProgress then
        waitForInstanceIdle instanceUid defaultOperationTimeout w1
      else (.ok (), w1)
    match idle with
    | (.error e, w2) => (.error e, w2)
    | (.ok _, w2) =>
      let opId := findOperationId action state.AvailableOperations
      if opId = 0 then (.error (Err.actionNotAvailable action instanceUid), w2)
      else
        match postIgnoreResponse (Request.postAction instanceUid opId action) true w2 with
        | (.error e, w3) => (.error (Err.createOperation action e), w3)
        | (.ok opUid, w3) =>
          if opUid = [] then (.error (Err.noOperationUidFor action), w3)
          else
            match doRequest (Request.getOperationParams opUid) w3 with
            | (.error e, w4) => (.error (Err.getOperationDetails e), w4)
            | (.ok (opDetailsResp, _), w4) =>
              match opDetailsResp.decodeCfsParams with
              | none => (.error (Err.parseOperationDetails Err.json), w4)
              | some cfsParams =>
                match resolveRefSvcParamValues cfsParams params w4 with
                | (.error e, w5) => (.error e, w5)
                | (.ok resolved, w5) =>
                  match submitParams opUid resolved [] w5 with
                  | (.error e, w6) => (.error e, w6)
                  | (.ok sent, w6) =>
                    match submitAllDefaults opUid sent cfsParams w6 with
                    | (.error e, w7) => (.error e, w7)
                    | (.ok _, w7) =>
                      match doRequest (Request.getValidate opUid) w7 with
                      | (.error e, w8) => (.error (Err.validationFailed e), w8)
                      | (.ok _, w8) =>
                        match doRequest (Request.postRun opUid) w8 with
                        | (.error e, w9) => (.error e, w9)
                        | (.ok _, w9) => waitForOperationFinish opUid defaultOperationTimeout w9

/-- The steps of `CreateGenericInstanceUniversalV6` from the operation details on
(lines 122-198), for the instance and operation just created. -/
def CreateGenericInstanceUniversalV6.configure (instanceUid opUid : Str)
    (params : List (Int × Str)) (w : World) : Except Err Str × World :=
  match doRequest (Request.getOperationParams opUid) w with
  | (.error e, w1) => (.error (Err.getOperationDetails e), w1)
  | (.ok (opDetailsResp, _), w1) =>
    match opDetailsResp.decodeCfsParams with
    | none => (.error (Err.parseOperationDetails Err.json), w1)
    | some cfsParams =>
      match resolveRefSvcParamValues cfsParams params w1 with
      | (.error e, w2) => (.error e, w2)
      | (.ok resolved, w2) =>
        match submitParams opUid resolved [] w2 with
        | (.error e, w3) => (.error e, w3)
        | (.ok sent, w3) =>
          match submitRequiredDefaults opUid sent cfsParams w3 with
          | (.error e, w4) => (.error e, w4)
          | (.ok _, w4) =>
            match doRequest (Request.getValidate opUid) w4 with
            | (.error e, w5) => (.error (Err.validationFailed e), w5)
            | (.ok _, w5) =>
              match doRequest (Request.postRun opUid) w5 with
              | (.error e, w6) => (.error (Err.executionFailed e), w6)
              | (.ok _, w6) =>
                match waitForOperationFinish opUid defaultOperationTimeout w6 with
                | (.error e, w7) => (.error e, w7)
                | (.ok _, w7) =>
                  match ensureInstanceCreated instanceUid w7 with
                  | (.error e, w8) => (.error e, w8)
                  | (.ok _, w8) => (.ok instanceUid, w8)

/-- The method `CreateGenericInstanceUniversalV6`:
instances -> instanceOperations -> get cfsParams -> submit params -> validate -> run. -/
def CreateGenericInstanceUniversalV6 (serviceId : Int) (displayName : Str)
    (params : List (Int × Str)) (w : World) : Except Err Str × World :=
  match doRequest (Request.postInstance serviceId displayName
      "Created via Terraform Universal Provider".toList) w with
  | (.error e, w1) => (.error e, w1)
  | (.ok (instResp, instLocation), w1) =>
    let instanceUid := extractUid instLocation instResp.decodeInstanceUid instResp.decodeString
    if instanceUid = [] then (.error (Err.noInstanceUid instLocation), w1)
    else
      match doRequest (Request.postOperation instanceUid "create".toList) w1 with
      | (.error e, w2) => (.error e, w2)
      | (.ok (opResp, opLocation), w2) =>
        let opUid := extractUid opLocation opResp.decodeInstanceOperationUid opResp.decodeString
        if opUid = [] then (.error (Err.noOperationUid opLocation), w2)
        else CreateGenericInstanceUniversalV6.configure instanceUid opUid params w2

/-- The steps of `CreateGenericInstanceUniversalV6` from the validation on (lines 180-198), as
`CreateGenericInstanceUniversalV6.configure` runs them once the parameters are submitted. -/
def CreateGenericInstanceUniversalV6.finish (instanceUid opUid : Str) (w : World) :
    Except Err Str × World :=
  match doRequest (Request.getValidate opUid) w with
  | (.error e, w5) => (.error (Err.validationFailed e), w5)
  | (.ok _, w5) =>
    match doRequest (Request.postRun opUid) w5 with
    | (.error e, w6) => (.error (Err.executionFailed e), w6)
    | (.ok _, w6) =>
      match waitForOperationFinish opUid defaultOperationTimeout w6 with
      | (.error e, w7) => (.error e, w7)
      | (.ok _, w7) =>
        match ensureInstanceCreated instanceUid w7 with
        | (.error e, w8) => (.error e, w8)
        | (.ok _, w8) => (.ok instanceUid, w8)

/-! ## Create, update, delete (`crud.go`) -/

/-- The function `isStatusSuspended`. -/
def isStatusSuspended (status : Str) : Bool :=
  Contains status "suspend".toList || Contains status "suspended".toList

/-- The function `isStatusNonAdoptable`. -/
def isStatusNonAdoptable (status : Str) : Bool :=
  if status = [] then true
  else if Contains status "not created".toList then true
  else if Contains status "pending".toList || Contains status "creating".toList then true
  else if Contains status "failed".toList || Contains status "error".toList then true
  else false

/-- The function `CreateResource`: the universal client flow for create/resume/adopt. -/
def CreateResource (serviceID : Int) (displayName : Str) (resumeIfExists : Bool)
    (params : List (Int × Str)) (w : World) : Except Err Str × World :=
  match FindInstanceByDisplayName serviceID displayName w with
  | (.error e, w1) => (.error e, w1)
  | (.ok (some existing), w1) =>
    if !resumeIfExists then (.error (Err.alreadyExists displayName), w1)
    else
      let status := ToLower (TrimSpace existing.ExplainedStatus)
      if isStatusNonAdoptable status then
        (.error (Err.notReadyForAdopt existing.ExplainedStatus), w1)
      else if isStatusSuspended status then
        match RunInstanceOperationUniversal existing.InstanceUid "resume".toList [] w1 with
        | (.error e, w2) => (.error e, w2)
        | (.ok _, w2) =>
          match GetInstanceState existing.InstanceUid w2 with
          | (.error e, w3) => (.error e, w3)
          | (.ok resumed, w3) =>
            let resumedStatus := ToLower (TrimSpace resumed.ExplainedStatus)
            if isStatusNonAdoptable resumedStatus || isStatusSuspended resumedStatus then
              (.error (Err.notReadyAfterResume resumed.ExplainedStatus), w3)
            else (.ok existing.InstanceUid, w3)
      else (.ok existing.InstanceUid, w1)
  | (.ok none, w1) => CreateGenericInstanceUniversalV6 serviceID displayName params w1

/-- The function `UpdateResource`: the universal modify flow with defaults. -/
def UpdateResource (instanceID : Str) (params : List (Int × Str)) (w : World) :
    Except Err Unit × World :=
  if TrimSpace instanceID = [] then (.error Err.missingInstanceId, w)
  else RunInstanceOperationUniversalWithDefaults instanceID "modify".toList params w

/-- The function `DeleteResource`: runs delete/suspend or removes from state. -/
def DeleteResource (instanceID deleteMode : Str) (w : World) : Except Err Unit × World :=
  let mode := ToLower (TrimSpace deleteMode)
  let mode := if mode = [] then "state_only".toList else mode
  if mode = "state_only".toList then (.ok (), w)
  else if mode = "suspend".toList ∨ mode = "delete".toList then
    RunInstanceOperationUniversal instanceID mode [] w
  else (.error (Err.invalidDeleteMode deleteMode), w)

/-! ## Earlier normalizers (`forNubes/internal/core/client.go`) -/

/-- The struct `universalCfsParamV3` of the earlier client. -/
structure universalCfsParamV3 where
  SvcOperationCfsParamId : Int
  ParamValue : Option Str
  DefaultValue : Option Str
  DataType : Str
  Name : Str
  Code : Str
  Label : Str
  SvcOperationCfsParam : Str
deriving DecidableEq, Repr

/-- The function `normalizeUniversalValue` of the earlier client (lines 367-380). -/
def normalizeUniversalValue (val dataType : Str) : Str :=
  if val ≠ [] then val
  else
    let dt := ToLower dataType
    if dt = "map".toList ∨ dt = "json".toList then "\x7b\x7d".toList
    else if dt = "array".toList ∨ dt = "list".toList then "[]".toList
    else val

/-- The function `normalizeUniversalValueV3` of the earlier client (lines 717-733). -/
def normalizeUniversalValueV3 (val : Str) (param : universalCfsParamV3) : Str :=
  if val ≠ [] then val
  else
    let dataType := ToLower param.DataType
    let nameHint := ToLower (param.Name ++ " ".toList ++ param.Code ++ " ".toList ++
      param.Label ++ " ".toList ++ param.SvcOperationCfsParam)
    if dataType = "map".toList ∨ dataType = "json".toList ∨
        Contains nameHint "map".toList = true ∨ Contains nameHint "json".toList = true then
      "\x7b\x7d".toList
    else if dataType = "array".toList ∨ dataType = "list".toList ∨
        Contains nameHint "array".toList = true ∨ Contains nameHint "list".toList = true then
      "[]".toList
    else val

/-- The struct `universalCfsParamV2` of the earlier client: a descriptor without its label. -/
structure universalCfsParamV2 where
  SvcOperationCfsParamId : Int
  ParamValue : Option Str
  DefaultValue : Option Str
  DataType : Str
  Name : Str
  Code : Str
  SvcOperationCfsParam : Str
deriving DecidableEq, Repr

/-- The function `normalizeUniversalValueV2` of the earlier client (lines 538-554). -/
def normalizeUniversalValueV2 (val : Str) (param : universalCfsParamV2) : Str :=
  if val ≠ [] then val
  else
    let dataType := ToLower param.DataType
    let nameHint := ToLower (param.Name ++ " ".toList ++ param.Code ++ " ".toList ++
      param.SvcOperationCfsParam)
    if dataType = "map".toList ∨ dataType = "json".toList ∨
        Contains nameHint "map".toList = true ∨ Contains nameHint "json".toList = true then
      "\x7b\x7d".toList
    else if dataType = "array".toList ∨ dataType = "list".toList ∨
        Contains nameHint "array".toList = true ∨ Contains nameHint "list".toList = true then
      "[]".toList
    else val

/-- The function `normalizeUniversalValueV4` of the earlier client (lines 877-894). -/
def normalizeUniversalValueV4 (val : Str) (param : universalCfsParamV3) : Str :=
  let trimmed := TrimSpace val
  if trimmed ≠ [] then trimmed
  else
    let dataType := ToLower param.DataType
    let nameHint := ToLower (param.Name ++ " ".toList ++ param.Code ++ " ".toList ++
      param.Label ++ " ".toList ++ param.SvcOperationCfsParam)
    if Contains dataType "array".toList || Contains nameHint "array".toList ||
        Contains nameHint "list".toList then "[]".toList
    else if Contains dataType "map".toList || Contains dataType "json".toList ||
        Contains nameHint "map".toList || Contains nameHint "json".toList then "\x7b\x7d".toList
    else trimmed

/-- The function `normalizeUniversalValueV5` of the earlier client (lines 1039-1059). -/
def normalizeUniversalValueV5 (val : Str) (param : universalCfsParamV3) : Str :=
  let trimmed := TrimSpace val
  let trimmed := if EqualFold trimmed "null".toList then [] else trimmed
  if trimmed ≠ [] then trimmed
  else
    let dataType := ToLower param.DataType
    let nameHint := ToLower (param.Name ++ " ".toList ++ param.Code ++ " ".toList ++
      param.Label ++ " ".toList ++ param.SvcOperationCfsParam)
    if Contains dataType "array".toList || Contains nameHint "array".toList ||
        Contains nameHint "list".toList then "[]".toList
    else if Contains dataType "map".toList || Contains dataType "json".toList ||
        Contains nameHint "map".toList || Contains nameHint "json".toList then "\x7b\x7d".toList
    else trimmed

/-- The function `normalizeUniversalValueV6` of the earlier client (lines 1203-1227); the
client of `universal_rebuild` has the same function for its own descriptor struct. -/
def Earlier.normalizeUniversalValueV6 (val : Str) (param : universalCfsParamV3) : Str :=
  let trimmed := TrimSpace val
  let trimmed := if EqualFold trimmed "null".toList then [] else trimmed
  let trimmed := if trimmed = "\"\"".toList then [] else trimmed
  if trimmed ≠ [] then trimmed
  else
    let dataType := ToLower param.DataType
    let nameHint := ToLower (param.Name ++ " ".toList ++ param.Code ++ " ".toList ++
      param.Label ++ " ".toList ++ param.SvcOperationCfsParam)
    if Contains dataType "array".toList || Contains nameHint "array".toList ||
        Contains nameHint "list".toList then "[]".toList
    else if Contains dataType "map".toList || Contains dataType "json".toList ||
        Contains nameHint "map".toList || Contains nameHint "json".toList then "\x7b\x7d".toList
    else trimmed

/-! ## Retries (`forNubes/internal/provider/tubulus_resource.go`, lines 213-268) -/

/-- What one call of `HttpClient.Do` gives back to `doRequestWithRetry`. -/
inductive Attempt where
  /-- An error with the message `errMsg`; `cancelled` tells whether `ctx.Err()` is non-nil
  when the error is looked at. -/
  | failed (errMsg : Str) (cancelled : Bool) : Attempt
  /-- A response with the given status code. -/
  | answered (status : Nat) : Attempt
deriving DecidableEq, Repr

/-- The errors that `doRequestWithRetry` returns. -/
inductive RetryErr where
  /-- The error of `httpReq.GetBody()`. -/
  | getBody : RetryErr
  /-- The error `ctx.Err()` of a cancelled context. -/
  | context : RetryErr
  /-- The error of `HttpClient.Do`, with its message. -/
  | network (errMsg : Str) : RetryErr
deriving DecidableEq, Repr

/-- What `doRequestWithRetry` does that can be observed from outside, in order. -/
inductive RetryEvent where
  /-- One call of `HttpClient.Do`: one attempt of the request. -/
  | attempt : RetryEvent
  /-- One call of `time.Sleep`, with the duration in nanoseconds. -/
  | sleep (d : Nat) : RetryEvent
deriving DecidableEq, Repr

/-- The environment of `doRequestWithRetry`. -/
structure RetryWorld where
  /-- What the coming calls of `HttpClient.Do` give back; after them the context is
  cancelled. -/
  outcomes : List Attempt
  /-- Whether the coming calls of `httpReq.GetBody` succeed; after them they fail. -/
  bodies : List Bool
  /-- The attempts and sleeps so far, oldest first. -/
  trace : List RetryEvent
deriving DecidableEq, Repr

/-- One call of `HttpClient.Do`. -/
def RetryWorld.perform (w : RetryWorld) : Attempt × RetryWorld :=
  match w.outcomes with
  | [] => (Attempt.failed [] true, { w with trace := w.trace ++ [RetryEvent.attempt] })
  | a :: rest => (a, { w with outcomes := rest, trace := w.trace ++ [RetryEvent.attempt] })

/-- One call of `httpReq.GetBody`: `true` when it returns a body. -/
def RetryWorld.getBody (w : RetryWorld) : Bool × RetryWorld :=
  match w.bodies with
  | [] => (false, w)
  | b :: rest => (b, { w with bodies := rest })

/-- One call of `time.Sleep`. -/
def RetryWorld.sleep (w : RetryWorld) (d : Nat) : RetryWorld :=
  { w with trace := w.trace ++ [RetryEvent.sleep d] }

/-- The local constant `maxRetries` of `doRequestWithRetry`. -/
def doRequestWithRetry.maxRetries : Nat := 3

/-- The local constant `baseWait` of `doRequestWithRetry`: 2 seconds, in nanoseconds. -/
def doRequestWithRetry.baseWait : Nat := 2 * 1000000000

/-- The test on the message of a network error (lines 242-246). -/
def doRequestWithRetry.transient (errMsg : Str) : Bool :=
  Contains errMsg "TLS handshake timeout".toList || Contains errMsg "connection refused".toList ||
  Contains errMsg "connection reset".toList || Contains errMsg "timeout".toList ||
  Contains errMsg "EOF".toList

/-- The loop `for i := 0; i <= maxRetries; i++` of `doRequestWithRetry`, entered with `i` and
with the current values `last` of the variables `resp` (the status of the response) and `err`;
`fuel` bounds the number of iterations.  The result is the pair the function returns. -/
def doRequestWithRetry.loop (hasGetBody : Bool) :
    Nat → Nat → Option Nat × Option RetryErr → RetryWorld →
      (Option Nat × Option RetryErr) × RetryWorld
  | 0, _, last, w => (last, w)
  | fuel + 1, i, last, w =>
    if ¬ (i ≤ doRequestWithRetry.maxRetries) then (last, w)
    else
      let reset : Bool × RetryWorld := if i > 0 ∧ hasGetBody = true then w.getBody else (true, w)
      match reset with
      | (false, w1) => ((none, some RetryErr.getBody), w1)
      | (true, w1) =>
        match w1.perform with
        | (Attempt.failed errMsg cancelled, w2) =>
          if cancelled then ((none, some RetryErr.context), w2)
          else if i < doRequestWithRetry.maxRetries ∧
              doRequestWithRetry.transient errMsg = true then
            doRequestWithRetry.loop hasGetBody fuel (i + 1) (none, some (RetryErr.network errMsg))
              (w2.sleep (doRequestWithRetry.baseWait * (i + 1)))
          else ((none, some (RetryErr.network errMsg)), w2)
        | (Attempt.answered status, w2) =>
          if i < doRequestWithRetry.maxRetries ∧ status ≥ 500 ∧ status < 600 then
            doRequestWithRetry.loop hasGetBody fuel (i + 1) (some status, none)
              (w2.sleep (doRequestWithRetry.baseWait * (i + 1)))
          else ((some status, none), w2)

/-- The method `doRequestWithRetry`; `hasGetBody` tells whether `httpReq.GetBody` is set.  The
result is the pair `(resp, err)`, a response being given by its status code. -/
def doRequestWithRetry (hasGetBody : Bool) (w : RetryWorld) :
    (Option Nat × Option RetryErr) × RetryWorld :=
  doRequestWithRetry.loop hasGetBody (doRequestWithRetry.maxRetries + 1) 0 (none, none) w

/-! ## Vocabulary of the statements -/

/-- The status that a tick of `waitForOperationFinish` reads from the answer to its request:
`none` when `doRequest` or the decoding fails. -/
def Answer.polled : Answer → Option operationStatus
  | Answer.netErr => none
  | Answer.resp rp => if rp.status ≥ 400 then none else rp.body.decodeOperationStatus

/-- The completion test of line 558: `dtFinish` is present and not blank. -/
def operationStatus.finished (status : operationStatus) : Bool :=
  match status.DtFinish with
  | some dtFinish => decide (TrimSpace dtFinish ≠ [])
  | none => false

/-- A tick that fires at time `p.1`, not after `deadline`, and whose request is answered by
`p.2` with a status that is not finished: the poller goes on to the next tick. -/
def pollsOn (deadline : Nat) (p : Nat × Answer) : Bool :=
  decide (p.1 ≤ deadline) &&
    match p.2.polled with
    | some status => !status.finished
    | none => false

/-- The answer is a status response without a `dtFinish`: the field is absent or empty. -/
def Answer.noDtFinish (a : Answer) : Bool :=
  match a.polled with
  | some status => decide (status.DtFinish = none ∨ status.DtFinish = some [])
  | none => false

/-- The write requests among the requests issued: those sent with `POST`. -/
def writes (issued : List Request) : List Request :=
  issued.filter fun r => decide (r.method = Method.POST)

/-- The request is a run request (`POST /instanceOperations/%s/run`). -/
def Request.isRun : Request → Bool
  | Request.postRun _ => true
  | _ => false

/-- The descriptors that `CreateGenericInstanceUniversalV6` decodes from the answer to its
request for the operation details: `none` when `doRequest` or the decoding fails. -/
def Answer.cfsParams : Answer → Option (List universalCfsParam)
  | Answer.netErr => none
  | Answer.resp rp => if rp.status ≥ 400 then none else rp.body.decodeCfsParams

/-- The text `nameHint` of `normalizeUniversalValueV6` (line 214): name, code, label and
`svcOperationCfsParam` of the descriptor, joined by blanks and lower-cased. -/
def universalCfsParam.nameHint (param : universalCfsParam) : Str :=
  ToLower (param.Name ++ " ".toList ++ param.Code ++ " ".toList ++
    param.Label ++ " ".toList ++ param.SvcOperationCfsParam)

/-- A value that counts as empty: after trimming white space it is empty, the text `null` in
any letter case, or the token `""`. -/
def isEmptyValue (val : Str) : Bool :=
  decide (TrimSpace val = []) || EqualFold (TrimSpace val) "null".toList ||
    decide (TrimSpace val = "\"\"".toList)

/-- The identifier form in the words of the specification: exactly 36 characters, a hyphen
at each of the positions 8, 13, 18 and 23 (counted from 0) and a hexadecimal digit (0-9, a-f,
A-F) at every other position. -/
def hasUUIDForm (v : Str) : Bool :=
  decide (v.length = 36) &&
    v.enum.all fun p =>
      if p.1 = 8 ∨ p.1 = 13 ∨ p.1 = 18 ∨ p.1 = 23 then decide (p.2 = '-')
      else (decide ('0' ≤ p.2) && decide (p.2 ≤ '9')) ||
        (decide ('a' ≤ p.2) && decide (p.2 ≤ 'f')) || (decide ('A' ≤ p.2) && decide (p.2 ≤ 'F'))

/-- The results that a scan reads from the answer to a list request: `none` when `doRequest`
or the decoding fails. -/
def Answer.page : Answer → Option (List listItem)
  | Answer.netErr => none
  | Answer.resp rp => if rp.status ≥ 400 then none else rp.body.decodeResults

/-- The instance list that a scan of at most `pages` pages reads from the coming answers: the
results of the successive pages up to the first empty page; `none` when a page cannot be
read. -/
def scannedList : Nat → List Answer → Option (List listItem)
  | 0, _ => some []
  | _ + 1, [] => none
  | pages + 1, a :: rest =>
    match a.page with
    | none => none
    | some results =>
      if results.length = 0 then some []
      else (scannedList pages rest).map fun more => results ++ more

/-- The first instance of a list with the given service id and a display name equal to the
given one but for letter case. -/
def firstMatch (serviceId : Int) (displayName : Str) (items : List listItem) :
    Option listItem :=
  items.find? fun item => decide (item.ServiceId = serviceId) &&
    EqualFold item.DisplayName displayName

/-- The world `w1` is reached from `w` by issuing the requests `issued`: they are appended to
the log and one answer is consumed for each of them. -/
def Steps (w w1 : World) (issued : List Request) : Prop :=
  w1.log = w.log ++ issued ∧ w1.answers = w.answers.drop issued.length

/-- The answer to a request makes `doRequest` fail: there is none left, the round trip
failed, or the status is 400 or more. -/
def failedAnswer : Option Answer → Bool
  | none => true
  | some Answer.netErr => true
  | some (Answer.resp rp) => decide (rp.status ≥ 400)

/-- The request is a request for a page of the instance list. -/
def Request.isListPage : Request → Bool
  | Request.getInstancesPage _ => true
  | _ => false

/-- The requests for the pages `1, 2, ..., n` of the instance list (each with size 100). -/
def pageRequests (n : Nat) : List Request :=
  (List.range n).map fun k => Request.getInstancesPage (k + 1)

/-- The results that `FindInstanceByDisplayName` reads from the answer to a list request:
`none` when the round trip fails, the status is not 200 or the decoding fails. -/
def Answer.listPage : Answer → Option (List listItem)
  | Answer.netErr => none
  | Answer.resp rp => if rp.status ≠ 200 then none else rp.body.decodeResults

/-- The choice of a new identifier in the words of the specification: the `Location` header
with its `./` prefix stripped when that is non-empty, otherwise the body field when non-empty,
otherwise the bare string body (empty when there is none). -/
def pickIdentifier (location field bare : Str) : Str :=
  if TrimPrefix location "./".toList ≠ [] then TrimPrefix location "./".toList
  else if field ≠ [] then field
  else bare

/-- A structured empty literal: the text `{}` or the text `[]`. -/
def isStructuredEmpty (s : Str) : Bool :=
  decide (s = "\x7b\x7d".toList) || decide (s = "[]".toList)

/-- The descriptor that the V2 flow decodes from the JSON of a descriptor: the same fields,
without the label. -/
def universalCfsParamV3.toV2 (param : universalCfsParamV3) : universalCfsParamV2 :=
  { SvcOperationCfsParamId := param.SvcOperationCfsParamId, ParamValue := param.ParamValue,
    DefaultValue := param.DefaultValue, DataType := param.DataType, Name := param.Name,
    Code := param.Code, SvcOperationCfsParam := param.SvcOperationCfsParam }

/-- The descriptor that the client of `universal_rebuild` decodes from the JSON of a
descriptor: the fields of the earlier struct, with the two further fields as given. -/
def universalCfsParamV3.toUniversal (param : universalCfsParamV3) (isRequired : Bool)
    (refSvcId : Option Int) : universalCfsParam :=
  { SvcOperationCfsParamId := param.SvcOperationCfsParamId, ParamValue := param.ParamValue,
    DefaultValue := param.DefaultValue, IsRequired := isRequired, DataType := param.DataType,
    Name := param.Name, Code := param.Code, Label := param.Label,
    SvcOperationCfsParam := param.SvcOperationCfsParam, RefSvcId := refSvcId }

/-- The attempts and sleeps of `doRequestWithRetry` when every retry is taken: four attempts,
and before the retry number `k` a sleep of `k` times two seconds. -/
def retrySchedule : List RetryEvent :=
  [RetryEvent.attempt, RetryEvent.sleep (2 * 1000000000 * 1), RetryEvent.attempt,
    RetryEvent.sleep (2 * 1000000000 * 2), RetryEvent.attempt,
    RetryEvent.sleep (2 * 1000000000 * 3), RetryEvent.attempt]

/-! ## Example data -/

/-- An answer with status 200 whose body is an object carrying the operation status. -/
def statusAnswer (status : operationStatus) : Answer :=
  Answer.resp { status := 200, location := [], body := Body.obj (
    { jsonObject.empty with instanceOperation := { cfsParams := [], status := status } }) }

/-- An answer with status 200 whose body is an object carrying the instance state. -/
def instanceAnswer (state : InstanceStateResponse) : Answer :=
  Answer.resp { status := 200, location := [], body := Body.obj (
    { jsonObject.empty with inst := state }) }

/-- An answer with status 200 whose body is a list page with the given results. -/
def pageAnswer (results : List listItem) : Answer :=
  Answer.resp { status := 200, location := [], body := Body.obj (
    { jsonObject.empty with results := results }) }

/-- An answer with status 200 whose body is an object carrying the descriptors. -/
def paramsAnswer (cfsParams : List universalCfsParam) : Answer :=
  Answer.resp { status := 200, location := [], body := Body.obj (
    { jsonObject.empty with
      instanceOperation := { cfsParams := cfsParams, status := operationStatus.zero } }) }

/-- An answer with the given status and `Location` header and the body `null`. -/
def plainAnswer (status : Nat) (location : Str) : Answer :=
  Answer.resp { status := status, location := location, body := Body.null }

/-- An example instance `u1` with the given explained status and deleted flag, which offers
the operation `resume` under the id 7. -/
def exampleInstance (status : Str) (deleted : Bool) : InstanceStateResponse :=
  { InstanceUid := "u1".toList, ExplainedStatus := status, IsDeleted := deleted,
    OperationIsInProgress := false, OperationIsPending := false,
    AvailableOperations := [{ SvcOperationId := 7, Operation := "resume".toList }] }

/-- An example descriptor: the given id, required flag and data type, nothing else set. -/
def exampleParam (paramId : Int) (required : Bool) (dataType : Str) : universalCfsParam :=
  { SvcOperationCfsParamId := paramId, ParamValue := none, DefaultValue := none,
    IsRequired := required, DataType := dataType, Name := [], Code := [], Label := [],
    SvcOperationCfsParam := [], RefSvcId := none }

/-- An example world: the given ticks and answers, time 0 and an empty log. -/
def exampleWorld (ticks : List Tick) (answers : List Answer) : World :=
  { now := 0, ticks := ticks, answers := answers, log := [] }

/-- An example world in which a create sequence with the supplied parameter 3 succeeds: the
operation has the descriptors 3 (supplied), 5 (required, a map) and 6 (not required). -/
def exampleCreateWorld : World :=
  exampleWorld [Tick.fire 5]
    [plainAnswer 201 "./u1".toList, plainAnswer 201 "./op9".toList,
      paramsAnswer [exampleParam 3 true "string".toList, exampleParam 5 true "map".toList,
        exampleParam 6 false "string".toList],
      plainAnswer 200 [], plainAnswer 200 [], plainAnswer 200 [], plainAnswer 200 [],
      statusAnswer { operationStatus.zero with
        DtFinish := some "2024-05-01T10:00:00Z".toList, IsSuccessful := some true },
      instanceAnswer (exampleInstance "Running".toList false)]

/-- The answers of a create sequence that runs to its end: instance `u1` and operation `op9`
are created, the operation has the given descriptors, the given number of parameter
submissions is accepted, the validation is answered by `validate`, the run is accepted, the
first poll finds the operation finished with success, and the instance is running. -/
def exampleCreateAnswers (cfsParams : List universalCfsParam) (submissions : Nat)
    (validate : Answer) : List Answer :=
  [plainAnswer 201 "./u1".toList, plainAnswer 201 "./op9".toList, paramsAnswer cfsParams] ++
    List.replicate submissions (plainAnswer 200 []) ++
    [validate, plainAnswer 200 [],
      statusAnswer { operationStatus.zero with
        DtFinish := some "2024-05-01T10:00:00Z".toList, IsSuccessful := some true },
      instanceAnswer (exampleInstance "Running".toList false)]

/-- Example descriptors that carry values: 3 (supplied by the caller in the examples), 5
(required, a map whose default is ` null `), 6 (not required), 7 (required, with an existing
value and a default) and 8 (required, with a default only). -/
def exampleDescriptors : List universalCfsParam :=
  [exampleParam 3 true "string".toList,
    { exampleParam 5 true "map".toList with DefaultValue := some " null ".toList },
    { exampleParam 6 false "string".toList with DefaultValue := some "d6".toList },
    { exampleParam 7 true "string".toList with
      ParamValue := some " v7 ".toList, DefaultValue := some "d7".toList },
    { exampleParam 8 true "string".toList with DefaultValue := some "d8".toList }]

/-! ## The completion poller -/

/-- A request answered by an answer that polls `st` succeeds, consumes that answer and logs the
request; its body decodes to `st`. -/
theorem doRequest_polled (r : Request) (w : World) (a : Answer) (rest : List Answer)
    (st : operationStatus) (hw : w.answers = a :: rest) (ha : a.polled = some st) :
    ∃ body loc, doRequest r w =
      (.ok (body, loc), { w with answers := rest, log := w.log ++ [r] }) ∧
      body.decodeOperationStatus = some st := by
  cases a with
  | netErr => simp [Answer.polled] at ha
  | resp rp =>
    simp only [Answer.polled] at ha
    split at ha
    · simp at ha
    · rename_i h
      refine ⟨rp.body, rp.location, ?_, ha⟩
      simp [doRequest, World.send, hw, h]

/-- A status that is not finished keeps the poller polling. -/
theorem decision_of_not_finished (opUid : Str) (st : operationStatus)
    (h : st.finished = false) : waitForOperationFinish.decision opUid st = none := by
  unfold waitForOperationFinish.decision operationStatus.finished at *
  cases hd : st.DtFinish with
  | none => simp
  | some dt => simp [hd] at h ⊢; simp [h]

/-- One tick of the loop that fires in time and polls `st`: the request is issued and the
decision on `st` is taken. -/
theorem loop_fire (opUid : Str) (deadline t : Nat) (ts : List Tick) (w : World) (a : Answer)
    (rest : List Answer) (st : operationStatus) (ht : t ≤ deadline)
    (hw : w.answers = a :: rest) (ha : a.polled = some st) :
    waitForOperationFinish.loop opUid deadline (Tick.fire t :: ts) w =
      match waitForOperationFinish.decision opUid st with
      | some r => (r, { now := t, ticks := ts, answers := rest,
                        log := w.log ++ [Request.getOperationStatus opUid] })
      | none => waitForOperationFinish.loop opUid deadline ts
          { now := t, ticks := ts, answers := rest,
            log := w.log ++ [Request.getOperationStatus opUid] } := by
  obtain ⟨body, loc, hreq, hdec⟩ := doRequest_polled (Request.getOperationStatus opUid)
    { w with ticks := ts, now := t } a rest st hw ha
  rw [waitForOperationFinish.loop]
  simp only [not_lt.mpr ht, if_false, gt_iff_lt]
  rw [hreq]
  simp only [hdec]

/-- Ticks that fire in time and poll unfinished statuses are passed, one request each. -/
theorem loop_skip (opUid : Str) (deadline : Nat) (ts : List Tick) (rest : List Answer) :
    ∀ (pre : List (Nat × Answer)) (w : World),
      w.answers = pre.map Prod.snd ++ rest →
      (∀ p ∈ pre, pollsOn deadline p = true) →
      ∃ w1 : World, w1.answers = rest ∧
        w1.log = w.log ++ List.replicate pre.length (Request.getOperationStatus opUid) ∧
        waitForOperationFinish.loop opUid deadline (pre.map (fun p => Tick.fire p.1) ++ ts) w =
          waitForOperationFinish.loop opUid deadline ts w1 := by
  intro pre
  induction pre with
  | nil => intro w hw _; exact ⟨w, by simpa using hw, by simp, rfl⟩
  | cons p pre ih =>
    intro w hw hpre
    have hp := hpre p (List.mem_cons_self _ _)
    simp only [pollsOn, Bool.and_eq_true, decide_eq_true_eq] at hp
    obtain ⟨hle, hpoll⟩ := hp
    cases hst : p.2.polled with
    | none => simp [hst] at hpoll
    | some st =>
      simp only [hst, Bool.not_eq_true'] at hpoll
      have hfire := loop_fire opUid deadline p.1 (pre.map (fun p => Tick.fire p.1) ++ ts) w p.2
        (pre.map Prod.snd ++ rest) st hle (by simpa using hw) hst
      rw [decision_of_not_finished opUid st hpoll] at hfire
      obtain ⟨w1, h1, h2, h3⟩ := ih
        { now := p.1, ticks := pre.map (fun p => Tick.fire p.1) ++ ts,
          answers := pre.map Prod.snd ++ rest,
          log := w.log ++ [Request.getOperationStatus opUid] } rfl
        (fun q hq => hpre q (List.mem_cons_of_mem _ hq))
      refine ⟨w1, h1, ?_, ?_⟩
      · rw [h2]; simp [List.replicate_succ]
      · simp only [List.map_cons, List.cons_append]
        rw [hfire]; exact h3

/-- The poller returns on the first tick whose status decides, after one request per tick. -/
theorem wait_finished (opUid : Str) (timeout : Nat) (w : World)
    (pre : List (Nat × Answer)) (t : Nat) (ts : List Tick) (a : Answer) (rest : List Answer)
    (st : operationStatus) (r : Except Err Unit)
    (hticks : w.ticks = pre.map (fun p => Tick.fire p.1) ++ Tick.fire t :: ts)
    (hanswers : w.answers = pre.map Prod.snd ++ a :: rest)
    (hpre : ∀ p ∈ pre, pollsOn (w.now + timeout) p = true)
    (ht : t ≤ w.now + timeout) (ha : a.polled = some st)
    (hr : waitForOperationFinish.decision opUid st = some r) :
    waitForOperationFinish opUid timeout w =
      (r, { now := t, ticks := ts, answers := rest,
            log := w.log ++ List.replicate (pre.length + 1) (Request.getOperationStatus opUid) }) := by
  unfold waitForOperationFinish
  rw [hticks]
  obtain ⟨w1, h1, h2, h3⟩ := loop_skip opUid (w.now + timeout) (Tick.fire t :: ts) (a :: rest)
    pre w hanswers hpre
  rw [h3, loop_fire opUid (w.now + timeout) t ts w1 a rest st ht h1 ha, hr]
  simp [h2, List.replicate_succ', List.append_assoc]

/-- The decision on a finished status: failure exactly for an explicit `false` flag. -/
theorem decision_finished (opUid : Str) (st : operationStatus) (h : st.finished = true) :
    waitForOperationFinish.decision opUid st = some
      (if st.IsSuccessful = some false then
        .error (match st.ErrorLog with
          | some errorLog =>
            if TrimSpace errorLog ≠ [] then Err.operationFailedLog opUid errorLog
            else Err.operationFailed opUid
          | none => Err.operationFailed opUid)
      else .ok ()) := by
  unfold waitForOperationFinish.decision operationStatus.finished at *
  cases hd : st.DtFinish with
  | none => simp [hd] at h
  | some dt =>
    simp only [hd, decide_eq_true_eq] at h
    simp only [h, if_true, ne_eq, not_false_eq_true]
    cases hs : st.IsSuccessful with
    | none => simp
    | some b =>
      cases b with
      | true => simp
      | false =>
        cases hl : st.ErrorLog with
        | none => simp
        | some l => by_cases hb : TrimSpace l = [] <;> simp [hb]

/-- Claim C1, amended: whenever a tick of `waitForOperationFinish` fires in time and polls a
status whose `dtFinish` is not blank (non-empty after trimming white space) and whose
`isSuccessful` is true, the poller returns success on that tick: the later ticks and answers
are left unconsumed and the log holds exactly one status request per tick up to this one. -/
theorem waitForOperationFinish_success_on_finish (opUid : Str) (timeout : Nat) (w : World)
    (pre : List (Nat × Answer)) (t : Nat) (ts : List Tick) (a : Answer) (rest : List Answer)
    (st : operationStatus) (dtFinish : Str)
    (hticks : w.ticks = pre.map (fun p => Tick.fire p.1) ++ Tick.fire t :: ts)
    (hanswers : w.answers = pre.map Prod.snd ++ a :: rest)
    (hpre : ∀ p ∈ pre, pollsOn (w.now + timeout) p = true)
    (ht : t ≤ w.now + timeout) (ha : a.polled = some st)
    (hdt : st.DtFinish = some dtFinish) (hnb : TrimSpace dtFinish ≠ [])
    (hs : st.IsSuccessful = some true) :
    waitForOperationFinish opUid timeout w =
      (.ok (), { now := t, ticks := ts, answers := rest,
                 log := w.log ++
                   List.replicate (pre.length + 1) (Request.getOperationStatus opUid) }) := by
  have hfin : st.finished = true := by simp [operationStatus.finished, hdt, hnb]
  have hdec := decision_finished opUid st hfin
  rw [hs] at hdec
  exact wait_finished opUid timeout w pre t ts a rest st _ hticks hanswers hpre ht ha
    (by simpa using hdec)

/-- Witness for C1: the second tick polls a finished, successful operation. -/
theorem waitForOperationFinish_success_on_finish_witness :
    waitForOperationFinish "op".toList 100
        { now := 0, ticks := [Tick.fire 5, Tick.fire 10, Tick.fire 15],
          answers := [statusAnswer operationStatus.zero,
            statusAnswer { operationStatus.zero with
              DtFinish := some "2024-05-01T10:00:00Z".toList, IsSuccessful := some true },
            Answer.netErr],
          log := [] } =
      (.ok (), { now := 10, ticks := [Tick.fire 15], answers := [Answer.netErr],
                 log := [Request.getOperationStatus "op".toList,
                   Request.getOperationStatus "op".toList] }) :=
  waitForOperationFinish_success_on_finish "op".toList 100 _
    [(5, statusAnswer operationStatus.zero)] 10 [Tick.fire 15] _ [Answer.netErr]
    { operationStatus.zero with
      DtFinish := some "2024-05-01T10:00:00Z".toList, IsSuccessful := some true }
    "2024-05-01T10:00:00Z".toList rfl rfl (by decide) (by decide) rfl rfl (by decide) rfl

/-- Counterexample to C1 as stated: the first polled status has the non-empty `dtFinish` `" "`
and `isSuccessful = true`, yet the poller does not return on that tick; it issues a second
status request and returns the failure polled there. -/
theorem waitForOperationFinish_blank_dtFinish_polls_on :
    (" ".toList ≠ ([] : Str)) ∧
    waitForOperationFinish "op".toList 100
        { now := 0, ticks := [Tick.fire 5, Tick.fire 10],
          answers := [statusAnswer { operationStatus.zero with
              DtFinish := some " ".toList, IsSuccessful := some true },
            statusAnswer { operationStatus.zero with
              DtFinish := some "2024-05-01T10:00:00Z".toList, IsSuccessful := some false }],
          log := [] } =
      (.error (Err.operationFailed "op".toList),
        World.mk 10 [] [] [Request.getOperationStatus "op".toList,
          Request.getOperationStatus "op".toList]) := by
  decide

/-- Claim C2, amended: whenever a tick of `waitForOperationFinish` fires in time and polls a
status whose `dtFinish` is not blank and whose `isSuccessful` is false, the poller returns on
that tick with an operation-failed error, which carries the error log of the server when that
is present and not blank; the error is not the timeout error. -/
theorem waitForOperationFinish_failure_on_finish (opUid : Str) (timeout : Nat) (w : World)
    (pre : List (Nat × Answer)) (t : Nat) (ts : List Tick) (a : Answer) (rest : List Answer)
    (st : operationStatus) (dtFinish : Str)
    (hticks : w.ticks = pre.map (fun p => Tick.fire p.1) ++ Tick.fire t :: ts)
    (hanswers : w.answers = pre.map Prod.snd ++ a :: rest)
    (hpre : ∀ p ∈ pre, pollsOn (w.now + timeout) p = true)
    (ht : t ≤ w.now + timeout) (ha : a.polled = some st)
    (hdt : st.DtFinish = some dtFinish) (hnb : TrimSpace dtFinish ≠ [])
    (hs : st.IsSuccessful = some false) :
    waitForOperationFinish opUid timeout w =
      (.error (match st.ErrorLog with
          | some errorLog =>
            if TrimSpace errorLog ≠ [] then Err.operationFailedLog opUid errorLog
            else Err.operationFailed opUid
          | none => Err.operationFailed opUid),
        { now := t, ticks := ts, answers := rest,
          log := w.log ++ List.replicate (pre.length + 1) (Request.getOperationStatus opUid) }) ∧
    (waitForOperationFinish opUid timeout w).1 ≠ .error (Err.operationTimeout opUid) := by
  have hfin : st.finished = true := by simp [operationStatus.finished, hdt, hnb]
  have hdec := decision_finished opUid st hfin
  rw [hs] at hdec
  simp only [if_true] at hdec
  have hres := wait_finished opUid timeout w pre t ts a rest st _ hticks hanswers hpre ht ha hdec
  refine ⟨hres, ?_⟩
  rw [hres]
  cases st.ErrorLog with
  | none => simp
  | some l => by_cases hb : TrimSpace l = [] <;> simp [hb]

/-- Witness for C2: the second tick polls a failed operation with an error log. -/
theorem waitForOperationFinish_failure_on_finish_witness :
    waitForOperationFinish "op".toList 100
        { now := 0, ticks := [Tick.fire 5, Tick.fire 10, Tick.fire 15],
          answers := [statusAnswer operationStatus.zero,
            statusAnswer { operationStatus.zero with
              DtFinish := some "2024-05-01T10:00:00Z".toList, IsSuccessful := some false,
              ErrorLog := some "quota exceeded".toList },
            Answer.netErr],
          log := [] } =
      (.error (Err.operationFailedLog "op".toList "quota exceeded".toList),
        World.mk 10 [Tick.fire 15] [Answer.netErr]
          [Request.getOperationStatus "op".toList, Request.getOperationStatus "op".toList]) :=
  (waitForOperationFinish_failure_on_finish "op".toList 100 _
    [(5, statusAnswer operationStatus.zero)] 10 [Tick.fire 15]
    (statusAnswer { operationStatus.zero with
      DtFinish := some "2024-05-01T10:00:00Z".toList, IsSuccessful := some false,
      ErrorLog := some "quota exceeded".toList }) [Answer.netErr]
    { operationStatus.zero with
      DtFinish := some "2024-05-01T10:00:00Z".toList, IsSuccessful := some false,
      ErrorLog := some "quota exceeded".toList }
    "2024-05-01T10:00:00Z".toList rfl rfl (by decide) (by decide) rfl rfl (by decide) rfl).1

/-- Counterexample to C2 as stated: the polled status has the non-empty `dtFinish` `" "` and
`isSuccessful = false`, yet the poller returns no operation-failed error; it waits for the
next tick and ends with the timeout error. -/
theorem waitForOperationFinish_blank_dtFinish_times_out :
    (" ".toList ≠ ([] : Str)) ∧
    waitForOperationFinish "op".toList 100
        { now := 0, ticks := [Tick.fire 5, Tick.fire 200],
          answers := [statusAnswer { operationStatus.zero with
              DtFinish := some " ".toList, IsSuccessful := some false,
              ErrorLog := some "quota exceeded".toList }],
          log := [] } =
      (.error (Err.operationTimeout "op".toList),
        World.mk 200 [] [] [Request.getOperationStatus "op".toList]) := by
  decide

/-- While no answer carries a `dtFinish`, the loop does not return success. -/
theorem loop_no_success (opUid : Str) (deadline : Nat) :
    ∀ (ts : List Tick) (w : World), (∀ a ∈ w.answers, a.noDtFinish = true) →
      (waitForOperationFinish.loop opUid deadline ts w).1 ≠ .ok () := by
  intro ts
  induction ts with
  | nil => intro w _; simp [waitForOperationFinish.loop]
  | cons tk ts ih =>
    intro w hall
    cases tk with
    | done => simp [waitForOperationFinish.loop]
    | fire t =>
      by_cases ht : t ≤ deadline
      · cases hw : w.answers with
        | nil =>
          rw [waitForOperationFinish.loop]
          simp [not_lt.mpr ht, doRequest, World.send, hw]
        | cons a rest =>
          have ha := hall a (by simp [hw])
          simp only [Answer.noDtFinish] at ha
          cases hst : a.polled with
          | none => simp [hst] at ha
          | some st =>
            simp only [hst, decide_eq_true_eq] at ha
            have hnf : st.finished = false := by
              rcases ha with h | h <;> simp [operationStatus.finished, h, TrimSpace]
            rw [loop_fire opUid deadline t ts w a rest st ht hw hst,
              decision_of_not_finished opUid st hnf]
            exact ih _ (fun b hb => hall b (by simp [hw, hb]))
      · rw [waitForOperationFinish.loop]
        simp [not_le.mp ht]

/-- While no answer carries a `dtFinish`, the first tick after the deadline returns the timeout
error. -/
theorem loop_timeout (opUid : Str) (deadline t : Nat) (post : List Tick) (ht : deadline < t) :
    ∀ (pre : List Nat) (w : World), (∀ a ∈ w.answers, a.noDtFinish = true) →
      (∀ s ∈ pre, s ≤ deadline) → pre.length ≤ w.answers.length →
      (waitForOperationFinish.loop opUid deadline (pre.map Tick.fire ++ Tick.fire t :: post) w).1
        = .error (Err.operationTimeout opUid) := by
  intro pre
  induction pre with
  | nil =>
    intro w _ _ _
    simp only [List.map_nil, List.nil_append]
    rw [waitForOperationFinish.loop]
    simp [ht]
  | cons s pre ih =>
    intro w hall hpre hlen
    cases hw : w.answers with
    | nil => simp [hw] at hlen
    | cons a rest =>
      have ha := hall a (by simp [hw])
      simp only [Answer.noDtFinish] at ha
      cases hst : a.polled with
      | none => simp [hst] at ha
      | some st =>
        simp only [hst, decide_eq_true_eq] at ha
        have hnf : st.finished = false := by
          rcases ha with h | h <;> simp [operationStatus.finished, h, TrimSpace]
        simp only [List.map_cons, List.cons_append]
        rw [loop_fire opUid deadline s _ w a rest st (hpre s (List.mem_cons_self _ _)) hw hst,
          decision_of_not_finished opUid st hnf]
        exact ih _ (fun b hb => hall b (by simp [hw, hb]))
          (fun q hq => hpre q (List.mem_cons_of_mem _ hq))
          (by simpa [hw] using hlen)

/-- Claim C3: if every answer is a status response without a `dtFinish` (absent or empty),
`waitForOperationFinish` never returns success; and once a tick fires after the deadline, all
earlier ticks having fired in time and been answered, it returns the timeout error. -/
theorem waitForOperationFinish_no_finish_times_out (opUid : Str) (timeout : Nat) (w : World)
    (hall : ∀ a ∈ w.answers, a.noDtFinish = true) :
    (waitForOperationFinish opUid timeout w).1 ≠ .ok () ∧
    ∀ (pre : List Nat) (t : Nat) (post : List Tick),
      w.ticks = pre.map Tick.fire ++ Tick.fire t :: post →
      (∀ s ∈ pre, s ≤ w.now + timeout) → w.now + timeout < t →
      pre.length ≤ w.answers.length →
      (waitForOperationFinish opUid timeout w).1 = .error (Err.operationTimeout opUid) := by
  refine ⟨loop_no_success opUid _ _ w hall, ?_⟩
  intro pre t post hticks hpre ht hlen
  unfold waitForOperationFinish
  rw [hticks]
  exact loop_timeout opUid _ t post ht pre w hall hpre hlen

/-- Witness for C3: two polls without `dtFinish`, then a tick after the deadline. -/
theorem waitForOperationFinish_no_finish_times_out_witness :
    (waitForOperationFinish "op".toList 100
        { now := 0, ticks := [Tick.fire 5, Tick.fire 10, Tick.fire 105],
          answers := [statusAnswer operationStatus.zero,
            statusAnswer { operationStatus.zero with DtFinish := some [], IsInProgress := true }],
          log := [] }).1 = .error (Err.operationTimeout "op".toList) :=
  (waitForOperationFinish_no_finish_times_out "op".toList 100 _ (by decide)).2
    [5, 10] 105 [] rfl (by decide) (by decide) (by decide)

/-- Claim C4: two statuses that agree on `dtFinish`, `isSuccessful` and `errorLog` lead to the
same decision of a tick (keep polling, succeed or fail), whatever their `isInProgress` and
`isPending` flags; so a tick that polls the one behaves exactly as a tick that polls the
other. -/
theorem waitForOperationFinish_decision_ignores_flags (opUid : Str) (s1 s2 : operationStatus)
    (hdt : s1.DtFinish = s2.DtFinish) (hs : s1.IsSuccessful = s2.IsSuccessful)
    (hl : s1.ErrorLog = s2.ErrorLog) :
    waitForOperationFinish.decision opUid s1 = waitForOperationFinish.decision opUid s2 ∧
    ∀ (deadline t : Nat) (ts : List Tick) (w : World) (a1 a2 : Answer) (rest : List Answer),
      t ≤ deadline → a1.polled = some s1 → a2.polled = some s2 →
      waitForOperationFinish.loop opUid deadline (Tick.fire t :: ts) { w with answers := a1 :: rest }
        = waitForOperationFinish.loop opUid deadline (Tick.fire t :: ts)
            { w with answers := a2 :: rest } := by
  have hd : waitForOperationFinish.decision opUid s1 = waitForOperationFinish.decision opUid s2 := by
    unfold waitForOperationFinish.decision
    rw [hdt, hs, hl]
  refine ⟨hd, ?_⟩
  intro deadline t ts w a1 a2 rest ht h1 h2
  rw [loop_fire opUid deadline t ts _ a1 rest s1 ht rfl h1,
    loop_fire opUid deadline t ts _ a2 rest s2 ht rfl h2, hd]

/-- Witness for C4: the same finished status with both flags set and with both flags clear. -/
theorem waitForOperationFinish_decision_ignores_flags_witness :
    waitForOperationFinish.decision "op".toList
        { DtFinish := some "2024-05-01T10:00:00Z".toList, IsSuccessful := some true,
          ErrorLog := none, IsInProgress := true, IsPending := true } =
      waitForOperationFinish.decision "op".toList
        { DtFinish := some "2024-05-01T10:00:00Z".toList, IsSuccessful := some true,
          ErrorLog := none, IsInProgress := false, IsPending := false } :=
  (waitForOperationFinish_decision_ignores_flags "op".toList _ _ rfl rfl rfl).1

/-- Claim C5, amended: whenever a tick of `waitForOperationFinish` fires in time and polls a
status whose `dtFinish` is not blank, the poller succeeds exactly when the success flag is not
false (true or absent) and fails with an operation-failed error exactly when the flag is false,
whatever the error log is. -/
theorem waitForOperationFinish_outcome_by_flag (opUid : Str) (timeout : Nat) (w : World)
    (pre : List (Nat × Answer)) (t : Nat) (ts : List Tick) (a : Answer) (rest : List Answer)
    (st : operationStatus) (dtFinish : Str)
    (hticks : w.ticks = pre.map (fun p => Tick.fire p.1) ++ Tick.fire t :: ts)
    (hanswers : w.answers = pre.map Prod.snd ++ a :: rest)
    (hpre : ∀ p ∈ pre, pollsOn (w.now + timeout) p = true)
    (ht : t ≤ w.now + timeout) (ha : a.polled = some st)
    (hdt : st.DtFinish = some dtFinish) (hnb : TrimSpace dtFinish ≠ []) :
    ((waitForOperationFinish opUid timeout w).1 = .ok () ↔ st.IsSuccessful ≠ some false) ∧
    ((∃ e, (waitForOperationFinish opUid timeout w).1 = .error e ∧
        (e = Err.operationFailed opUid ∨ ∃ errorLog, e = Err.operationFailedLog opUid errorLog))
      ↔ st.IsSuccessful = some false) := by
  have hfin : st.finished = true := by simp [operationStatus.finished, hdt, hnb]
  have hres := wait_finished opUid timeout w pre t ts a rest st _ hticks hanswers hpre ht ha
    (decision_finished opUid st hfin)
  rw [hres]
  by_cases hs : st.IsSuccessful = some false
  · simp only [hs, if_true, ne_eq, not_true_eq_false, iff_false, iff_true]
    refine ⟨by simp, ?_⟩
    cases st.ErrorLog with
    | none => exact ⟨_, rfl, Or.inl rfl⟩
    | some l =>
      by_cases hb : TrimSpace l = []
      · exact ⟨_, by simp [hb], Or.inl rfl⟩
      · exact ⟨_, by simp only [ne_eq, hb, not_false_eq_true, if_true], Or.inr ⟨l, rfl⟩⟩
  · simp [hs]

/-- Witness for C5: a finished status without a success flag and with an error log. -/
theorem waitForOperationFinish_outcome_by_flag_witness :
    ((waitForOperationFinish "op".toList 100
        { now := 0, ticks := [Tick.fire 5],
          answers := [statusAnswer { operationStatus.zero with
              DtFinish := some "2024-05-01T10:00:00Z".toList,
              ErrorLog := some "disk warning".toList }],
          log := [] }).1 = .ok ()
      ↔ (none : Option Bool) ≠ some false) :=
  (waitForOperationFinish_outcome_by_flag "op".toList 100 _ [] 5 []
    (statusAnswer { operationStatus.zero with
      DtFinish := some "2024-05-01T10:00:00Z".toList,
      ErrorLog := some "disk warning".toList }) []
    { operationStatus.zero with
      DtFinish := some "2024-05-01T10:00:00Z".toList, ErrorLog := some "disk warning".toList }
    "2024-05-01T10:00:00Z".toList rfl rfl (by decide) (by decide) rfl rfl (by decide)).1

/-- Counterexample to C5 as stated: the polled status has a `dtFinish`, `isSuccessful = true`
and the non-empty error log `boom`, and the poller returns success. -/
theorem waitForOperationFinish_success_despite_errorLog :
    waitForOperationFinish "op".toList 100
        { now := 0, ticks := [Tick.fire 5],
          answers := [statusAnswer { operationStatus.zero with
              DtFinish := some "2024-05-01T10:00:00Z".toList, IsSuccessful := some true,
              ErrorLog := some "boom".toList }],
          log := [] } =
      (.ok (), World.mk 5 [] [] [Request.getOperationStatus "op".toList]) := by
  decide
/-! ## The reconciler -/

/-- A round trip appends its request to the log. -/
theorem send_log (w : World) (r : Request) : (w.send r).2.log = w.log ++ [r] := by
  unfold World.send
  cases w.answers <;> rfl

/-- The method `doRequest` appends exactly its request to the log. -/
theorem doRequest_log (r : Request) (w : World) : (doRequest r w).2.log = w.log ++ [r] := by
  unfold doRequest
  have h := send_log w r
  cases hs : w.send r with
  | mk a w1 =>
    rw [hs] at h
    cases a with
    | netErr => simpa using h
    | resp rp =>
      simp only
      split <;> simpa using h

/-- The method `GetInstanceState` issues exactly one request. -/
theorem GetInstanceState_log (uid : Str) (w : World) :
    (GetInstanceState uid w).2.log = w.log ++ [Request.getInstance uid] := by
  unfold GetInstanceState
  have h := send_log w (Request.getInstance uid)
  cases hs : w.send (Request.getInstance uid) with
  | mk a w1 =>
    rw [hs] at h
    cases a with
    | netErr => simpa using h
    | resp rp =>
      simp only
      split
      · simpa using h
      · cases rp.body.decodeInstance with
        | none => simpa using h
        | some inst =>
          simp only
          cases validateInstanceStatus inst <;> simpa using h

/-- A state returned by `GetInstanceState` has passed `validateInstanceStatus`. -/
theorem GetInstanceState_ok (uid : Str) (w w1 : World) (state : InstanceStateResponse)
    (h : GetInstanceState uid w = (.ok state, w1)) :
    validateInstanceStatus state = .ok () := by
  unfold GetInstanceState at h
  cases hs : w.send (Request.getInstance uid) with
  | mk a w2 =>
    rw [hs] at h
    cases a with
    | netErr => simp at h
    | resp rp =>
      simp only at h
      split at h
      · simp at h
      · cases hd : rp.body.decodeInstance with
        | none => simp [hd] at h
        | some inst =>
          simp only [hd] at h
          cases hv : validateInstanceStatus inst with
          | error e => simp [hv] at h
          | ok u =>
            simp only [hv, Prod.mk.injEq, Except.ok.injEq] at h
            rw [← h.1]; exact hv

/-- The inner loop of the lookup issues `GET` requests only. -/
theorem FindInstanceByDisplayName_scan_log (serviceId : Int) (displayName : Str) :
    ∀ (items : List listItem) (w : World), ∃ issued,
      (FindInstanceByDisplayName.scan serviceId displayName items w).2.log = w.log ++ issued ∧
      ∀ r ∈ issued, r.method = Method.GET := by
  intro items
  induction items with
  | nil => intro w; exact ⟨[], by simp [FindInstanceByDisplayName.scan], by simp⟩
  | cons item rest ih =>
    intro w
    rw [FindInstanceByDisplayName.scan]
    split
    · have hl := GetInstanceState_log item.InstanceUid w
      cases hg : GetInstanceState item.InstanceUid w with
      | mk res w1 =>
        rw [hg] at hl
        cases res with
        | error e =>
          exact ⟨[Request.getInstance item.InstanceUid], by simpa using hl, by simp [Request.method]⟩
        | ok state =>
          simp only
          split
          · obtain ⟨issued, h1, h2⟩ := ih w1
            refine ⟨Request.getInstance item.InstanceUid :: issued, ?_, ?_⟩
            · rw [h1]; simp at hl; rw [hl]; simp
            · intro r hr
              rcases List.mem_cons.mp hr with h | h
              · rw [h]; rfl
              · exact h2 r h
          · exact ⟨[Request.getInstance item.InstanceUid], by simpa using hl,
              by simp [Request.method]⟩
    · exact ih w

/-- The outer loop of the lookup issues `GET` requests only. -/
theorem FindInstanceByDisplayName_pages_log (serviceId : Int) (displayName : Str) :
    ∀ (fuel page : Nat) (w : World), ∃ issued,
      (FindInstanceByDisplayName.pages serviceId displayName fuel page w).2.log
        = w.log ++ issued ∧
      ∀ r ∈ issued, r.method = Method.GET := by
  intro fuel
  induction fuel with
  | zero => intro page w; exact ⟨[], by simp [FindInstanceByDisplayName.pages], by simp⟩
  | succ fuel ih =>
    intro page w
    rw [FindInstanceByDisplayName.pages]
    have hl := send_log w (Request.getInstancesPage page)
    have one : ∀ w1 : World, w1.log = w.log ++ [Request.getInstancesPage page] →
        ∃ issued, w1.log = w.log ++ issued ∧ ∀ r ∈ issued, r.method = Method.GET :=
      fun w1 h => ⟨[Request.getInstancesPage page], h, by simp [Request.method]⟩
    cases hs : w.send (Request.getInstancesPage page) with
    | mk a w1 =>
      rw [hs] at hl
      simp only at hl
      cases a with
      | netErr => exact one _ hl
      | resp rp =>
        simp only
        split
        · exact one _ hl
        · cases rp.body.decodeResults with
          | none => exact one _ hl
          | some results =>
            simp only
            split
            · exact one _ hl
            · obtain ⟨i1, h1, h2⟩ := FindInstanceByDisplayName_scan_log serviceId displayName
                results w1
              have two : ∀ w2 : World, w2.log = w1.log ++ i1 →
                  ∃ issued, w2.log = w.log ++ issued ∧ ∀ r ∈ issued, r.method = Method.GET := by
                intro w2 h
                refine ⟨Request.getInstancesPage page :: i1, ?_, ?_⟩
                · rw [h, hl]; simp
                · intro r hr
                  rcases List.mem_cons.mp hr with h | h
                  · rw [h]; rfl
                  · exact h2 r h
              cases hsc : FindInstanceByDisplayName.scan serviceId displayName results w1 with
              | mk res w2 =>
                rw [hsc] at h1
                simp only at h1
                cases res with
                | some r =>
                  cases r with
                  | error e => exact two _ h1
                  | ok state => exact two _ h1
                | none =>
                  simp only
                  split
                  · exact two _ h1
                  · obtain ⟨i2, h3, h4⟩ := ih (page + 1) w2
                    refine ⟨Request.getInstancesPage page :: (i1 ++ i2), ?_, ?_⟩
                    · rw [h3, h1, hl]; simp
                    · intro r hr
                      rcases List.mem_cons.mp hr with h | h
                      · rw [h]; rfl
                      · rcases List.mem_append.mp h with h | h
                        · exact h2 r h
                        · exact h4 r h

/-- The lookup issues `GET` requests only. -/
theorem FindInstanceByDisplayName_log (serviceId : Int) (displayName : Str) (w : World) :
    ∃ issued, (FindInstanceByDisplayName serviceId displayName w).2.log = w.log ++ issued ∧
      ∀ r ∈ issued, r.method = Method.GET :=
  FindInstanceByDisplayName_pages_log serviceId displayName 100 1 w

/-- Claim C6: when the lookup of `CreateResource` finds an existing instance and
`resumeIfExists` is false, `CreateResource` fails with the already-exists error in the world
the lookup left, and the requests issued since the call are all `GET` requests: no write
request is issued. -/
theorem CreateResource_existing_without_resume (serviceID : Int) (displayName : Str)
    (params : List (Int × Str)) (w w1 : World) (existing : InstanceStateResponse)
    (hfound : FindInstanceByDisplayName serviceID displayName w = (.ok (some existing), w1)) :
    CreateResource serviceID displayName false params w
      = (.error (Err.alreadyExists displayName), w1) ∧
    ∃ issued, w1.log = w.log ++ issued ∧ ∀ r ∈ issued, r.method = Method.GET := by
  constructor
  · unfold CreateResource
    rw [hfound]
    rfl
  · have h := FindInstanceByDisplayName_log serviceID displayName w
    rw [hfound] at h
    exact h
/-- What a state that passes `validateInstanceStatus` satisfies. -/
theorem validateInstanceStatus_ok (state : InstanceStateResponse)
    (h : validateInstanceStatus state = .ok ()) :
    state.IsDeleted = false ∧ state.OperationIsPending = false ∧
    state.OperationIsInProgress = false ∧
    Contains (ToLower (TrimSpace state.ExplainedStatus)) "not created".toList = false ∧
    Contains (ToLower (TrimSpace state.ExplainedStatus)) "pending".toList = false ∧
    Contains (ToLower (TrimSpace state.ExplainedStatus)) "failed".toList = false ∧
    Contains (ToLower (TrimSpace state.ExplainedStatus)) "error".toList = false := by
  unfold validateInstanceStatus at h
  split at h
  · simp at h
  · split at h
    · simp at h
    · simp only at h
      split at h
      · simp at h
      · split at h
        · simp at h
        · split at h
          · simp at h
          · rename_i h1 h2 h3 h4 h5
            simp only [Bool.or_eq_true, not_or, Bool.not_eq_true] at h2 h5
            simp only [Bool.not_eq_true] at h1 h3 h4
            exact ⟨h1, h2.1, h2.2, h3, h4, h5.1, h5.2⟩

/-- The loop of the poller issues status requests only. -/
theorem waitForOperationFinish_loop_log (opUid : Str) (deadline : Nat) :
    ∀ (ts : List Tick) (w : World), ∃ issued,
      (waitForOperationFinish.loop opUid deadline ts w).2.log = w.log ++ issued ∧
      ∀ r ∈ issued, r = Request.getOperationStatus opUid := by
  intro ts
  induction ts with
  | nil => intro w; exact ⟨[], by simp [waitForOperationFinish.loop], by simp⟩
  | cons tk ts ih =>
    intro w
    cases tk with
    | done => exact ⟨[], by simp [waitForOperationFinish.loop], by simp⟩
    | fire t =>
      rw [waitForOperationFinish.loop]
      split
      · exact ⟨[], by simp, by simp⟩
      · have hl := doRequest_log (Request.getOperationStatus opUid)
          { w with ticks := ts, now := t }
        have one : ∀ w1 : World, w1.log = w.log ++ [Request.getOperationStatus opUid] →
            ∃ issued, w1.log = w.log ++ issued ∧
              ∀ r ∈ issued, r = Request.getOperationStatus opUid :=
          fun w1 h => ⟨[Request.getOperationStatus opUid], h, by simp⟩
        cases hd : doRequest (Request.getOperationStatus opUid)
            { w with ticks := ts, now := t } with
        | mk res w2 =>
          rw [hd] at hl
          simp only at hl
          cases res with
          | error e => exact one _ hl
          | ok bl =>
            simp only
            cases bl.1.decodeOperationStatus with
            | none => exact one _ hl
            | some st =>
              simp only
              cases waitForOperationFinish.decision opUid st with
              | some r => exact one _ hl
              | none =>
                simp only
                obtain ⟨i1, h1, h2⟩ := ih w2
                refine ⟨Request.getOperationStatus opUid :: i1, ?_, ?_⟩
                · rw [h1, hl]; simp
                · intro r hr
                  rcases List.mem_cons.mp hr with h | h
                  · exact h
                  · exact h2 r h

/-- The poller issues status requests only. -/
theorem waitForOperationFinish_log (opUid : Str) (timeout : Nat) (w : World) :
    ∃ issued, (waitForOperationFinish opUid timeout w).2.log = w.log ++ issued ∧
      ∀ r ∈ issued, r = Request.getOperationStatus opUid :=
  waitForOperationFinish_loop_log opUid _ w.ticks w

/-- A list of `GET` requests holds no write request. -/
theorem writes_of_gets (issued : List Request) (h : ∀ r ∈ issued, r.method = Method.GET) :
    writes issued = [] := by
  unfold writes
  rw [List.filter_eq_nil_iff]
  intro r hr
  simp [h r hr]

/-- The write requests of a concatenation. -/
theorem writes_append (l1 l2 : List Request) : writes (l1 ++ l2) = writes l1 ++ writes l2 := by
  simp [writes]

/-- The method `postIgnoreResponse` issues exactly its request. -/
theorem postIgnoreResponse_log (r : Request) (b : Bool) (w : World) :
    (postIgnoreResponse r b w).2.log = w.log ++ [r] := by
  unfold postIgnoreResponse
  have hl := doRequest_log r w
  cases hd : doRequest r w with
  | mk res w1 =>
    rw [hd] at hl
    cases res with
    | error e => exact hl
    | ok bl =>
      simp only
      split
      · exact hl
      · cases bl.1.decodeString with
        | none => exact hl
        | some j => simp only; split <;> exact hl

/-- The write requests of an action without parameters are an initial part of the operation
request followed by the run request, and the whole of it when the action succeeds. -/
theorem RunInstanceOperationUniversal_writes (instanceUid action : Str) (w : World) :
    ∃ issued opId opUid,
      (RunInstanceOperationUniversal instanceUid action [] w).2.log = w.log ++ issued ∧
      writes issued <+: [Request.postAction instanceUid opId action, Request.postRun opUid] ∧
      ((RunInstanceOperationUniversal instanceUid action [] w).1 = .ok () →
        writes issued = [Request.postAction instanceUid opId action, Request.postRun opUid]) := by
  unfold RunInstanceOperationUniversal
  have hl := GetInstanceState_log instanceUid w
  cases hg : GetInstanceState instanceUid w with
  | mk res w1 =>
    rw [hg] at hl
    simp only at hl
    cases res with
    | error e =>
      exact ⟨[Request.getInstance instanceUid], 0, [], hl, by simp [writes, Request.method],
        by simp⟩
    | ok state =>
      have hv := validateInstanceStatus_ok state (GetInstanceState_ok _ _ _ _ hg)
      simp only [hv.2.1, hv.2.2.1, Bool.or_self, Bool.false_eq_true, if_false]
      split
      · exact ⟨[Request.getInstance instanceUid], 0, [], hl, by simp [writes, Request.method],
          by simp⟩
      · generalize findOperationId action state.AvailableOperations = opId
        have hp := postIgnoreResponse_log (Request.postAction instanceUid opId action) true w1
        cases hpi : postIgnoreResponse (Request.postAction instanceUid opId action) true w1 with
        | mk res3 w3 =>
          rw [hpi] at hp
          simp only at hp
          have hw3 : w3.log = w.log ++
              [Request.getInstance instanceUid, Request.postAction instanceUid opId action] := by
            rw [hp, hl]; simp
          cases res3 with
          | error e =>
            exact ⟨_, opId, [], hw3, by simp [writes, Request.method], by simp⟩
          | ok opUid =>
            simp only
            split
            · exact ⟨_, opId, [], hw3, by simp [writes, Request.method], by simp⟩
            · simp only [submitParams]
              have hr := doRequest_log (Request.postRun opUid) w3
              cases hdr : doRequest (Request.postRun opUid) w3 with
              | mk res5 w5 =>
                rw [hdr] at hr
                simp only at hr
                have hw5 : w5.log = w.log ++ [Request.getInstance instanceUid,
                    Request.postAction instanceUid opId action, Request.postRun opUid] := by
                  rw [hr, hw3]; simp
                cases res5 with
                | error e =>
                  exact ⟨_, opId, opUid, hw5, by simp [writes, Request.method], by simp⟩
                | ok bl =>
                  simp only
                  obtain ⟨i1, h1, h2⟩ := waitForOperationFinish_log opUid
                    defaultOperationTimeout w5
                  have hwr : writes i1 = [] :=
                    writes_of_gets i1 (fun r hr => by rw [h2 r hr]; rfl)
                  refine ⟨[Request.getInstance instanceUid,
                    Request.postAction instanceUid opId action, Request.postRun opUid] ++ i1,
                    opId, opUid, ?_, ?_, ?_⟩
                  · rw [h1, hw5]; simp
                  · rw [writes_append, hwr]; simp [writes, Request.method]
                  · intro _; rw [writes_append, hwr]; simp [writes, Request.method]
/-- A string that starts with `p ++ q` starts with `p`. -/
theorem HasPrefix_of_append (p q : Str) : ∀ s : Str, HasPrefix s (p ++ q) = true →
    HasPrefix s p = true := by
  induction p with
  | nil => intro s _; cases s <;> rfl
  | cons c p ih =>
    intro s h
    cases s with
    | nil => simp [HasPrefix] at h
    | cons d s =>
      simp only [List.cons_append, HasPrefix, Bool.and_eq_true, decide_eq_true_eq] at h ⊢
      exact ⟨h.1, ih s h.2⟩

/-- A string that contains `p ++ q` contains `p`. -/
theorem Contains_of_append (p q : Str) : ∀ s : Str, Contains s (p ++ q) = true →
    Contains s p = true := by
  intro s
  induction s with
  | nil =>
    intro h
    cases p with
    | nil => rfl
    | cons c p => simp [Contains] at h
  | cons d s ih =>
    intro h
    simp only [Contains, Bool.or_eq_true] at h ⊢
    rcases h with h | h
    · exact Or.inl (HasPrefix_of_append p q _ h)
    · exact Or.inr (ih h)

/-- The second test of `isStatusSuspended` is subsumed by the first. -/
theorem isStatusSuspended_eq (status : Str) :
    isStatusSuspended status = Contains status "suspend".toList := by
  unfold isStatusSuspended
  cases h : Contains status "suspended".toList with
  | false => exact Bool.or_false _
  | true =>
    have := Contains_of_append "suspend".toList "ed".toList status h
    rw [this]; rfl

/-- The requests of the resume path: when the lookup of `CreateResource` (with
`resumeIfExists = true`) finds an instance whose trimmed, lower-cased status contains `suspend`
and is adoptable, the write requests issued afterwards are an initial part of the resume action
on that instance (the `resume` operation request, then its run request), no request of the
create sequence is issued, a returned id is the id of that instance and comes after the whole
resume action, and the id is returned whenever the resume action succeeds and the state fetched
afterwards is adoptable and not suspended. -/
theorem CreateResource_resume_requests (serviceID : Int) (displayName : Str)
    (params : List (Int × Str)) (w w1 : World) (existing : InstanceStateResponse)
    (hfound : FindInstanceByDisplayName serviceID displayName w = (.ok (some existing), w1))
    (hsuspended :
      Contains (ToLower (TrimSpace existing.ExplainedStatus)) "suspend".toList = true)
    (hadoptable : isStatusNonAdoptable (ToLower (TrimSpace existing.ExplainedStatus)) = false) :
    ∃ issued opId opUid,
      (CreateResource serviceID displayName true params w).2.log = w1.log ++ issued ∧
      writes issued <+: [Request.postAction existing.InstanceUid opId "resume".toList,
        Request.postRun opUid] ∧
      (∀ r ∈ issued, (∀ s d c, r ≠ Request.postInstance s d c) ∧
        (∀ u o, r ≠ Request.postOperation u o)) ∧
      (∀ id, (CreateResource serviceID displayName true params w).1 = .ok id →
        id = existing.InstanceUid ∧
        writes issued = [Request.postAction existing.InstanceUid opId "resume".toList,
          Request.postRun opUid]) ∧
      (∀ w2 resumed w3,
        RunInstanceOperationUniversal existing.InstanceUid "resume".toList [] w1 = (.ok (), w2) →
        GetInstanceState existing.InstanceUid w2 = (.ok resumed, w3) →
        isStatusNonAdoptable (ToLower (TrimSpace resumed.ExplainedStatus)) = false →
        isStatusSuspended (ToLower (TrimSpace resumed.ExplainedStatus)) = false →
        CreateResource serviceID displayName true params w = (.ok existing.InstanceUid, w3)) := by
  have hs : isStatusSuspended (ToLower (TrimSpace existing.ExplainedStatus)) = true := by
    rw [isStatusSuspended_eq]; exact hsuspended
  have hcr : CreateResource serviceID displayName true params w =
      match RunInstanceOperationUniversal existing.InstanceUid "resume".toList [] w1 with
      | (.error e, w2) => (.error e, w2)
      | (.ok _, w2) =>
        match GetInstanceState existing.InstanceUid w2 with
        | (.error e, w3) => (.error e, w3)
        | (.ok resumed, w3) =>
          if isStatusNonAdoptable (ToLower (TrimSpace resumed.ExplainedStatus)) ||
              isStatusSuspended (ToLower (TrimSpace resumed.ExplainedStatus)) then
            (.error (Err.notReadyAfterResume resumed.ExplainedStatus), w3)
          else (.ok existing.InstanceUid, w3) := by
    unfold CreateResource
    rw [hfound]
    simp only [Bool.not_true, Bool.false_eq_true, if_false, hadoptable, hs, if_true]
  obtain ⟨i1, opId, opUid, h1, h2, h3⟩ :=
    RunInstanceOperationUniversal_writes existing.InstanceUid "resume".toList w1
  have hcreate : ∀ issued : List Request,
      writes issued <+: [Request.postAction existing.InstanceUid opId "resume".toList,
        Request.postRun opUid] →
      ∀ r ∈ issued, (∀ s d c, r ≠ Request.postInstance s d c) ∧
        (∀ u o, r ≠ Request.postOperation u o) := by
    intro issued hpre r hr
    constructor
    · intro s d c hrc
      have hm : r ∈ writes issued := by
        subst hrc
        simp [writes, hr, Request.method]
      have := List.IsPrefix.subset hpre hm
      simp [hrc] at this
    · intro u o hrc
      have hm : r ∈ writes issued := by
        subst hrc
        simp [writes, hr, Request.method]
      have := List.IsPrefix.subset hpre hm
      simp [hrc] at this
  rw [hcr]
  cases hrun : RunInstanceOperationUniversal existing.InstanceUid "resume".toList [] w1 with
  | mk res w2 =>
    rw [hrun] at h1 h3
    simp only at h1 h3
    cases res with
    | error e =>
      refine ⟨i1, opId, opUid, h1, h2, hcreate i1 h2, by simp, ?_⟩
      intro w2' resumed w3 hr
      simp at hr
    | ok u =>
      have hw := h3 rfl
      have hl := GetInstanceState_log existing.InstanceUid w2
      have hwr : writes (i1 ++ [Request.getInstance existing.InstanceUid]) =
          [Request.postAction existing.InstanceUid opId "resume".toList,
            Request.postRun opUid] := by
        rw [writes_append, hw]; simp [writes, Request.method]
      have hlog : ∀ w3 : World, w3.log = w2.log ++ [Request.getInstance existing.InstanceUid] →
          w3.log = w1.log ++ (i1 ++ [Request.getInstance existing.InstanceUid]) := by
        intro w3 h; rw [h, h1]; simp
      dsimp only
      cases hg : GetInstanceState existing.InstanceUid w2 with
      | mk res3 w3 =>
        rw [hg] at hl
        simp only at hl
        refine ⟨i1 ++ [Request.getInstance existing.InstanceUid], opId, opUid, ?_, ?_, ?_, ?_, ?_⟩
        · cases res3 with
          | error e => exact hlog _ hl
          | ok resumed => dsimp only; split <;> exact hlog _ hl
        · rw [hwr]
        · exact hcreate _ (by rw [hwr])
        · intro id hid
          refine ⟨?_, hwr⟩
          cases res3 with
          | error e => simp at hid
          | ok resumed =>
            simp only at hid
            split at hid
            · simp at hid
            · simpa using hid.symm
        · intro w2' resumed w3' hr hgs hna hns
          simp only [Prod.mk.injEq, true_and] at hr
          subst hr
          rw [hg] at hgs
          simp only [Prod.mk.injEq, Except.ok.injEq] at hgs
          cases res3 with
          | error e => simp at hgs
          | ok r3 =>
            simp only [Except.ok.injEq] at hgs
            obtain ⟨hr3, hw3⟩ := hgs
            subst hr3 hw3
            simp [hna, hns]

/-- When the lookup finds an instance whose status contains `suspend` and is adoptable,
`CreateResource` is the resume action followed by a second look at the state. -/
theorem CreateResource_suspended_outcome (serviceID : Int) (displayName : Str)
    (params : List (Int × Str)) (w w1 : World) (existing : InstanceStateResponse)
    (hfound : FindInstanceByDisplayName serviceID displayName w = (.ok (some existing), w1))
    (hsuspended :
      Contains (ToLower (TrimSpace existing.ExplainedStatus)) "suspend".toList = true)
    (hadoptable : isStatusNonAdoptable (ToLower (TrimSpace existing.ExplainedStatus)) = false) :
    (∀ e w2,
      RunInstanceOperationUniversal existing.InstanceUid "resume".toList [] w1 = (.error e, w2) →
      CreateResource serviceID displayName true params w = (.error e, w2)) ∧
    (∀ w2 e w3,
      RunInstanceOperationUniversal existing.InstanceUid "resume".toList [] w1 = (.ok (), w2) →
      GetInstanceState existing.InstanceUid w2 = (.error e, w3) →
      CreateResource serviceID displayName true params w = (.error e, w3)) ∧
    (∀ w2 resumed w3,
      RunInstanceOperationUniversal existing.InstanceUid "resume".toList [] w1 = (.ok (), w2) →
      GetInstanceState existing.InstanceUid w2 = (.ok resumed, w3) →
      (isStatusNonAdoptable (ToLower (TrimSpace resumed.ExplainedStatus)) = true ∨
        isStatusSuspended (ToLower (TrimSpace resumed.ExplainedStatus)) = true) →
      CreateResource serviceID displayName true params w
        = (.error (Err.notReadyAfterResume resumed.ExplainedStatus), w3)) := by
  have hs : isStatusSuspended (ToLower (TrimSpace existing.ExplainedStatus)) = true := by
    rw [isStatusSuspended_eq]; exact hsuspended
  refine ⟨?_, ?_, ?_⟩
  · intro e w2 hrun
    unfold CreateResource
    rw [hfound]
    simp only [Bool.not_true, Bool.false_eq_true, if_false, hadoptable, hs, if_true, hrun]
  · intro w2 e w3 hrun hget
    unfold CreateResource
    rw [hfound]
    simp only [Bool.not_true, Bool.false_eq_true, if_false, hadoptable, hs, if_true, hrun, hget]
  · intro w2 resumed w3 hrun hget hbad
    unfold CreateResource
    rw [hfound]
    simp only [Bool.not_true, Bool.false_eq_true, if_false, hadoptable, hs, if_true, hrun, hget]
    rw [if_pos (by simpa using hbad)]

/-- Claim C7, amended: when the lookup of `CreateResource` (with `resumeIfExists = true`) finds
an instance whose trimmed, lower-cased status contains `suspend` and is adoptable (not empty,
none of `not created`, `pending`, `creating`, `failed`, `error`), the write requests issued
afterwards are an initial part of the resume action on that instance (the `resume` operation
request, then its run request), and no request of the create sequence is issued.  The id of
that instance is returned, after the whole resume action, when the resume action succeeds and
the state fetched afterwards is adoptable and not suspended; otherwise an error is returned:
the error of the resume action, the error of the state request, or the not-ready-after-resume
error when the state fetched afterwards is not adoptable or still suspended. -/
theorem CreateResource_resumes_suspended (serviceID : Int) (displayName : Str)
    (params : List (Int × Str)) (w w1 : World) (existing : InstanceStateResponse)
    (hfound : FindInstanceByDisplayName serviceID displayName w = (.ok (some existing), w1))
    (hsuspended :
      Contains (ToLower (TrimSpace existing.ExplainedStatus)) "suspend".toList = true)
    (hadoptable : isStatusNonAdoptable (ToLower (TrimSpace existing.ExplainedStatus)) = false) :
    ∃ issued opId opUid,
      (CreateResource serviceID displayName true params w).2.log = w1.log ++ issued ∧
      writes issued <+: [Request.postAction existing.InstanceUid opId "resume".toList,
        Request.postRun opUid] ∧
      (∀ r ∈ issued, (∀ s d c, r ≠ Request.postInstance s d c) ∧
        (∀ u o, r ≠ Request.postOperation u o)) ∧
      (∀ id, (CreateResource serviceID displayName true params w).1 = .ok id →
        id = existing.InstanceUid ∧
        writes issued = [Request.postAction existing.InstanceUid opId "resume".toList,
          Request.postRun opUid]) ∧
      (∀ w2 resumed w3,
        RunInstanceOperationUniversal existing.InstanceUid "resume".toList [] w1 = (.ok (), w2) →
        GetInstanceState existing.InstanceUid w2 = (.ok resumed, w3) →
        isStatusNonAdoptable (ToLower (TrimSpace resumed.ExplainedStatus)) = false →
        isStatusSuspended (ToLower (TrimSpace resumed.ExplainedStatus)) = false →
        CreateResource serviceID displayName true params w = (.ok existing.InstanceUid, w3)) ∧
      (∀ e w2,
        RunInstanceOperationUniversal existing.InstanceUid "resume".toList [] w1
          = (.error e, w2) →
        CreateResource serviceID displayName true params w = (.error e, w2)) ∧
      (∀ w2 e w3,
        RunInstanceOperationUniversal existing.InstanceUid "resume".toList [] w1 = (.ok (), w2) →
        GetInstanceState existing.InstanceUid w2 = (.error e, w3) →
        CreateResource serviceID displayName true params w = (.error e, w3)) ∧
      (∀ w2 resumed w3,
        RunInstanceOperationUniversal existing.InstanceUid "resume".toList [] w1 = (.ok (), w2) →
        GetInstanceState existing.InstanceUid w2 = (.ok resumed, w3) →
        (isStatusNonAdoptable (ToLower (TrimSpace resumed.ExplainedStatus)) = true ∨
          isStatusSuspended (ToLower (TrimSpace resumed.ExplainedStatus)) = true) →
        CreateResource serviceID displayName true params w
          = (.error (Err.notReadyAfterResume resumed.ExplainedStatus), w3)) := by
  obtain ⟨issued, opId, opUid, h1, h2, h3, h4, h5⟩ :=
    CreateResource_resume_requests serviceID displayName params w w1 existing hfound
      hsuspended hadoptable
  obtain ⟨h6, h7, h8⟩ :=
    CreateResource_suspended_outcome serviceID displayName params w w1 existing hfound
      hsuspended hadoptable
  exact ⟨issued, opId, opUid, h1, h2, h3, h4, h5, h6, h7, h8⟩

/-- Witness for C7: a suspended instance is resumed and reports `Running` afterwards. -/
theorem CreateResource_resumes_suspended_witness :
    ∃ issued opId opUid,
      (CreateResource 1 "demo".toList true []
        (exampleWorld [Tick.fire 5]
          [pageAnswer [{ InstanceUid := "u1".toList, DisplayName := "demo".toList, ServiceId := 1 }],
            instanceAnswer (exampleInstance "Suspended".toList false),
            instanceAnswer (exampleInstance "Suspended".toList false),
            Answer.resp { status := 201, location := "./op9".toList, body := Body.null },
            Answer.resp { status := 200, location := [], body := Body.null },
            statusAnswer { operationStatus.zero with
              DtFinish := some "2024-05-01T10:00:00Z".toList, IsSuccessful := some true },
            instanceAnswer (exampleInstance "Running".toList false)])).1 = .ok "u1".toList ∧
      writes issued = [Request.postAction "u1".toList opId "resume".toList,
        Request.postRun opUid] := by
  obtain ⟨issued, opId, opUid, _, _, _, h, _⟩ :=
    CreateResource_resumes_suspended 1 "demo".toList []
      (exampleWorld [Tick.fire 5]
        [pageAnswer [{ InstanceUid := "u1".toList, DisplayName := "demo".toList, ServiceId := 1 }],
          instanceAnswer (exampleInstance "Suspended".toList false),
          instanceAnswer (exampleInstance "Suspended".toList false),
          Answer.resp { status := 201, location := "./op9".toList, body := Body.null },
          Answer.resp { status := 200, location := [], body := Body.null },
          statusAnswer { operationStatus.zero with
            DtFinish := some "2024-05-01T10:00:00Z".toList, IsSuccessful := some true },
          instanceAnswer (exampleInstance "Running".toList false)])
      _ (exampleInstance "Suspended".toList false) rfl (by decide) (by decide)
  exact ⟨issued, opId, opUid, by decide, (h "u1".toList (by decide)).2⟩


/-- Counterexample to C7 as stated: the status `suspended, creating snapshot` contains
`suspend`, yet no resume action is run and no id returned; and for the status `suspended`, a
resume action that succeeds on an instance that still reports `suspended` returns no id. -/
theorem CreateResource_suspended_not_resumed :
    CreateResource 1 "demo".toList true []
        (exampleWorld []
          [pageAnswer [{ InstanceUid := "u1".toList, DisplayName := "demo".toList, ServiceId := 1 }],
            instanceAnswer (exampleInstance "suspended, creating snapshot".toList false)])
      = (.error (Err.notReadyForAdopt "suspended, creating snapshot".toList),
          World.mk 0 [] [] [Request.getInstancesPage 1, Request.getInstance "u1".toList]) ∧
    CreateResource 1 "demo".toList true []
        (exampleWorld [Tick.fire 5]
          [pageAnswer [{ InstanceUid := "u1".toList, DisplayName := "demo".toList, ServiceId := 1 }],
            instanceAnswer (exampleInstance "suspended".toList false),
            instanceAnswer (exampleInstance "suspended".toList false),
            Answer.resp { status := 201, location := "./op9".toList, body := Body.null },
            Answer.resp { status := 200, location := [], body := Body.null },
            statusAnswer { operationStatus.zero with
              DtFinish := some "2024-05-01T10:00:00Z".toList, IsSuccessful := some true },
            instanceAnswer (exampleInstance "suspended".toList false)])
      = (.error (Err.notReadyAfterResume "suspended".toList),
          World.mk 5 [] [] [Request.getInstancesPage 1, Request.getInstance "u1".toList,
            Request.getInstance "u1".toList,
            Request.postAction "u1".toList 7 "resume".toList, Request.postRun "op9".toList,
            Request.getOperationStatus "op9".toList, Request.getInstance "u1".toList]) := by
  constructor <;> decide

/-- Witness for C6: a running instance exists and `resumeIfExists` is false. -/
theorem CreateResource_existing_without_resume_witness :
    CreateResource 1 "demo".toList false []
        (exampleWorld []
          [pageAnswer [{ InstanceUid := "u1".toList, DisplayName := "demo".toList, ServiceId := 1 }],
            instanceAnswer (exampleInstance "Running".toList false)])
      = (.error (Err.alreadyExists "demo".toList),
          World.mk 0 [] [] [Request.getInstancesPage 1, Request.getInstance "u1".toList]) :=
  (CreateResource_existing_without_resume 1 "demo".toList []
    (exampleWorld []
      [pageAnswer [{ InstanceUid := "u1".toList, DisplayName := "demo".toList, ServiceId := 1 }],
        instanceAnswer (exampleInstance "Running".toList false)])
    (World.mk 0 [] [] [Request.getInstancesPage 1, Request.getInstance "u1".toList])
    (exampleInstance "Running".toList false) (by decide)).1

/-- Claim C9, the code at the failing input: the first page lists two instances `u1` and `u2`
with the wanted service id and display name, and `u1` is marked deleted.  The lookup does not
skip `u1`: `GetInstanceState` rejects the deleted state, so the lookup returns that error and
never asks for `u2`. -/
theorem FindInstanceByDisplayName_deleted_match_aborts :
    FindInstanceByDisplayName 1 "demo".toList
        (exampleWorld []
          [pageAnswer [{ InstanceUid := "u1".toList, DisplayName := "demo".toList, ServiceId := 1 },
              { InstanceUid := "u2".toList, DisplayName := "demo".toList, ServiceId := 1 }],
            instanceAnswer (exampleInstance "Running".toList true),
            instanceAnswer { exampleInstance "Running".toList false with
              InstanceUid := "u2".toList }])
      = (.error (Err.instanceDeleted "u1".toList),
          World.mk 0 []
            [instanceAnswer { exampleInstance "Running".toList false with
              InstanceUid := "u2".toList }]
            [Request.getInstancesPage 1, Request.getInstance "u1".toList]) := by
  decide
/-! ## The create sequence -/

/-- A `GET` request is no run request. -/
theorem isRun_of_get (r : Request) (h : r.method = Method.GET) : r.isRun = false := by
  cases r <;> simp [Request.method] at h <;> rfl

/-- The scan of the reference resolver issues `GET` requests only. -/
theorem findInstanceUidByDisplayNameRefSvc_pages_log (serviceId : Int) (displayName : Str) :
    ∀ (fuel page : Nat) (w : World), ∃ issued,
      (findInstanceUidByDisplayNameRefSvc.pages serviceId displayName fuel page w).2.log
        = w.log ++ issued ∧
      ∀ r ∈ issued, r.method = Method.GET := by
  intro fuel
  induction fuel with
  | zero =>
    intro page w
    exact ⟨[], by simp [findInstanceUidByDisplayNameRefSvc.pages], by simp⟩
  | succ fuel ih =>
    intro page w
    rw [findInstanceUidByDisplayNameRefSvc.pages]
    have hl := doRequest_log (Request.getInstancesPage page) w
    have one : ∀ w1 : World, w1.log = w.log ++ [Request.getInstancesPage page] →
        ∃ issued, w1.log = w.log ++ issued ∧ ∀ r ∈ issued, r.method = Method.GET :=
      fun w1 h => ⟨[Request.getInstancesPage page], h, by simp [Request.method]⟩
    cases hd : doRequest (Request.getInstancesPage page) w with
    | mk res w1 =>
      rw [hd] at hl
      simp only at hl
      cases res with
      | error e => exact one _ hl
      | ok bl =>
        dsimp only
        cases bl.1.decodeResults with
        | none => exact one _ hl
        | some results =>
          dsimp only
          split
          · exact one _ hl
          · cases findInstanceUidByDisplayNameRefSvc.scan serviceId displayName results with
            | some uid => exact one _ hl
            | none =>
              dsimp only
              split
              · exact one _ hl
              · obtain ⟨i2, h3, h4⟩ := ih (page + 1) w1
                refine ⟨Request.getInstancesPage page :: i2, ?_, ?_⟩
                · rw [h3, hl]; simp
                · intro r hr
                  rcases List.mem_cons.mp hr with h | h
                  · rw [h]; rfl
                  · exact h4 r h

/-- The loop of the reference resolver issues `GET` requests only and keeps the parameter ids. -/
theorem resolveRefSvcParamValues_loop_spec (refById : List (Int × Int)) :
    ∀ (params : List (Int × Str)) (w : World), ∃ issued,
      (resolveRefSvcParamValues.loop refById params w).2.log = w.log ++ issued ∧
      (∀ r ∈ issued, r.method = Method.GET) ∧
      ∀ resolved, (resolveRefSvcParamValues.loop refById params w).1 = .ok resolved →
        resolved.map Prod.fst = params.map Prod.fst := by
  intro params
  induction params with
  | nil =>
    intro w
    refine ⟨[], by simp [resolveRefSvcParamValues.loop], by simp, ?_⟩
    intro resolved h
    simp only [resolveRefSvcParamValues.loop, Except.ok.injEq] at h
    rw [← h]
  | cons kv rest ih =>
    intro w
    obtain ⟨paramId, value⟩ := kv
    have keep : ∀ w0 : World, ∀ pre : List Request, w0.log = w.log ++ pre →
        (∀ r ∈ pre, r.method = Method.GET) → ∀ v : Str, ∃ issued,
        (match resolveRefSvcParamValues.loop refById rest w0 with
          | (.error e, w2) => ((.error e, w2) : Except Err (List (Int × Str)) × World)
          | (.ok resolved, w2) => (.ok ((paramId, v) :: resolved), w2)).2.log
            = w.log ++ issued ∧
        (∀ r ∈ issued, r.method = Method.GET) ∧
        ∀ resolved,
          (match resolveRefSvcParamValues.loop refById rest w0 with
            | (.error e, w2) => ((.error e, w2) : Except Err (List (Int × Str)) × World)
            | (.ok resolved, w2) => (.ok ((paramId, v) :: resolved), w2)).1 = .ok resolved →
          resolved.map Prod.fst = ((paramId, value) :: rest).map Prod.fst := by
      intro w0 pre hpre hget v
      obtain ⟨i1, h1, h2, h3⟩ := ih w0
      cases hr : resolveRefSvcParamValues.loop refById rest w0 with
      | mk res w2 =>
        rw [hr] at h1 h3
        simp only at h1 h3
        refine ⟨pre ++ i1, ?_, ?_, ?_⟩
        · cases res <;> (dsimp only; rw [h1, hpre]; simp)
        · intro r hr
          rcases List.mem_append.mp hr with h | h
          · exact hget r h
          · exact h2 r h
        · intro resolved hres
          cases res with
          | error e => simp at hres
          | ok rs =>
            simp only [Except.ok.injEq] at hres
            rw [← hres]
            simp [h3 rs rfl]
    rw [resolveRefSvcParamValues.loop]
    cases resolveRefSvcParamValues.lookup refById paramId with
    | none => exact keep w [] (by simp) (by simp) value
    | some refSvcId =>
      dsimp only
      split
      · obtain ⟨i0, h0, hg0⟩ := findInstanceUidByDisplayNameRefSvc_pages_log refSvcId value 100 1 w
        unfold findInstanceUidByDisplayNameRefSvc
        cases hf : findInstanceUidByDisplayNameRefSvc.pages refSvcId value 100 1 w with
        | mk res w1 =>
          rw [hf] at h0
          simp only at h0
          cases res with
          | error e => exact ⟨i0, h0, hg0, by simp⟩
          | ok uid =>
            dsimp only
            split
            · exact ⟨i0, h0, hg0, by simp⟩
            · exact keep w1 i0 h0 hg0 uid
      · exact keep w [] (by simp) (by simp) value

/-- The reference resolver issues `GET` requests only and keeps the parameter ids. -/
theorem resolveRefSvcParamValues_spec (opParams : List universalCfsParam)
    (params : List (Int × Str)) (w : World) : ∃ issued,
      (resolveRefSvcParamValues opParams params w).2.log = w.log ++ issued ∧
      (∀ r ∈ issued, r.method = Method.GET) ∧
      ∀ resolved, (resolveRefSvcParamValues opParams params w).1 = .ok resolved →
        resolved.map Prod.fst = params.map Prod.fst := by
  unfold resolveRefSvcParamValues
  split
  · exact ⟨[], by simp, by simp, fun resolved h => by simp at h; rw [h]⟩
  · dsimp only
    split
    · exact ⟨[], by simp, by simp, fun resolved h => by simp at h; rw [h]⟩
    · exact resolveRefSvcParamValues_loop_spec _ params w

/-- The supplied parameters are submitted with parameter requests, and `sent` collects their ids. -/
theorem submitParams_spec (opUid : Str) :
    ∀ (params : List (Int × Str)) (sent0 : List Int) (w : World), ∃ issued,
      (submitParams opUid params sent0 w).2.log = w.log ++ issued ∧
      (∀ r ∈ issued, ∃ paramId value, r = Request.postParam opUid paramId value) ∧
      ∀ sent, (submitParams opUid params sent0 w).1 = .ok sent →
        ∀ paramId, paramId ∈ sent ↔ paramId ∈ sent0 ∨ paramId ∈ params.map Prod.fst := by
  intro params
  induction params with
  | nil =>
    intro sent0 w
    refine ⟨[], by simp [submitParams], by simp, ?_⟩
    intro sent h
    simp only [submitParams, Except.ok.injEq] at h
    simp [h]
  | cons kv rest ih =>
    intro sent0 w
    obtain ⟨paramId, value⟩ := kv
    rw [submitParams]
    have hl := doRequest_log (Request.postParam opUid paramId value) w
    cases hd : doRequest (Request.postParam opUid paramId value) w with
    | mk res w1 =>
      rw [hd] at hl
      simp only at hl
      cases res with
      | error e =>
        exact ⟨[Request.postParam opUid paramId value], hl, by simp, by simp⟩
      | ok bl =>
        dsimp only
        obtain ⟨i1, h1, h2, h3⟩ := ih (paramId :: sent0) w1
        refine ⟨Request.postParam opUid paramId value :: i1, ?_, ?_, ?_⟩
        · rw [h1, hl]; simp
        · intro r hr
          rcases List.mem_cons.mp hr with h | h
          · exact ⟨paramId, value, h⟩
          · exact h2 r h
        · intro sent hs q
          rw [h3 sent hs q]
          simp only [List.mem_cons, List.map_cons]
          tauto

/-- The defaults loop issues parameter requests only, and when it succeeds it has submitted the
normalized value of every required descriptor that was not sent. -/
theorem submitRequiredDefaults_spec (opUid : Str) (sent : List Int) :
    ∀ (cfsParams : List universalCfsParam) (w : World), ∃ issued,
      (submitRequiredDefaults opUid sent cfsParams w).2.log = w.log ++ issued ∧
      (∀ r ∈ issued, ∃ paramId value, r = Request.postParam opUid paramId value) ∧
      ((submitRequiredDefaults opUid sent cfsParams w).1 = .ok () →
        ∀ p ∈ cfsParams, p.IsRequired = true → p.SvcOperationCfsParamId ∉ sent →
          Request.postParam opUid p.SvcOperationCfsParamId
            (normalizeUniversalValueV6 (initialValue p) p) ∈ issued) := by
  intro cfsParams
  induction cfsParams with
  | nil => intro w; exact ⟨[], by simp [submitRequiredDefaults], by simp, by simp⟩
  | cons param rest ih =>
    intro w
    rw [submitRequiredDefaults]
    split
    · rename_i hsent
      obtain ⟨i1, h1, h2, h3⟩ := ih w
      refine ⟨i1, h1, h2, ?_⟩
      intro hok p hp hreq hns
      rcases List.mem_cons.mp hp with h | h
      · subst h; exact absurd hsent hns
      · exact h3 hok p h hreq hns
    · split
      · rename_i hnreq
        obtain ⟨i1, h1, h2, h3⟩ := ih w
        refine ⟨i1, h1, h2, ?_⟩
        intro hok p hp hreq hns
        rcases List.mem_cons.mp hp with h | h
        · subst h; simp [hreq] at hnreq
        · exact h3 hok p h hreq hns
      · rename_i hnreq
        have hreq : param.IsRequired = true := by simpa using hnreq
        simp only [hreq, Bool.not_true, Bool.false_and, Bool.false_eq_true, if_false]
        have hl := doRequest_log (Request.postParam opUid param.SvcOperationCfsParamId
          (normalizeUniversalValueV6 (initialValue param) param)) w
        cases hd : doRequest (Request.postParam opUid param.SvcOperationCfsParamId
            (normalizeUniversalValueV6 (initialValue param) param)) w with
        | mk res w1 =>
          rw [hd] at hl
          simp only at hl
          cases res with
          | error e => exact ⟨_, hl, by simp, by simp⟩
          | ok bl =>
            dsimp only
            obtain ⟨i1, h1, h2, h3⟩ := ih w1
            refine ⟨Request.postParam opUid param.SvcOperationCfsParamId
              (normalizeUniversalValueV6 (initialValue param) param) :: i1, ?_, ?_, ?_⟩
            · rw [h1, hl]; simp
            · intro r hr
              rcases List.mem_cons.mp hr with h | h
              · exact ⟨_, _, h⟩
              · exact h2 r h
            · intro hok p hp hreq2 hns
              rcases List.mem_cons.mp hp with h | h
              · subst h; exact List.mem_cons_self _ _
              · exact List.mem_cons_of_mem _ (h3 hok p h hreq2 hns)

/-- The method `ensureInstanceCreated` issues exactly one request. -/
theorem ensureInstanceCreated_log (instanceUid : Str) (w : World) :
    (ensureInstanceCreated instanceUid w).2.log = w.log ++ [Request.getInstance instanceUid] := by
  unfold ensureInstanceCreated
  have hl := GetInstanceState_log instanceUid w
  cases hg : GetInstanceState instanceUid w with
  | mk res w1 =>
    rw [hg] at hl
    cases res with
    | error e => exact hl
    | ok state =>
      dsimp only
      split
      · exact hl
      · split <;> exact hl

/-- The method `doRequest` consumes exactly one answer. -/
theorem doRequest_answers (r : Request) (w : World) (a : Answer) (rest : List Answer)
    (h : w.answers = a :: rest) : (doRequest r w).2.answers = rest := by
  unfold doRequest World.send
  rw [h]
  cases a with
  | netErr => rfl
  | resp rp => dsimp only; split <;> rfl

/-- A request answered with descriptors succeeds and its body decodes to them. -/
theorem doRequest_cfsParams (r : Request) (w : World) (a : Answer) (rest : List Answer)
    (cfsParams : List universalCfsParam) (hw : w.answers = a :: rest)
    (ha : a.cfsParams = some cfsParams) :
    ∃ body loc w1, doRequest r w = (.ok (body, loc), w1) ∧
      body.decodeCfsParams = some cfsParams := by
  cases a with
  | netErr => simp [Answer.cfsParams] at ha
  | resp rp =>
    simp only [Answer.cfsParams] at ha
    split at ha
    · simp at ha
    · rename_i h
      exact ⟨rp.body, rp.location, { w with answers := rest, log := w.log ++ [r] },
        by simp [doRequest, World.send, hw, h], ha⟩

/-- The steps after the creation of the operation: the run request is issued at most once, and
only after the defaults of the required descriptors. -/
theorem CreateGenericInstanceUniversalV6_configure_spec (instanceUid opUid : Str)
    (params : List (Int × Str)) (w : World) (a : Answer) (rest : List Answer)
    (cfsParams : List universalCfsParam) (hw : w.answers = a :: rest)
    (ha : a.cfsParams = some cfsParams) :
    ∃ issued,
      (CreateGenericInstanceUniversalV6.configure instanceUid opUid params w).2.log
        = w.log ++ issued ∧
      ((∀ r ∈ issued, r.isRun = false) ∨
        ∃ before after, issued = before ++ Request.postRun opUid :: after ∧
          (∀ r ∈ before ++ after, r.isRun = false) ∧
          ∀ p ∈ cfsParams, p.IsRequired = true →
            p.SvcOperationCfsParamId ∉ params.map Prod.fst →
            Request.postParam opUid p.SvcOperationCfsParamId
              (normalizeUniversalValueV6 (initialValue p) p) ∈ before) ∧
      (∀ id, (CreateGenericInstanceUniversalV6.configure instanceUid opUid params w).1 = .ok id →
        Request.postRun opUid ∈ issued) := by
  unfold CreateGenericInstanceUniversalV6.configure
  obtain ⟨body, loc, w1, hd1, hdec⟩ :=
    doRequest_cfsParams (Request.getOperationParams opUid) w a rest cfsParams hw ha
  have hl1 := doRequest_log (Request.getOperationParams opUid) w
  rw [hd1] at hl1 ⊢
  simp only at hl1
  simp only [hdec]
  -- resolve the references
  obtain ⟨i2, hl2, hg2, hk2⟩ := resolveRefSvcParamValues_spec cfsParams params w1
  have hr2 : ∀ r ∈ i2, r.isRun = false := fun r hr => isRun_of_get r (hg2 r hr)
  cases hres : resolveRefSvcParamValues cfsParams params w1 with
  | mk res2 w2 =>
    rw [hres] at hl2 hk2
    simp only at hl2 hk2
    cases res2 with
    | error e =>
      refine ⟨Request.getOperationParams opUid :: i2, by rw [hl2, hl1]; simp, Or.inl ?_, by simp⟩
      intro r hr
      rcases List.mem_cons.mp hr with h | h
      · rw [h]; rfl
      · exact hr2 r h
    | ok resolved =>
      dsimp only
      have hkeys := hk2 resolved rfl
      -- submit the supplied parameters
      obtain ⟨i3, hl3, hp3, hs3⟩ := submitParams_spec opUid resolved [] w2
      have hr3 : ∀ r ∈ i3, r.isRun = false := by
        intro r hr
        obtain ⟨q, v, h⟩ := hp3 r hr
        rw [h]; rfl
      cases hsub : submitParams opUid resolved [] w2 with
      | mk res3 w3 =>
        rw [hsub] at hl3 hs3
        simp only at hl3 hs3
        cases res3 with
        | error e =>
          refine ⟨Request.getOperationParams opUid :: (i2 ++ i3),
            by rw [hl3, hl2, hl1]; simp, Or.inl ?_, by simp⟩
          intro r hr
          rcases List.mem_cons.mp hr with h | h
          · rw [h]; rfl
          · rcases List.mem_append.mp h with h | h
            · exact hr2 r h
            · exact hr3 r h
        | ok sent =>
          dsimp only
          have hsent : ∀ q, q ∈ sent ↔ q ∈ params.map Prod.fst := by
            intro q
            rw [hs3 sent rfl q, hkeys]
            simp
          -- submit the defaults of the required descriptors
          obtain ⟨i4, hl4, hp4, hd4⟩ := submitRequiredDefaults_spec opUid sent cfsParams w3
          have hr4 : ∀ r ∈ i4, r.isRun = false := by
            intro r hr
            obtain ⟨q, v, h⟩ := hp4 r hr
            rw [h]; rfl
          cases hdef : submitRequiredDefaults opUid sent cfsParams w3 with
          | mk res4 w4 =>
            rw [hdef] at hl4 hd4
            simp only at hl4 hd4
            have hbefore : ∀ r ∈ Request.getOperationParams opUid :: (i2 ++ i3 ++ i4),
                r.isRun = false := by
              intro r hr
              rcases List.mem_cons.mp hr with h | h
              · rw [h]; rfl
              · rcases List.mem_append.mp h with h | h
                · rcases List.mem_append.mp h with h | h
                  · exact hr2 r h
                  · exact hr3 r h
                · exact hr4 r h
            cases res4 with
            | error e =>
              exact ⟨Request.getOperationParams opUid :: (i2 ++ i3 ++ i4),
                by rw [hl4, hl3, hl2, hl1]; simp, Or.inl hbefore, by simp⟩
            | ok u =>
              dsimp only
              have hdefaults := hd4 rfl
              -- validate
              have hl5 := doRequest_log (Request.getValidate opUid) w4
              cases hval : doRequest (Request.getValidate opUid) w4 with
              | mk res5 w5 =>
                rw [hval] at hl5
                simp only at hl5
                have hbefore5 : ∀ r ∈ Request.getOperationParams opUid :: (i2 ++ i3 ++ i4) ++
                    [Request.getValidate opUid], r.isRun = false := by
                  intro r hr
                  rcases List.mem_append.mp hr with h | h
                  · exact hbefore r h
                  · rw [List.mem_singleton.mp h]; rfl
                cases res5 with
                | error e =>
                  exact ⟨Request.getOperationParams opUid :: (i2 ++ i3 ++ i4) ++
                    [Request.getValidate opUid],
                    by rw [hl5, hl4, hl3, hl2, hl1]; simp, Or.inl hbefore5, by simp⟩
                | ok bl5 =>
                  dsimp only
                  -- run
                  have hl6 := doRequest_log (Request.postRun opUid) w5
                  have hmem : ∀ p ∈ cfsParams, p.IsRequired = true →
                      p.SvcOperationCfsParamId ∉ params.map Prod.fst →
                      Request.postParam opUid p.SvcOperationCfsParamId
                        (normalizeUniversalValueV6 (initialValue p) p) ∈
                        Request.getOperationParams opUid :: (i2 ++ i3 ++ i4) ++
                          [Request.getValidate opUid] := by
                    intro p hp hreq hns
                    have := hdefaults p hp hreq (fun h => hns ((hsent _).mp h))
                    simp [this]
                  have right : ∀ (w9 : World) (after : List Request),
                      w9.log = w5.log ++ Request.postRun opUid :: after →
                      (∀ r ∈ after, r.isRun = false) →
                      ∃ issued, w9.log = w.log ++ issued ∧
                        ((∀ r ∈ issued, r.isRun = false) ∨
                          ∃ before after, issued = before ++ Request.postRun opUid :: after ∧
                            (∀ r ∈ before ++ after, r.isRun = false) ∧
                            ∀ p ∈ cfsParams, p.IsRequired = true →
                              p.SvcOperationCfsParamId ∉ params.map Prod.fst →
                              Request.postParam opUid p.SvcOperationCfsParamId
                                (normalizeUniversalValueV6 (initialValue p) p) ∈ before) ∧
                        Request.postRun opUid ∈ issued := by
                    intro w9 after h9 hafter
                    refine ⟨(Request.getOperationParams opUid :: (i2 ++ i3 ++ i4) ++
                      [Request.getValidate opUid]) ++ Request.postRun opUid :: after, ?_,
                      Or.inr ⟨_, after, rfl, ?_, hmem⟩, by simp⟩
                    · rw [h9, hl5, hl4, hl3, hl2, hl1]; simp
                    · intro r hr
                      rcases List.mem_append.mp hr with h | h
                      · exact hbefore5 r h
                      · exact hafter r h
                  cases hrun : doRequest (Request.postRun opUid) w5 with
                  | mk res6 w6 =>
                    rw [hrun] at hl6
                    simp only at hl6
                    cases res6 with
                    | error e =>
                      obtain ⟨issued, h1, h2, h3⟩ := right w6 [] hl6 (by simp)
                      exact ⟨issued, h1, h2, fun _ _ => h3⟩
                    | ok bl6 =>
                      dsimp only
                      -- wait for the operation, then check the instance
                      obtain ⟨i7, hl7, hg7⟩ :=
                        waitForOperationFinish_log opUid defaultOperationTimeout w6
                      have hr7 : ∀ r ∈ i7, r.isRun = false := by
                        intro r hr; rw [hg7 r hr]; rfl
                      cases hwait : waitForOperationFinish opUid defaultOperationTimeout w6 with
                      | mk res7 w7 =>
                        rw [hwait] at hl7
                        simp only at hl7
                        cases res7 with
                        | error e =>
                          obtain ⟨issued, h1, h2, h3⟩ := right w7 i7
                            (by rw [hl7, hl6]; simp) hr7
                          exact ⟨issued, h1, h2, fun _ _ => h3⟩
                        | ok u7 =>
                          dsimp only
                          have hl8 := ensureInstanceCreated_log instanceUid w7
                          cases hens : ensureInstanceCreated instanceUid w7 with
                          | mk res8 w8 =>
                            rw [hens] at hl8
                            simp only at hl8
                            obtain ⟨issued, h1, h2, h3⟩ := right w8
                              (i7 ++ [Request.getInstance instanceUid])
                              (by rw [hl8, hl7, hl6]; simp)
                              (by
                                intro r hr
                                rcases List.mem_append.mp hr with h | h
                                · exact hr7 r h
                                · rw [List.mem_singleton.mp h]; rfl)
                            cases res8 with
                            | error e => exact ⟨issued, h1, h2, fun _ _ => h3⟩
                            | ok u8 => exact ⟨issued, h1, h2, fun _ _ => h3⟩

/-- The defaults come before the run: let `cfsParams` be the descriptors answered to the
operation-details request of `CreateGenericInstanceUniversalV6`.  Either no run request is
issued, or exactly one is, and before it, for every required descriptor whose id is not among
the supplied ids, the value `normalizeUniversalValueV6 (initialValue p) p` has been submitted
for that id.  A call that returns an id has issued the run request. -/
theorem CreateGenericInstanceUniversalV6_defaults_before_run (serviceId : Int) (displayName : Str)
    (params : List (Int × Str)) (w : World) (a1 a2 a3 : Answer) (rest : List Answer)
    (cfsParams : List universalCfsParam) (hanswers : w.answers = a1 :: a2 :: a3 :: rest)
    (hdesc : a3.cfsParams = some cfsParams) :
    ∃ issued,
      (CreateGenericInstanceUniversalV6 serviceId displayName params w).2.log
        = w.log ++ issued ∧
      ((∀ r ∈ issued, r.isRun = false) ∨
        ∃ opUid before after, issued = before ++ Request.postRun opUid :: after ∧
          (∀ r ∈ before ++ after, r.isRun = false) ∧
          ∀ p ∈ cfsParams, p.IsRequired = true →
            p.SvcOperationCfsParamId ∉ params.map Prod.fst →
            Request.postParam opUid p.SvcOperationCfsParamId
              (normalizeUniversalValueV6 (initialValue p) p) ∈ before) ∧
      (∀ id, (CreateGenericInstanceUniversalV6 serviceId displayName params w).1 = .ok id →
        ∃ opUid, Request.postRun opUid ∈ issued) := by
  unfold CreateGenericInstanceUniversalV6
  have hl1 := doRequest_log (Request.postInstance serviceId displayName
    "Created via Terraform Universal Provider".toList) w
  have ha1 := doRequest_answers (Request.postInstance serviceId displayName
    "Created via Terraform Universal Provider".toList) w a1 _ hanswers
  cases hd1 : doRequest (Request.postInstance serviceId displayName
      "Created via Terraform Universal Provider".toList) w with
  | mk res1 w1 =>
    rw [hd1] at hl1 ha1
    simp only at hl1 ha1
    cases res1 with
    | error e => exact ⟨_, hl1, Or.inl (by simp [Request.isRun]), by simp⟩
    | ok bl1 =>
      dsimp only
      split
      · exact ⟨_, hl1, Or.inl (by simp [Request.isRun]), by simp⟩
      · generalize extractUid bl1.2 bl1.1.decodeInstanceUid bl1.1.decodeString = instanceUid
        have hl2 := doRequest_log (Request.postOperation instanceUid "create".toList) w1
        have ha2 := doRequest_answers (Request.postOperation instanceUid "create".toList) w1
          a2 _ ha1
        cases hd2 : doRequest (Request.postOperation instanceUid "create".toList) w1 with
        | mk res2 w2 =>
          rw [hd2] at hl2 ha2
          simp only at hl2 ha2
          have hl12 : w2.log = w.log ++ [Request.postInstance serviceId displayName
              "Created via Terraform Universal Provider".toList,
              Request.postOperation instanceUid "create".toList] := by
            rw [hl2, hl1]; simp
          cases res2 with
          | error e => exact ⟨_, hl12, Or.inl (by simp [Request.isRun]), by simp⟩
          | ok bl2 =>
            dsimp only
            split
            · exact ⟨_, hl12, Or.inl (by simp [Request.isRun]), by simp⟩
            · generalize extractUid bl2.2 bl2.1.decodeInstanceOperationUid bl2.1.decodeString
                = opUid
              obtain ⟨i3, h1, h2, h3⟩ := CreateGenericInstanceUniversalV6_configure_spec
                instanceUid opUid params w2 a3 rest cfsParams ha2 hdesc
              refine ⟨[Request.postInstance serviceId displayName
                "Created via Terraform Universal Provider".toList,
                Request.postOperation instanceUid "create".toList] ++ i3, ?_, ?_, ?_⟩
              · rw [h1, hl12]; simp
              · rcases h2 with h | ⟨before, after, hb1, hb2, hb3⟩
                · left
                  intro r hr
                  rcases List.mem_append.mp hr with h0 | h0
                  · simp at h0
                    rcases h0 with h0 | h0 <;> (rw [h0]; rfl)
                  · exact h r h0
                · right
                  refine ⟨opUid, [Request.postInstance serviceId displayName
                    "Created via Terraform Universal Provider".toList,
                    Request.postOperation instanceUid "create".toList] ++ before, after,
                    by rw [hb1]; simp, ?_, ?_⟩
                  · intro r hr
                    simp only [List.append_assoc, List.mem_append] at hr
                    rcases hr with h0 | h0 | h0
                    · simp at h0
                      rcases h0 with h0 | h0 <;> (rw [h0]; rfl)
                    · exact hb2 r (List.mem_append.mpr (Or.inl h0))
                    · exact hb2 r (List.mem_append.mpr (Or.inr h0))
                  · intro p hp hreq hns
                    exact List.mem_append.mpr (Or.inr (hb3 p hp hreq hns))
              · intro id hid
                exact ⟨opUid, List.mem_append.mpr (Or.inr (h3 id hid))⟩

/-- The value a descriptor starts from, in the words of the specification: the existing value
if present, else the default value if present, else the empty string. -/
theorem initialValue_eq (p : universalCfsParam) :
    initialValue p = p.ParamValue.getD (p.DefaultValue.getD []) := by
  unfold initialValue
  cases p.ParamValue <;> cases p.DefaultValue <;> rfl

/-- Claim C10: let `cfsParams` be the descriptors answered to the operation-details request
of `CreateGenericInstanceUniversalV6`.  Either no run request is issued, or exactly one is,
and before it, for every required descriptor whose id is not among the supplied ids, the value
`normalizeUniversalValueV6 v p` has been submitted for that id, where `v` is the existing value
of the descriptor if present, else its default value if present, else the empty string.  A
call that returns an id has issued the run request. -/
theorem CreateGenericInstanceUniversalV6_required_defaults (serviceId : Int) (displayName : Str)
    (params : List (Int × Str)) (w : World) (a1 a2 a3 : Answer) (rest : List Answer)
    (cfsParams : List universalCfsParam) (hanswers : w.answers = a1 :: a2 :: a3 :: rest)
    (hdesc : a3.cfsParams = some cfsParams) :
    ∃ issued,
      (CreateGenericInstanceUniversalV6 serviceId displayName params w).2.log
        = w.log ++ issued ∧
      ((∀ r ∈ issued, r.isRun = false) ∨
        ∃ opUid before after, issued = before ++ Request.postRun opUid :: after ∧
          (∀ r ∈ before ++ after, r.isRun = false) ∧
          ∀ p ∈ cfsParams, p.IsRequired = true →
            p.SvcOperationCfsParamId ∉ params.map Prod.fst →
            Request.postParam opUid p.SvcOperationCfsParamId
              (normalizeUniversalValueV6 (p.ParamValue.getD (p.DefaultValue.getD [])) p)
              ∈ before) ∧
      (∀ id, (CreateGenericInstanceUniversalV6 serviceId displayName params w).1 = .ok id →
        ∃ opUid, Request.postRun opUid ∈ issued) := by
  have h := CreateGenericInstanceUniversalV6_defaults_before_run serviceId displayName params w
    a1 a2 a3 rest cfsParams hanswers hdesc
  simp only [initialValue_eq] at h
  exact h

/-- Witness for C10: a create sequence with one supplied parameter and three required
defaults, taken from a default `null` for a map, from an existing value and from a default. -/
theorem CreateGenericInstanceUniversalV6_required_defaults_witness :
    ∃ issued,
      (CreateGenericInstanceUniversalV6 1 "demo".toList [(3, "x".toList)]
        (exampleWorld [Tick.fire 5]
          (exampleCreateAnswers exampleDescriptors 4 (plainAnswer 200 [])))).2.log
        = (exampleWorld [Tick.fire 5]
          (exampleCreateAnswers exampleDescriptors 4 (plainAnswer 200 []))).log ++ issued ∧
      ((∀ r ∈ issued, r.isRun = false) ∨
        ∃ opUid before after, issued = before ++ Request.postRun opUid :: after ∧
          (∀ r ∈ before ++ after, r.isRun = false) ∧
          ∀ p ∈ exampleDescriptors, p.IsRequired = true →
            p.SvcOperationCfsParamId ∉ [((3 : Int), "x".toList)].map Prod.fst →
            Request.postParam opUid p.SvcOperationCfsParamId
              (normalizeUniversalValueV6 (p.ParamValue.getD (p.DefaultValue.getD [])) p)
              ∈ before) ∧
      (∀ id, (CreateGenericInstanceUniversalV6 1 "demo".toList [(3, "x".toList)]
          (exampleWorld [Tick.fire 5]
            (exampleCreateAnswers exampleDescriptors 4 (plainAnswer 200 [])))).1 = .ok id →
        ∃ opUid, Request.postRun opUid ∈ issued) :=
  CreateGenericInstanceUniversalV6_required_defaults 1 "demo".toList [(3, "x".toList)]
    (exampleWorld [Tick.fire 5] (exampleCreateAnswers exampleDescriptors 4 (plainAnswer 200 [])))
    (plainAnswer 201 "./u1".toList) (plainAnswer 201 "./op9".toList)
    (paramsAnswer exampleDescriptors)
    (List.replicate 4 (plainAnswer 200 []) ++
      [plainAnswer 200 [], plainAnswer 200 [],
        statusAnswer { operationStatus.zero with
          DtFinish := some "2024-05-01T10:00:00Z".toList, IsSuccessful := some true },
        instanceAnswer (exampleInstance "Running".toList false)])
    exampleDescriptors rfl rfl

/-- The create sequence of the example, request by request: the supplied value for 3, then
`{}` for 5 (its default ` null ` is empty for a map), the trimmed existing value for 7 and the
default for 8, each before the validation and the run; nothing is submitted for 6, which is
not required. -/
theorem CreateGenericInstanceUniversalV6_defaults_example :
    CreateGenericInstanceUniversalV6 1 "demo".toList [(3, "x".toList)]
        (exampleWorld [Tick.fire 5]
          (exampleCreateAnswers exampleDescriptors 4 (plainAnswer 200 [])))
      = (.ok "u1".toList,
        World.mk 5 [] []
          [Request.postInstance 1 "demo".toList
              "Created via Terraform Universal Provider".toList,
            Request.postOperation "u1".toList "create".toList,
            Request.getOperationParams "op9".toList,
            Request.postParam "op9".toList 3 "x".toList,
            Request.postParam "op9".toList 5 "\x7b\x7d".toList,
            Request.postParam "op9".toList 7 "v7".toList,
            Request.postParam "op9".toList 8 "d8".toList,
            Request.getValidate "op9".toList, Request.postRun "op9".toList,
            Request.getOperationStatus "op9".toList, Request.getInstance "u1".toList]) := by
  decide


/-! ## The parameter normalizer -/

/-- A prefix of a list that `dropWhile` leaves alone is left alone too. -/
theorem dropWhile_of_prefix {α : Type} (p : α → Bool) (t u : List α) (h : t <+: u)
    (hu : List.dropWhile p u = u) : List.dropWhile p t = t := by
  cases t with
  | nil => rfl
  | cons c t =>
    obtain ⟨r, hr⟩ := h
    subst hr
    rw [List.dropWhile_eq_self_iff] at hu ⊢
    intro _
    have := hu (by simp)
    simpa using this

/-- Trimming white space twice is trimming once. -/
theorem TrimSpace_idempotent (s : Str) : TrimSpace (TrimSpace s) = TrimSpace s := by
  have h : ∀ s : Str, TrimSpace s = List.rdropWhile isSpace (List.dropWhile isSpace s) := by
    intro s; rfl
  have h1 : List.dropWhile isSpace (TrimSpace s) = TrimSpace s := by
    rw [h]
    exact dropWhile_of_prefix isSpace _ _ (List.rdropWhile_prefix _ _)
      (List.dropWhile_idempotent _ _)
  rw [h (TrimSpace s), h1, h, List.rdropWhile_idempotent]

/-- The normalizer by cases: an empty value gets the default of the type, any other value is
trimmed. -/
theorem normalizeUniversalValueV6_eq (val : Str) (param : universalCfsParam) :
    normalizeUniversalValueV6 val param =
      if isEmptyValue val = true then
        if Contains (ToLower param.DataType) "array".toList ||
            Contains param.nameHint "array".toList ||
            Contains param.nameHint "list".toList then "[]".toList
        else if Contains (ToLower param.DataType) "map".toList ||
            Contains (ToLower param.DataType) "json".toList ||
            Contains param.nameHint "map".toList || Contains param.nameHint "json".toList then
          "\x7b\x7d".toList
        else []
      else TrimSpace val := by
  unfold normalizeUniversalValueV6 isEmptyValue universalCfsParam.nameHint
  have h4 : EqualFold "\"\"".toList "null".toList = false := by decide
  by_cases h1 : TrimSpace val = []
  · simp [h1, EqualFold]
  · by_cases h2 : EqualFold (TrimSpace val) "null".toList = true
    · simp at h2
      simp [h1, h2]
    · by_cases h3 : TrimSpace val = "\"\"".toList
      · simp at h2 h3 h4
        simp [h1, h2, h3, h4]
      · simp at h2 h3
        simp [h1, h2, h3]

/-- Claim C14, amended: for a descriptor whose declared data type is map or json (in any letter
case) and whose name, code, label and `svcOperationCfsParam` hints contain neither `array`
nor `list`, and for every empty value (empty, white space only, `null`, or the token `""`),
`normalizeUniversalValueV6` returns exactly `{}`. -/
theorem normalizeUniversalValueV6_map_json (val : Str) (param : universalCfsParam)
    (htype : ToLower param.DataType = "map".toList ∨ ToLower param.DataType = "json".toList)
    (harray : Contains param.nameHint "array".toList = false)
    (hlist : Contains param.nameHint "list".toList = false)
    (hval : isEmptyValue val = true) :
    normalizeUniversalValueV6 val param = "\x7b\x7d".toList := by
  rw [normalizeUniversalValueV6_eq, if_pos hval, harray, hlist]
  rcases htype with h | h <;> rw [h] <;> rfl

/-- Witness for C14: the value ` null ` for a descriptor of type `JSON` without hints. -/
theorem normalizeUniversalValueV6_map_json_witness :
    normalizeUniversalValueV6 " null ".toList (exampleParam 5 true "JSON".toList)
      = "\x7b\x7d".toList :=
  normalizeUniversalValueV6_map_json " null ".toList (exampleParam 5 true "JSON".toList)
    (Or.inr (by decide)) (by decide) (by decide) (by decide)

/-- Counterexample to C14 as stated: the descriptor has the data type `map` and the name
`allow_list`, the value is empty, and the result is `[]`, not `{}`. -/
theorem normalizeUniversalValueV6_map_with_list_hint :
    ToLower ({ exampleParam 5 true "map".toList with Name := "allow_list".toList }).DataType
      = "map".toList ∧
    isEmptyValue [] = true ∧
    normalizeUniversalValueV6 []
      { exampleParam 5 true "map".toList with Name := "allow_list".toList } = "[]".toList := by
  decide

/-- Claim C16, amended: for every descriptor and every value whose trimmed form is non-empty,
is not `null` in any letter case and is not the token `""`, `normalizeUniversalValueV6`
returns the trimmed value; this is the supplied value itself when that has no white space
around it. -/
theorem normalizeUniversalValueV6_nonempty (val : Str) (param : universalCfsParam)
    (hne : TrimSpace val ≠ [])
    (hnull : EqualFold (TrimSpace val) "null".toList = false)
    (htoken : TrimSpace val ≠ "\"\"".toList) :
    normalizeUniversalValueV6 val param = TrimSpace val ∧
    (TrimSpace val = val → normalizeUniversalValueV6 val param = val) := by
  have h : isEmptyValue val = false := by
    unfold isEmptyValue
    simp only [hnull, Bool.or_false, Bool.or_eq_false_iff, decide_eq_false_iff_not]
    exact ⟨hne, htoken⟩
  have h2 : normalizeUniversalValueV6 val param = TrimSpace val := by
    rw [normalizeUniversalValueV6_eq]
    simp [h]
  exact ⟨h2, fun h3 => by rw [h2, h3]⟩

/-- Witness for C16: a value with blanks around it is returned trimmed. -/
theorem normalizeUniversalValueV6_nonempty_witness :
    normalizeUniversalValueV6 " 10 GB ".toList (exampleParam 5 true "string".toList)
      = "10 GB".toList :=
  (normalizeUniversalValueV6_nonempty " 10 GB ".toList (exampleParam 5 true "string".toList)
    (by decide) (by decide) (by decide)).1

/-- Counterexample to C16 as stated: the value ` x ` has the non-empty trimmed form `x`, and the
result is `x`, which is not the supplied value. -/
theorem normalizeUniversalValueV6_not_verbatim :
    TrimSpace " x ".toList ≠ [] ∧
    normalizeUniversalValueV6 " x ".toList (exampleParam 5 true "string".toList) = "x".toList ∧
    normalizeUniversalValueV6 " x ".toList (exampleParam 5 true "string".toList)
      ≠ " x ".toList := by
  decide

/-- Claim C17: `normalizeUniversalValueV6` is idempotent, for every value and descriptor. -/
theorem normalizeUniversalValueV6_idempotent (val : Str) (param : universalCfsParam) :
    normalizeUniversalValueV6 (normalizeUniversalValueV6 val param) param
      = normalizeUniversalValueV6 val param := by
  have hempty : ∀ d : Str, d = "[]".toList ∨ d = "\x7b\x7d".toList →
      isEmptyValue d = false := by
    intro d hd
    rcases hd with h | h <;> rw [h] <;> decide
  cases hv : isEmptyValue val with
  | false =>
    have h1 : normalizeUniversalValueV6 val param = TrimSpace val := by
      rw [normalizeUniversalValueV6_eq]; simp [hv]
    have h2 : isEmptyValue (TrimSpace val) = false := by
      unfold isEmptyValue at hv ⊢
      rw [TrimSpace_idempotent]
      exact hv
    rw [h1, normalizeUniversalValueV6_eq (TrimSpace val), TrimSpace_idempotent]
    simp [h2]
  | true =>
    rw [normalizeUniversalValueV6_eq val, if_pos hv]
    split
    · rename_i h
      rw [normalizeUniversalValueV6_eq, hempty _ (Or.inl rfl)]
      simp only [Bool.false_eq_true, if_false]
      decide
    · split
      · rw [normalizeUniversalValueV6_eq, hempty _ (Or.inr rfl)]
        simp only [Bool.false_eq_true, if_false]
        decide
      · rename_i h1 h2
        rw [normalizeUniversalValueV6_eq, if_pos (by decide), if_neg h1, if_neg h2]

/-- Claim C15, the code at the failing input: for the declared data type `list` without hints
and an empty value `normalizeUniversalValueV6` returns the empty string, whereas the earlier
`normalizeUniversalValue` and `normalizeUniversalValueV3` return `[]`; for the data type
`array` the result is `[]`. -/
theorem normalizeUniversalValueV6_list_type :
    normalizeUniversalValueV6 [] (exampleParam 5 true "list".toList) = [] ∧
    normalizeUniversalValue [] "list".toList = "[]".toList ∧
    normalizeUniversalValueV3 []
      { SvcOperationCfsParamId := 5, ParamValue := none, DefaultValue := none,
        DataType := "list".toList, Name := [], Code := [], Label := [],
        SvcOperationCfsParam := [] } = "[]".toList ∧
    normalizeUniversalValueV6 [] (exampleParam 5 true "array".toList) = "[]".toList := by
  decide

/-! ## The reference resolver -/

/-- The code points of the hexadecimal digits. -/
theorem hex_bounds (c : Char) (h : isHexDigit c = true) :
    (48 ≤ c.toNat ∧ c.toNat ≤ 57) ∨ (97 ≤ c.toNat ∧ c.toNat ≤ 102) ∨
      (65 ≤ c.toNat ∧ c.toNat ≤ 70) := by
  unfold isHexDigit at h
  simp only [Bool.or_eq_true, Bool.and_eq_true, decide_eq_true_eq, Char.le_def] at h
  have e : ∀ d : Char, d.val.toNat = d.toNat := fun d => rfl
  rcases h with (⟨h1, h2⟩ | ⟨h1, h2⟩) | ⟨h1, h2⟩
  · left
    rw [UInt32.le_def] at h1 h2
    exact ⟨h1, h2⟩
  · right; left
    rw [UInt32.le_def] at h1 h2
    exact ⟨h1, h2⟩
  · right; right
    rw [UInt32.le_def] at h1 h2
    exact ⟨h1, h2⟩

/-- An ASCII rune takes one byte. -/
theorem utf8Size_of_le (c : Char) (h : c.toNat ≤ 127) : c.utf8Size = 1 := by
  unfold Char.utf8Size
  have : c.val ≤ UInt32.ofNatCore 127 (by decide) := by
    rw [UInt32.le_def]; exact h
  simp only [this, if_true]

/-- A hexadecimal digit is no white space. -/
theorem isSpace_of_hex (c : Char) (h : isHexDigit c = true) : isSpace c = false := by
  have hb := hex_bounds c h
  unfold isSpace
  simp only [beq_eq_false_iff_ne, ne_eq, Bool.or_eq_false_iff, Bool.and_eq_false_iff,
    decide_eq_false_iff_not]
  omega

/-- The hyphen is no white space. -/
theorem isSpace_hyphen : isSpace '-' = false := by decide

/-- The loop of `isUUIDLike` accepts exactly the strings of one-byte runes whose rune at every
position is the hyphen or a hexadecimal digit as the position demands. -/
theorem isUUIDLike_loop_iff : ∀ (s : Str) (i : Nat),
    isUUIDLike.loop i s = true ↔
      ((List.enumFrom i s).all (fun p =>
        if p.1 = 8 ∨ p.1 = 13 ∨ p.1 = 18 ∨ p.1 = 23 then decide (p.2 = '-')
        else isHexDigit p.2) = true ∧ byteLen s = s.length) := by
  intro s
  induction s with
  | nil => intro i; simp [isUUIDLike.loop, byteLen]
  | cons c s ih =>
    intro i
    rw [isUUIDLike.loop]
    simp only [List.enumFrom_cons, List.all_cons, Bool.and_eq_true]
    have hlen : ∀ n : Nat, c.utf8Size = 1 →
        (byteLen (c :: s) = (c :: s).length ↔ byteLen s = s.length) := by
      intro n h1
      simp only [byteLen, List.map_cons, List.sum_cons, List.length_cons, h1]
      omega
    by_cases hi : i = 8 ∨ i = 13 ∨ i = 18 ∨ i = 23
    · simp only [hi, if_true]
      by_cases hc : c = '-'
      · subst hc
        have h1 : ('-' : Char).utf8Size = 1 := by decide
        simp only [ne_eq, not_true_eq_false, if_false, h1, decide_True, true_and, ih (i + 1),
          hlen 0 h1]
      · simp [hc]
    · simp only [hi, if_false]
      by_cases hc : isHexDigit c = true
      · have h1 : c.utf8Size = 1 := by
          apply utf8Size_of_le
          have := hex_bounds c hc
          omega
        simp only [hc, Bool.not_true, Bool.false_eq_true, if_false, h1, true_and, ih (i + 1),
          hlen 0 h1]
      · simp [hc]

/-- A string without white space is its own trimmed form. -/
theorem TrimSpace_of_no_space (s : Str) (h : ∀ c ∈ s, isSpace c = false) : TrimSpace s = s := by
  have h1 : List.dropWhile isSpace s = s := by
    rw [List.dropWhile_eq_self_iff]
    intro hl
    have := h _ (List.get_mem s 0 hl)
    simpa using this
  have h2 : List.rdropWhile isSpace s = s := by
    rw [List.rdropWhile_eq_self_iff]
    intro hl
    have := h _ (List.getLast_mem hl)
    simpa using this
  show List.rdropWhile isSpace (List.dropWhile isSpace s) = s
  rw [h1, h2]

/-- A string of hyphens and hexadecimal digits has no white space. -/
theorem no_space_of_form : ∀ (s : Str) (i : Nat),
    (List.enumFrom i s).all (fun p =>
      if p.1 = 8 ∨ p.1 = 13 ∨ p.1 = 18 ∨ p.1 = 23 then decide (p.2 = '-')
      else isHexDigit p.2) = true → ∀ c ∈ s, isSpace c = false := by
  intro s
  induction s with
  | nil => intro i _ c hc; simp at hc
  | cons d s ih =>
    intro i h c hc
    simp only [List.enumFrom_cons, List.all_cons, Bool.and_eq_true] at h
    rcases List.mem_cons.mp hc with hcd | hcs
    · subst hcd
      have h1 := h.1
      split at h1
      · simp only [decide_eq_true_eq] at h1
        rw [h1]; exact isSpace_hyphen
      · exact isSpace_of_hex c h1
    · exact ih (i + 1) h.2 c hcs

/-- A string of hyphens and hexadecimal digits has as many bytes as runes. -/
theorem byteLen_of_form : ∀ (s : Str) (i : Nat),
    (List.enumFrom i s).all (fun p =>
      if p.1 = 8 ∨ p.1 = 13 ∨ p.1 = 18 ∨ p.1 = 23 then decide (p.2 = '-')
      else isHexDigit p.2) = true → byteLen s = s.length := by
  intro s
  induction s with
  | nil => intro i _; rfl
  | cons d s ih =>
    intro i h
    simp only [List.enumFrom_cons, List.all_cons, Bool.and_eq_true] at h
    have h1 : d.utf8Size = 1 := by
      have h0 := h.1
      split at h0
      · simp only [decide_eq_true_eq] at h0
        rw [h0]; decide
      · apply utf8Size_of_le
        have := hex_bounds d h0
        omega
    have := ih (i + 1) h.2
    simp only [byteLen, List.map_cons, List.sum_cons, List.length_cons, h1] at this ⊢
    omega

/-- The identifier form, with the hexadecimal test of the code. -/
theorem hasUUIDForm_iff (v : Str) :
    hasUUIDForm v = true ↔ v.length = 36 ∧ (List.enumFrom 0 v).all (fun p =>
      if p.1 = 8 ∨ p.1 = 13 ∨ p.1 = 18 ∨ p.1 = 23 then decide (p.2 = '-')
      else isHexDigit p.2) = true := by
  unfold hasUUIDForm
  simp only [Bool.and_eq_true, decide_eq_true_eq]
  rfl

/-- The function `isUUIDLike` tests the identifier form of the trimmed value. -/
theorem isUUIDLike_iff (v : Str) : isUUIDLike v = true ↔ hasUUIDForm (TrimSpace v) = true := by
  rw [hasUUIDForm_iff]
  unfold isUUIDLike
  simp only [ne_eq, ite_not]
  constructor
  · intro h
    split at h
    · rename_i hb
      have := (isUUIDLike_loop_iff _ 0).mp h
      exact ⟨by rw [← this.2]; exact hb, this.1⟩
    · simp at h
  · intro h
    have hb := byteLen_of_form (TrimSpace v) 0 h.2
    have hl := (isUUIDLike_loop_iff _ 0).mpr ⟨h.2, hb⟩
    simp [hl, hb, h.1]

/-- Claim C18, amended: `isUUIDLike v` is true if and only if `v`, with leading and trailing
white space removed, consists of exactly 36 characters with a hyphen at each of the positions
8, 13, 18 and 23 and a hexadecimal digit at every other position. -/
theorem isUUIDLike_iff_trimmed_form (v : Str) :
    isUUIDLike v = true ↔ hasUUIDForm (TrimSpace v) = true :=
  isUUIDLike_iff v

/-- Counterexample to C18 as stated: an identifier with a leading blank has 37 characters and
not the identifier form, yet `isUUIDLike` is true for it. -/
theorem isUUIDLike_accepts_padded :
    isUUIDLike " 123e4567-e89b-12d3-a456-426614174000".toList = true ∧
    " 123e4567-e89b-12d3-a456-426614174000".toList.length = 37 ∧
    hasUUIDForm " 123e4567-e89b-12d3-a456-426614174000".toList = false := by
  decide

/-- A value of the identifier form is identifier-like. -/
theorem isUUIDLike_of_form (v : Str) (h : hasUUIDForm v = true) : isUUIDLike v = true := by
  rw [isUUIDLike_iff, TrimSpace_of_no_space v (no_space_of_form v 0 ((hasUUIDForm_iff v).mp h).2)]
  exact h

/-- The loop of the resolver leaves identifier-like values alone and issues no request. -/
theorem resolveRefSvcParamValues_loop_uuid (refById : List (Int × Int)) :
    ∀ (params : List (Int × Str)) (w : World), (∀ kv ∈ params, isUUIDLike kv.2 = true) →
      resolveRefSvcParamValues.loop refById params w = (.ok params, w) := by
  intro params
  induction params with
  | nil => intro w _; rfl
  | cons kv rest ih =>
    intro w h
    obtain ⟨paramId, value⟩ := kv
    have hv : isUUIDLike value = true := h (paramId, value) (List.mem_cons_self _ _)
    have hr := ih w (fun kv hkv => h kv (List.mem_cons_of_mem _ hkv))
    rw [resolveRefSvcParamValues.loop]
    cases resolveRefSvcParamValues.lookup refById paramId with
    | none => simp only [hr]
    | some refSvcId => simp only [hv, Bool.not_true, Bool.false_eq_true, if_false, hr]

/-- Claim C19: when every value of the parameter map has the identifier form,
`resolveRefSvcParamValues` returns the map as it is, for every descriptor list, and the world
is unchanged: no request is issued. -/
theorem resolveRefSvcParamValues_identifiers_unchanged (opParams : List universalCfsParam)
    (params : List (Int × Str)) (w : World)
    (h : ∀ kv ∈ params, hasUUIDForm kv.2 = true) :
    resolveRefSvcParamValues opParams params w = (.ok params, w) := by
  unfold resolveRefSvcParamValues
  split
  · rfl
  · dsimp only
    split
    · rfl
    · exact resolveRefSvcParamValues_loop_uuid _ params w
        (fun kv hkv => isUUIDLike_of_form kv.2 (h kv hkv))

/-- Witness for C19: one referencing parameter whose value is an identifier. -/
theorem resolveRefSvcParamValues_identifiers_unchanged_witness :
    resolveRefSvcParamValues
        [{ exampleParam 3 true "string".toList with RefSvcId := some 12 }]
        [(3, "123e4567-e89b-12d3-a456-426614174000".toList)] (exampleWorld [] [])
      = (.ok [(3, "123e4567-e89b-12d3-a456-426614174000".toList)], exampleWorld [] []) :=
  resolveRefSvcParamValues_identifiers_unchanged
    [{ exampleParam 3 true "string".toList with RefSvcId := some 12 }]
    [(3, "123e4567-e89b-12d3-a456-426614174000".toList)] (exampleWorld [] []) (by decide)

/-- The scan of one page returns the identifier of the first match. -/
theorem findInstanceUid_scan_eq (serviceId : Int) (displayName : Str) :
    ∀ items : List listItem,
      findInstanceUidByDisplayNameRefSvc.scan serviceId displayName items
        = (firstMatch serviceId displayName items).map (fun item => item.InstanceUid) := by
  intro items
  induction items with
  | nil => rfl
  | cons item rest ih =>
    rw [findInstanceUidByDisplayNameRefSvc.scan]
    unfold firstMatch
    rw [List.find?_cons]
    by_cases h : item.ServiceId = serviceId ∧ EqualFold item.DisplayName displayName = true
    · simp [h.1, h.2]
    · have h2 : (decide (item.ServiceId = serviceId) && EqualFold item.DisplayName displayName)
          = false := by
        simp only [Bool.and_eq_false_iff, decide_eq_false_iff_not]
        by_cases h3 : item.ServiceId = serviceId
        · right; simpa [h3] using h
        · left; exact h3
      rw [if_neg h, h2, ih]
      rfl

/-- A list request answered with a page succeeds and its body decodes to the results. -/
theorem doRequest_page (r : Request) (w : World) (a : Answer) (rest : List Answer)
    (results : List listItem) (hw : w.answers = a :: rest) (ha : a.page = some results) :
    ∃ body loc w1, doRequest r w = (.ok (body, loc), w1) ∧ w1.answers = rest ∧
      body.decodeResults = some results := by
  cases a with
  | netErr => simp [Answer.page] at ha
  | resp rp =>
    simp only [Answer.page] at ha
    split at ha
    · simp at ha
    · rename_i h
      exact ⟨rp.body, rp.location, { w with answers := rest, log := w.log ++ [r] },
        by simp [doRequest, World.send, hw, h], rfl, ha⟩

/-- Without a match in the first part, the first match is the one of the second part. -/
theorem firstMatch_append_none (serviceId : Int) (displayName : Str) (l1 l2 : List listItem)
    (h : firstMatch serviceId displayName l1 = none) :
    firstMatch serviceId displayName (l1 ++ l2) = firstMatch serviceId displayName l2 := by
  unfold firstMatch at h ⊢
  rw [List.find?_append, h]
  rfl

/-- A match in the first part is the first match of the whole. -/
theorem firstMatch_append_some (serviceId : Int) (displayName : Str) (l1 l2 : List listItem)
    (item : listItem) (h : firstMatch serviceId displayName l1 = some item) :
    firstMatch serviceId displayName (l1 ++ l2) = some item := by
  unfold firstMatch at h ⊢
  rw [List.find?_append, h]
  rfl

/-- The scan over the pages returns the identifier of the first match of the scanned list, and
the empty string when there is none. -/
theorem findInstanceUid_pages_result (serviceId : Int) (displayName : Str) :
    ∀ (n page : Nat) (w : World) (items : List listItem), page + n = 101 →
      scannedList n w.answers = some items →
      (findInstanceUidByDisplayNameRefSvc.pages serviceId displayName n page w).1
        = .ok (match firstMatch serviceId displayName items with
          | some item => item.InstanceUid
          | none => []) := by
  intro n
  induction n with
  | zero =>
    intro page w items _ hs
    simp only [scannedList, Option.some.injEq] at hs
    subst hs
    rfl
  | succ n ih =>
    intro page w items hp hs
    cases hw : w.answers with
    | nil => simp [hw, scannedList] at hs
    | cons a rest =>
      rw [hw, scannedList] at hs
      cases hpg : a.page with
      | none => simp [hpg] at hs
      | some results =>
        simp only [hpg] at hs
        obtain ⟨body, loc, w1, hd, hw1, hdec⟩ :=
          doRequest_page (Request.getInstancesPage page) w a rest results hw hpg
        rw [findInstanceUidByDisplayNameRefSvc.pages, hd]
        simp only [hdec]
        by_cases hz : results.length = 0
        · simp only [hz, if_true, Option.some.injEq] at hs
          subst hs
          rw [if_pos hz]
          rfl
        · simp only [hz, if_false] at hs ⊢
          rw [findInstanceUid_scan_eq]
          cases hm : firstMatch serviceId displayName results with
          | some item =>
            cases hrest : scannedList n rest with
            | none => simp [hrest] at hs
            | some more =>
              simp only [hrest, Option.map_some', Option.some.injEq] at hs
              subst hs
              rw [firstMatch_append_some _ _ _ _ _ hm]
              rfl
          | none =>
            cases hrest : scannedList n rest with
            | none => simp [hrest] at hs
            | some more =>
              simp only [hrest, Option.map_some', Option.some.injEq] at hs
              subst hs
              rw [firstMatch_append_none _ _ _ _ hm]
              simp only [Option.map_none']
              by_cases hcap : page + 1 > 100
              · have hn : n = 0 := by omega
                subst hn
                simp only [scannedList, Option.some.injEq] at hrest
                subst hrest
                simp only [hcap, if_true]
                rfl
              · simp only [hcap, if_false]
                exact ih (page + 1) w1 more (by omega) (by rw [hw1]; exact hrest)

/-- The step of the loop of the resolver that appends an entry, in front of a continuation. -/
theorem resolve_loop_cons_tail (refById : List (Int × Int)) (paramId : Int) (v : Str)
    (bs rest : List (Int × Str)) (w0 w1 : World) (rb : List (Int × Str))
    (ih : ∀ (w : World) (rb : List (Int × Str)) (w1 : World),
      resolveRefSvcParamValues.loop refById bs w = (.ok rb, w1) →
      resolveRefSvcParamValues.loop refById (bs ++ rest) w =
        match resolveRefSvcParamValues.loop refById rest w1 with
        | (.error e, w2) => (.error e, w2)
        | (.ok rr, w2) => (.ok (rb ++ rr), w2))
    (h : (match resolveRefSvcParamValues.loop refById bs w0 with
      | (.error e, w2) => ((.error e, w2) : Except Err (List (Int × Str)) × World)
      | (.ok resolved, w2) => (.ok ((paramId, v) :: resolved), w2)) = (.ok rb, w1)) :
    (match resolveRefSvcParamValues.loop refById (bs ++ rest) w0 with
      | (.error e, w2) => ((.error e, w2) : Except Err (List (Int × Str)) × World)
      | (.ok resolved, w2) => (.ok ((paramId, v) :: resolved), w2)) =
      match resolveRefSvcParamValues.loop refById rest w1 with
      | (.error e, w2) => (.error e, w2)
      | (.ok rr, w2) => (.ok (rb ++ rr), w2) := by
  cases hb : resolveRefSvcParamValues.loop refById bs w0 with
  | mk res w2 =>
    rw [hb] at h
    cases res with
    | error e => simp at h
    | ok r =>
      simp only [Prod.mk.injEq, Except.ok.injEq] at h
      obtain ⟨h1, h2⟩ := h
      subst h1 h2
      rw [ih w0 r w2 hb]
      cases resolveRefSvcParamValues.loop refById rest w2 with
      | mk res3 w3 => cases res3 <;> rfl

/-- The loop of the resolver over a concatenation, once the first part has succeeded. -/
theorem resolve_loop_append (refById : List (Int × Int)) (rest : List (Int × Str)) :
    ∀ (before : List (Int × Str)) (w : World) (rb : List (Int × Str)) (w1 : World),
      resolveRefSvcParamValues.loop refById before w = (.ok rb, w1) →
      resolveRefSvcParamValues.loop refById (before ++ rest) w =
        match resolveRefSvcParamValues.loop refById rest w1 with
        | (.error e, w2) => (.error e, w2)
        | (.ok rr, w2) => (.ok (rb ++ rr), w2) := by
  intro before
  induction before with
  | nil =>
    intro w rb w1 h
    simp only [resolveRefSvcParamValues.loop, Prod.mk.injEq, Except.ok.injEq] at h
    obtain ⟨h1, h2⟩ := h
    subst h1 h2
    simp only [List.nil_append]
    cases resolveRefSvcParamValues.loop refById rest w with
    | mk res3 w3 => cases res3 <;> rfl
  | cons kv bs ih =>
    intro w rb w1 h
    obtain ⟨paramId, value⟩ := kv
    rw [resolveRefSvcParamValues.loop] at h
    rw [List.cons_append, resolveRefSvcParamValues.loop]
    cases hl : resolveRefSvcParamValues.lookup refById paramId with
    | none =>
      rw [hl] at h
      exact resolve_loop_cons_tail refById paramId value bs rest w w1 rb ih h
    | some refSvcId =>
      rw [hl] at h
      dsimp only at h ⊢
      by_cases hu : (!isUUIDLike value) = true
      · rw [if_pos hu] at h ⊢
        cases hf : findInstanceUidByDisplayNameRefSvc refSvcId value w with
        | mk res w2 =>
          rw [hf] at h
          cases res with
          | error e => simp at h
          | ok uid =>
            dsimp only at h ⊢
            by_cases he : uid = []
            · rw [if_pos he] at h; simp at h
            · rw [if_neg he] at h ⊢
              exact resolve_loop_cons_tail refById paramId uid bs rest w2 w1 rb ih h
      · rw [if_neg hu] at h ⊢
        exact resolve_loop_cons_tail refById paramId value bs rest w w1 rb ih h

/-- With a referencing descriptor and a non-empty map the resolver runs its loop. -/
theorem resolveRefSvcParamValues_eq_loop (opParams : List universalCfsParam)
    (params : List (Int × Str)) (w : World) (paramId refSvcId : Int) (hp : params ≠ [])
    (href : resolveRefSvcParamValues.lookup (resolveRefSvcParamValues.refById opParams) paramId
      = some refSvcId) :
    resolveRefSvcParamValues opParams params w
      = resolveRefSvcParamValues.loop (resolveRefSvcParamValues.refById opParams) params w := by
  have h1 : resolveRefSvcParamValues.refById opParams ≠ [] := by
    intro h
    rw [h] at href
    simp [resolveRefSvcParamValues.lookup] at href
  have h2 : opParams ≠ [] := by
    intro h
    rw [h] at h1
    exact h1 rfl
  unfold resolveRefSvcParamValues
  have h3 : ¬ (params.length = 0 ∨ opParams.length = 0) := by
    simp [hp, h2]
  rw [if_neg h3]
  dsimp only
  rw [if_neg (by simpa using h1)]

/-- Claim C20, amended: take a supplied parameter whose id the map `refById` sends to the
(positive) reference-service-id `refSvcId` and whose value is not identifier-like, the
parameters visited before it being resolved, and let `items` be the instance list the scan
reads.  If `items` has no instance with that service id and a display name equal but for case,
or if the first such instance has an empty identifier, `resolveRefSvcParamValues` fails with
the resolution error for this parameter.  If the first such instance has a non-empty
identifier, the value is replaced by that identifier: the call fails when a parameter visited
later fails, and returns otherwise the resolved entries of the parameters visited before, the
parameter with that identifier, and the resolved entries of the parameters visited later. -/
theorem resolveRefSvcParamValues_reference (opParams : List universalCfsParam)
    (before after : List (Int × Str)) (paramId : Int) (value : Str) (w w1 : World)
    (resolvedBefore : List (Int × Str)) (refSvcId : Int) (items : List listItem)
    (href : resolveRefSvcParamValues.lookup (resolveRefSvcParamValues.refById opParams) paramId
      = some refSvcId)
    (hvalue : isUUIDLike value = false)
    (hbefore : resolveRefSvcParamValues.loop (resolveRefSvcParamValues.refById opParams)
      before w = (.ok resolvedBefore, w1))
    (hlist : scannedList 100 w1.answers = some items) :
    ((firstMatch refSvcId value items = none ∨
        ∃ item, firstMatch refSvcId value items = some item ∧ item.InstanceUid = []) →
      (resolveRefSvcParamValues opParams (before ++ (paramId, value) :: after) w).1
        = .error (Err.resolveParam paramId refSvcId value)) ∧
    (∀ item, firstMatch refSvcId value items = some item → item.InstanceUid ≠ [] →
      ∃ w2,
        (resolveRefSvcParamValues opParams (before ++ (paramId, value) :: after) w).1
          = match (resolveRefSvcParamValues.loop (resolveRefSvcParamValues.refById opParams)
              after w2).1 with
            | .error e => .error e
            | .ok resolvedAfter =>
              .ok (resolvedBefore ++ (paramId, item.InstanceUid) :: resolvedAfter)) := by
  rw [resolveRefSvcParamValues_eq_loop opParams _ w paramId refSvcId (by simp) href,
    resolve_loop_append _ _ before w resolvedBefore w1 hbefore,
    resolveRefSvcParamValues.loop, href]
  have hfind := findInstanceUid_pages_result refSvcId value 100 1 w1 items rfl hlist
  dsimp only
  rw [if_pos (by simp [hvalue])]
  unfold findInstanceUidByDisplayNameRefSvc
  cases hf : findInstanceUidByDisplayNameRefSvc.pages refSvcId value 100 1 w1 with
  | mk res w2 =>
    rw [hf] at hfind
    simp only at hfind
    subst hfind
    dsimp only
    constructor
    · intro h
      have hu : (match firstMatch refSvcId value items with
          | some item => item.InstanceUid
          | none => []) = [] := by
        rcases h with h | ⟨item, h, he⟩
        · rw [h]
        · rw [h]; exact he
      rw [if_pos hu]
    · intro item hm hne
      refine ⟨w2, ?_⟩
      rw [hm]
      dsimp only
      rw [if_neg hne]
      cases hrest : resolveRefSvcParamValues.loop (resolveRefSvcParamValues.refById opParams)
          after w2 with
      | mk res3 w3 => cases res3 <;> rfl

/-- Witness for C20: the name `Хранилище-S3` is resolved to the first instance of service 12
with that name in any letter case; the comparison folds every script, not only ASCII. -/
theorem resolveRefSvcParamValues_reference_witness :
    ∃ w2,
      (resolveRefSvcParamValues [{ exampleParam 3 true "string".toList with RefSvcId := some 12 }]
        ([] ++ (3, "Хранилище-S3".toList) :: [])
        (exampleWorld [] [pageAnswer
          [{ InstanceUid := "u7".toList, DisplayName := "хранилище-s3".toList, ServiceId := 11 },
            { InstanceUid := "u8".toList, DisplayName := "хранилище-s3".toList, ServiceId := 12 },
            { InstanceUid := "u9".toList, DisplayName := "ХРАНИЛИЩЕ-S3".toList, ServiceId := 12 }],
          pageAnswer []])).1
        = match (resolveRefSvcParamValues.loop (resolveRefSvcParamValues.refById
            [{ exampleParam 3 true "string".toList with RefSvcId := some 12 }]) [] w2).1 with
          | .error e => .error e
          | .ok resolvedAfter => .ok ([] ++ (3, "u8".toList) :: resolvedAfter) :=
  (resolveRefSvcParamValues_reference
    [{ exampleParam 3 true "string".toList with RefSvcId := some 12 }] [] [] 3
    "Хранилище-S3".toList
    (exampleWorld [] [pageAnswer
      [{ InstanceUid := "u7".toList, DisplayName := "хранилище-s3".toList, ServiceId := 11 },
        { InstanceUid := "u8".toList, DisplayName := "хранилище-s3".toList, ServiceId := 12 },
        { InstanceUid := "u9".toList, DisplayName := "ХРАНИЛИЩЕ-S3".toList, ServiceId := 12 }],
      pageAnswer []])
    (exampleWorld [] [pageAnswer
      [{ InstanceUid := "u7".toList, DisplayName := "хранилище-s3".toList, ServiceId := 11 },
        { InstanceUid := "u8".toList, DisplayName := "хранилище-s3".toList, ServiceId := 12 },
        { InstanceUid := "u9".toList, DisplayName := "ХРАНИЛИЩЕ-S3".toList, ServiceId := 12 }],
      pageAnswer []])
    [] 12
    [{ InstanceUid := "u7".toList, DisplayName := "хранилище-s3".toList, ServiceId := 11 },
      { InstanceUid := "u8".toList, DisplayName := "хранилище-s3".toList, ServiceId := 12 },
      { InstanceUid := "u9".toList, DisplayName := "ХРАНИЛИЩЕ-S3".toList, ServiceId := 12 }]
    (by decide) (by decide) rfl (by decide)).2
    { InstanceUid := "u8".toList, DisplayName := "хранилище-s3".toList, ServiceId := 12 }
    (by decide) (by decide)

/-- The resolver on names that differ in case outside ASCII: the Cyrillic name and the
accented name are resolved, each with one list request. -/
theorem resolveRefSvcParamValues_folds_every_script :
    resolveRefSvcParamValues [{ exampleParam 3 true "string".toList with RefSvcId := some 12 }]
        [(3, "Хранилище".toList)]
        (exampleWorld [] [pageAnswer
          [{ InstanceUid := "u8".toList, DisplayName := "ХРАНИЛИЩЕ".toList, ServiceId := 12 }]])
      = (.ok [(3, "u8".toList)], World.mk 0 [] [] [Request.getInstancesPage 1]) ∧
    resolveRefSvcParamValues [{ exampleParam 3 true "string".toList with RefSvcId := some 12 }]
        [(3, "école".toList)]
        (exampleWorld [] [pageAnswer
          [{ InstanceUid := "u8".toList, DisplayName := "École".toList, ServiceId := 12 }]])
      = (.ok [(3, "u8".toList)], World.mk 0 [] [] [Request.getInstancesPage 1]) := by
  constructor <;> decide


/-- Counterexample to C20 as stated: the list holds an instance with the service id and the
display name, but its identifier is empty; the value is not replaced, the call fails with the
resolution error. -/
theorem resolveRefSvcParamValues_empty_identifier :
    firstMatch 12 "s3-main".toList
        [{ InstanceUid := [], DisplayName := "s3-main".toList, ServiceId := 12 },
          { InstanceUid := "u8".toList, DisplayName := "s3-main".toList, ServiceId := 12 }]
      = some { InstanceUid := [], DisplayName := "s3-main".toList, ServiceId := 12 } ∧
    resolveRefSvcParamValues [{ exampleParam 3 true "string".toList with RefSvcId := some 12 }]
        [(3, "s3-main".toList)]
        (exampleWorld [] [pageAnswer
          [{ InstanceUid := [], DisplayName := "s3-main".toList, ServiceId := 12 },
            { InstanceUid := "u8".toList, DisplayName := "s3-main".toList, ServiceId := 12 }],
          pageAnswer []])
      = (.error (Err.resolveParam 3 12 "s3-main".toList),
          World.mk 0 [] [pageAnswer []] [Request.getInstancesPage 1]) := by
  decide

/-! ## The create sequence, request by request -/

/-- No request leaves the world as it is. -/
theorem Steps.refl (w : World) : Steps w w [] := by
  simp [Steps]

/-- Requests issued one after the other. -/
theorem Steps.trans {w w1 w2 : World} {i1 i2 : List Request} (h1 : Steps w w1 i1)
    (h2 : Steps w1 w2 i2) : Steps w w2 (i1 ++ i2) := by
  obtain ⟨a1, b1⟩ := h1
  obtain ⟨a2, b2⟩ := h2
  refine ⟨by rw [a2, a1, List.append_assoc], ?_⟩
  rw [b2, b1, List.drop_drop, List.length_append, Nat.add_comm]

/-- A round trip is one step. -/
theorem send_steps (w : World) (r : Request) : Steps w (w.send r).2 [r] := by
  unfold World.send Steps
  cases h : w.answers <;> simp

/-- The method `doRequest` is one step. -/
theorem doRequest_steps (r : Request) (w : World) : Steps w (doRequest r w).2 [r] := by
  have h := send_steps w r
  unfold doRequest
  cases hs : w.send r with
  | mk a w1 =>
    rw [hs] at h
    cases a with
    | netErr => exact h
    | resp rp => dsimp only; split <;> exact h

/-- The scan of the resolver issues list requests and consumes their answers. -/
theorem findInstanceUid_pages_steps (serviceId : Int) (displayName : Str) :
    ∀ (fuel page : Nat) (w : World), ∃ issued,
      Steps w (findInstanceUidByDisplayNameRefSvc.pages serviceId displayName fuel page w).2
        issued ∧
      ∀ r ∈ issued, ∃ p, r = Request.getInstancesPage p := by
  intro fuel
  induction fuel with
  | zero =>
    intro page w
    exact ⟨[], Steps.refl w, by simp⟩
  | succ fuel ih =>
    intro page w
    rw [findInstanceUidByDisplayNameRefSvc.pages]
    have hl := doRequest_steps (Request.getInstancesPage page) w
    have one : ∀ w1 : World, Steps w w1 [Request.getInstancesPage page] →
        ∃ issued, Steps w w1 issued ∧ ∀ r ∈ issued, ∃ p, r = Request.getInstancesPage p :=
      fun w1 h => ⟨_, h, by simp⟩
    cases hd : doRequest (Request.getInstancesPage page) w with
    | mk res w1 =>
      rw [hd] at hl
      simp only at hl
      cases res with
      | error e => exact one _ hl
      | ok bl =>
        dsimp only
        cases bl.1.decodeResults with
        | none => exact one _ hl
        | some results =>
          dsimp only
          split
          · exact one _ hl
          · cases findInstanceUidByDisplayNameRefSvc.scan serviceId displayName results with
            | some uid => exact one _ hl
            | none =>
              dsimp only
              split
              · exact one _ hl
              · obtain ⟨i2, h3, h4⟩ := ih (page + 1) w1
                refine ⟨[Request.getInstancesPage page] ++ i2, hl.trans h3, ?_⟩
                intro r hr
                rcases List.mem_append.mp hr with h | h
                · exact ⟨page, List.mem_singleton.mp h⟩
                · exact h4 r h

/-- The loop of the resolver issues list requests and consumes their answers. -/
theorem resolveRefSvcParamValues_loop_steps (refById : List (Int × Int)) :
    ∀ (params : List (Int × Str)) (w : World), ∃ issued,
      Steps w (resolveRefSvcParamValues.loop refById params w).2 issued ∧
      ∀ r ∈ issued, ∃ p, r = Request.getInstancesPage p := by
  intro params
  induction params with
  | nil => intro w; exact ⟨[], Steps.refl w, by simp⟩
  | cons kv rest ih =>
    intro w
    obtain ⟨paramId, value⟩ := kv
    have keep : ∀ (w0 : World) (pre : List Request), Steps w w0 pre →
        (∀ r ∈ pre, ∃ p, r = Request.getInstancesPage p) → ∀ v : Str, ∃ issued,
        Steps w (match resolveRefSvcParamValues.loop refById rest w0 with
          | (.error e, w2) => ((.error e, w2) : Except Err (List (Int × Str)) × World)
          | (.ok resolved, w2) => (.ok ((paramId, v) :: resolved), w2)).2 issued ∧
        ∀ r ∈ issued, ∃ p, r = Request.getInstancesPage p := by
      intro w0 pre hpre hget v
      obtain ⟨i1, h1, h2⟩ := ih w0
      cases hr : resolveRefSvcParamValues.loop refById rest w0 with
      | mk res w2 =>
        rw [hr] at h1
        simp only at h1
        refine ⟨pre ++ i1, ?_, ?_⟩
        · cases res <;> exact hpre.trans h1
        · intro r hr
          rcases List.mem_append.mp hr with h | h
          · exact hget r h
          · exact h2 r h
    rw [resolveRefSvcParamValues.loop]
    cases resolveRefSvcParamValues.lookup refById paramId with
    | none => exact keep w [] (Steps.refl w) (by simp) value
    | some refSvcId =>
      dsimp only
      split
      · obtain ⟨i0, h0, hg0⟩ := findInstanceUid_pages_steps refSvcId value 100 1 w
        unfold findInstanceUidByDisplayNameRefSvc
        cases hf : findInstanceUidByDisplayNameRefSvc.pages refSvcId value 100 1 w with
        | mk res w1 =>
          rw [hf] at h0
          simp only at h0
          cases res with
          | error e => exact ⟨i0, h0, hg0⟩
          | ok uid =>
            dsimp only
            split
            · exact ⟨i0, h0, hg0⟩
            · exact keep w1 i0 h0 hg0 uid
      · exact keep w [] (Steps.refl w) (by simp) value

/-- The resolver issues list requests and consumes their answers. -/
theorem resolveRefSvcParamValues_steps (opParams : List universalCfsParam)
    (params : List (Int × Str)) (w : World) : ∃ issued,
      Steps w (resolveRefSvcParamValues opParams params w).2 issued ∧
      ∀ r ∈ issued, ∃ p, r = Request.getInstancesPage p := by
  unfold resolveRefSvcParamValues
  split
  · exact ⟨[], Steps.refl w, by simp⟩
  · dsimp only
    split
    · exact ⟨[], Steps.refl w, by simp⟩
    · exact resolveRefSvcParamValues_loop_steps _ params w

/-- The supplied parameters are submitted with one request for each entry visited. -/
theorem submitParams_steps (opUid : Str) :
    ∀ (params : List (Int × Str)) (sent0 : List Int) (w : World), ∃ issued,
      Steps w (submitParams opUid params sent0 w).2 issued ∧
      ∀ r ∈ issued, ∃ kv ∈ params, r = Request.postParam opUid kv.1 kv.2 := by
  intro params
  induction params with
  | nil => intro sent0 w; exact ⟨[], Steps.refl w, by simp⟩
  | cons kv rest ih =>
    intro sent0 w
    obtain ⟨paramId, value⟩ := kv
    rw [submitParams]
    have hl := doRequest_steps (Request.postParam opUid paramId value) w
    cases hd : doRequest (Request.postParam opUid paramId value) w with
    | mk res w1 =>
      rw [hd] at hl
      simp only at hl
      cases res with
      | error e =>
        exact ⟨_, hl, fun r hr => ⟨(paramId, value), List.mem_cons_self _ _,
          List.mem_singleton.mp hr⟩⟩
      | ok bl =>
        dsimp only
        obtain ⟨i1, h1, h2⟩ := ih (paramId :: sent0) w1
        refine ⟨[Request.postParam opUid paramId value] ++ i1, hl.trans h1, ?_⟩
        intro r hr
        rcases List.mem_append.mp hr with h | h
        · exact ⟨(paramId, value), List.mem_cons_self _ _, List.mem_singleton.mp h⟩
        · obtain ⟨kv, hkv, hq⟩ := h2 r h
          exact ⟨kv, List.mem_cons_of_mem _ hkv, hq⟩

/-- The defaults loop submits normalized values of descriptors only. -/
theorem submitRequiredDefaults_steps (opUid : Str) (sent : List Int) :
    ∀ (cfsParams : List universalCfsParam) (w : World), ∃ issued,
      Steps w (submitRequiredDefaults opUid sent cfsParams w).2 issued ∧
      ∀ r ∈ issued, ∃ p ∈ cfsParams, r = Request.postParam opUid p.SvcOperationCfsParamId
        (normalizeUniversalValueV6 (initialValue p) p) := by
  intro cfsParams
  induction cfsParams with
  | nil => intro w; exact ⟨[], Steps.refl w, by simp⟩
  | cons param rest ih =>
    intro w
    have lift : ∀ w0 : World, (∃ issued,
        Steps w0 (submitRequiredDefaults opUid sent rest w0).2 issued ∧
        ∀ r ∈ issued, ∃ p ∈ rest, r = Request.postParam opUid p.SvcOperationCfsParamId
          (normalizeUniversalValueV6 (initialValue p) p)) → ∃ issued,
        Steps w0 (submitRequiredDefaults opUid sent rest w0).2 issued ∧
        ∀ r ∈ issued, ∃ p ∈ param :: rest,
          r = Request.postParam opUid p.SvcOperationCfsParamId
            (normalizeUniversalValueV6 (initialValue p) p) := by
      intro w0 h
      obtain ⟨i1, h1, h2⟩ := h
      refine ⟨i1, h1, fun r hr => ?_⟩
      obtain ⟨p, hp, hq⟩ := h2 r hr
      exact ⟨p, List.mem_cons_of_mem _ hp, hq⟩
    rw [submitRequiredDefaults]
    split
    · exact lift w (ih w)
    · split
      · exact lift w (ih w)
      · rename_i hnreq
        have hreq : param.IsRequired = true := by simpa using hnreq
        simp only [hreq, Bool.not_true, Bool.false_and, Bool.false_eq_true, if_false]
        have hl := doRequest_steps (Request.postParam opUid param.SvcOperationCfsParamId
          (normalizeUniversalValueV6 (initialValue param) param)) w
        cases hd : doRequest (Request.postParam opUid param.SvcOperationCfsParamId
            (normalizeUniversalValueV6 (initialValue param) param)) w with
        | mk res w1 =>
          rw [hd] at hl
          simp only at hl
          cases res with
          | error e =>
            exact ⟨_, hl, fun r hr => ⟨param, List.mem_cons_self _ _,
              List.mem_singleton.mp hr⟩⟩
          | ok bl =>
            dsimp only
            obtain ⟨i1, h1, h2⟩ := lift w1 (ih w1)
            refine ⟨_, hl.trans h1, ?_⟩
            intro r hr
            rcases List.mem_append.mp hr with h | h
            · exact ⟨param, List.mem_cons_self _ _, List.mem_singleton.mp h⟩
            · exact h2 r h

/-- A successful `doRequest` was answered with a status below 400. -/
theorem doRequest_ok_head (r : Request) (w w1 : World) (body : Body) (loc : Str)
    (h : doRequest r w = (.ok (body, loc), w1)) :
    ∃ rp, w.answers.head? = some (Answer.resp rp) ∧ ¬ rp.status ≥ 400 ∧ rp.body = body ∧
      rp.location = loc := by
  unfold doRequest World.send at h
  cases hw : w.answers with
  | nil => simp [hw] at h
  | cons a rest =>
    rw [hw] at h
    cases a with
    | netErr => simp at h
    | resp rp =>
      dsimp only at h
      split at h
      · simp at h
      · rename_i hs
        simp only [Prod.mk.injEq, Except.ok.injEq] at h
        exact ⟨rp, rfl, hs, h.1.1, h.1.2⟩

/-- A failed `doRequest` was answered by a failed answer. -/
theorem doRequest_error_head (r : Request) (w w1 : World) (e : Err)
    (h : doRequest r w = (.error e, w1)) : failedAnswer w.answers.head? = true := by
  unfold doRequest World.send at h
  cases hw : w.answers with
  | nil => rfl
  | cons a rest =>
    rw [hw] at h
    cases a with
    | netErr => rfl
    | resp rp =>
      dsimp only at h
      split at h
      · rename_i hs
        simp [failedAnswer, hs]
      · simp at h

/-- The steps of `configure` up to the submission of the defaults: the requests they issue, and
the hand-over to the steps from the validation on. -/
theorem configure_prepare (instanceUid opUid : Str) (params : List (Int × Str)) (w : World) :
    ∃ (issued : List Request) (w4 : World) (r : Except Err Unit),
      Steps w w4 issued ∧
      (∀ q ∈ issued, q = Request.getOperationParams opUid ∨
        (∃ p, q = Request.getInstancesPage p) ∨
        ∃ paramId value, q = Request.postParam opUid paramId value ∧
          (paramId ∈ params.map Prod.fst ∨
            ∃ cfsParams, w.answers.head?.bind Answer.cfsParams = some cfsParams ∧
              ∃ p ∈ cfsParams, p.SvcOperationCfsParamId = paramId)) ∧
      CreateGenericInstanceUniversalV6.configure instanceUid opUid params w =
        match r with
        | .error e => (.error e, w4)
        | .ok _ => CreateGenericInstanceUniversalV6.finish instanceUid opUid w4 := by
  unfold CreateGenericInstanceUniversalV6.configure
  have hl1 := doRequest_steps (Request.getOperationParams opUid) w
  cases hd1 : doRequest (Request.getOperationParams opUid) w with
  | mk res1 w1 =>
    rw [hd1] at hl1
    simp only at hl1
    have c1 : ∀ q ∈ [Request.getOperationParams opUid],
        q = Request.getOperationParams opUid ∨
        (∃ p, q = Request.getInstancesPage p) ∨
        ∃ paramId value, q = Request.postParam opUid paramId value ∧
          (paramId ∈ params.map Prod.fst ∨
            ∃ cfsParams, w.answers.head?.bind Answer.cfsParams = some cfsParams ∧
              ∃ p ∈ cfsParams, p.SvcOperationCfsParamId = paramId) :=
      fun q hq => Or.inl (List.mem_singleton.mp hq)
    cases res1 with
    | error e => exact ⟨_, w1, .error (Err.getOperationDetails e), hl1, c1, rfl⟩
    | ok bl =>
      obtain ⟨body, loc⟩ := bl
      dsimp only
      cases hdec : body.decodeCfsParams with
      | none => exact ⟨_, w1, .error (Err.parseOperationDetails Err.json), hl1, c1, rfl⟩
      | some cfsParams =>
        dsimp only
        have hhead : w.answers.head?.bind Answer.cfsParams = some cfsParams := by
          obtain ⟨rp, h1, h2, h3, _⟩ := doRequest_ok_head _ _ _ _ _ hd1
          rw [h1]
          show Answer.cfsParams (Answer.resp rp) = some cfsParams
          simp only [Answer.cfsParams, h2, if_false, h3]
          exact hdec
        obtain ⟨i2, hl2, hg2⟩ := resolveRefSvcParamValues_steps cfsParams params w1
        obtain ⟨_, _, _, hk2⟩ := resolveRefSvcParamValues_spec cfsParams params w1
        have c2 : ∀ q ∈ [Request.getOperationParams opUid] ++ i2,
            q = Request.getOperationParams opUid ∨
            (∃ p, q = Request.getInstancesPage p) ∨
            ∃ paramId value, q = Request.postParam opUid paramId value ∧
              (paramId ∈ params.map Prod.fst ∨
                ∃ cfsParams, w.answers.head?.bind Answer.cfsParams = some cfsParams ∧
                  ∃ p ∈ cfsParams, p.SvcOperationCfsParamId = paramId) := by
          intro q hq
          rcases List.mem_append.mp hq with h | h
          · exact c1 q h
          · exact Or.inr (Or.inl (hg2 q h))
        cases hres : resolveRefSvcParamValues cfsParams params w1 with
        | mk res2 w2 =>
          rw [hres] at hl2 hk2
          simp only at hl2 hk2
          cases res2 with
          | error e => exact ⟨_, w2, .error e, hl1.trans hl2, c2, rfl⟩
          | ok resolved =>
            dsimp only
            have hkeys := hk2 resolved rfl
            obtain ⟨i3, hl3, hp3⟩ := submitParams_steps opUid resolved [] w2
            have c3 : ∀ q ∈ [Request.getOperationParams opUid] ++ i2 ++ i3,
                q = Request.getOperationParams opUid ∨
                (∃ p, q = Request.getInstancesPage p) ∨
                ∃ paramId value, q = Request.postParam opUid paramId value ∧
                  (paramId ∈ params.map Prod.fst ∨
                    ∃ cfsParams, w.answers.head?.bind Answer.cfsParams = some cfsParams ∧
                      ∃ p ∈ cfsParams, p.SvcOperationCfsParamId = paramId) := by
              intro q hq
              rcases List.mem_append.mp hq with h | h
              · exact c2 q h
              · obtain ⟨kv, hkv, hq2⟩ := hp3 q h
                refine Or.inr (Or.inr ⟨kv.1, kv.2, hq2, Or.inl ?_⟩)
                rw [← hkeys]
                exact List.mem_map_of_mem _ hkv
            cases hsub : submitParams opUid resolved [] w2 with
            | mk res3 w3 =>
              rw [hsub] at hl3
              simp only at hl3
              cases res3 with
              | error e => exact ⟨_, w3, .error e, (hl1.trans hl2).trans hl3, c3, rfl⟩
              | ok sent =>
                dsimp only
                obtain ⟨i4, hl4, hp4⟩ := submitRequiredDefaults_steps opUid sent cfsParams w3
                have c4 : ∀ q ∈ [Request.getOperationParams opUid] ++ i2 ++ i3 ++ i4,
                    q = Request.getOperationParams opUid ∨
                    (∃ p, q = Request.getInstancesPage p) ∨
                    ∃ paramId value, q = Request.postParam opUid paramId value ∧
                      (paramId ∈ params.map Prod.fst ∨
                        ∃ cfsParams, w.answers.head?.bind Answer.cfsParams = some cfsParams ∧
                          ∃ p ∈ cfsParams, p.SvcOperationCfsParamId = paramId) := by
                  intro q hq
                  rcases List.mem_append.mp hq with h | h
                  · exact c3 q h
                  · obtain ⟨p, hp, hq2⟩ := hp4 q h
                    exact Or.inr (Or.inr ⟨_, _, hq2, Or.inr ⟨cfsParams, hhead, p, hp, rfl⟩⟩)
                cases hdef : submitRequiredDefaults opUid sent cfsParams w3 with
                | mk res4 w4 =>
                  rw [hdef] at hl4
                  simp only at hl4
                  cases res4 with
                  | error e =>
                    exact ⟨_, w4, .error e, ((hl1.trans hl2).trans hl3).trans hl4, c4, rfl⟩
                  | ok u =>
                    refine ⟨_, w4, .ok (), ((hl1.trans hl2).trans hl3).trans hl4, c4, ?_⟩
                    unfold CreateGenericInstanceUniversalV6.finish
                    rfl

/-- The steps of `CreateGenericInstanceUniversalV6` up to the submission of the defaults. -/
theorem create_prepare (serviceId : Int) (displayName : Str) (params : List (Int × Str))
    (w : World) :
    ∃ (issued : List Request) (w4 : World) (r : Except Err (Str × Str)),
      Steps w w4 issued ∧
      (∀ q ∈ issued, (∃ s d c, q = Request.postInstance s d c) ∨
        (∃ u o, q = Request.postOperation u o) ∨
        (∃ o, q = Request.getOperationParams o) ∨
        (∃ p, q = Request.getInstancesPage p) ∨
        ∃ o paramId value, q = Request.postParam o paramId value ∧
          (paramId ∈ params.map Prod.fst ∨
            ∃ cfsParams, (w.answers.drop 2).head?.bind Answer.cfsParams = some cfsParams ∧
              ∃ p ∈ cfsParams, p.SvcOperationCfsParamId = paramId)) ∧
      CreateGenericInstanceUniversalV6 serviceId displayName params w =
        (match r with
        | .error e => (.error e, w4)
        | .ok ids => CreateGenericInstanceUniversalV6.finish ids.1 ids.2 w4) ∧
      ∀ ids, r = .ok ids → ids.1 ≠ [] := by
  unfold CreateGenericInstanceUniversalV6
  have hl1 := doRequest_steps (Request.postInstance serviceId displayName
    "Created via Terraform Universal Provider".toList) w
  cases hd1 : doRequest (Request.postInstance serviceId displayName
      "Created via Terraform Universal Provider".toList) w with
  | mk res1 w1 =>
    rw [hd1] at hl1
    simp only at hl1
    have c1 : ∀ q ∈ [Request.postInstance serviceId displayName
        "Created via Terraform Universal Provider".toList],
        (∃ s d c, q = Request.postInstance s d c) ∨
        (∃ u o, q = Request.postOperation u o) ∨
        (∃ o, q = Request.getOperationParams o) ∨
        (∃ p, q = Request.getInstancesPage p) ∨
        ∃ o paramId value, q = Request.postParam o paramId value ∧
          (paramId ∈ params.map Prod.fst ∨
            ∃ cfsParams, (w.answers.drop 2).head?.bind Answer.cfsParams = some cfsParams ∧
              ∃ p ∈ cfsParams, p.SvcOperationCfsParamId = paramId) :=
      fun q hq => Or.inl ⟨_, _, _, List.mem_singleton.mp hq⟩
    cases res1 with
    | error e => exact ⟨_, w1, .error e, hl1, c1, rfl, by simp⟩
    | ok bl1 =>
      dsimp only
      split
      · exact ⟨_, w1, .error (Err.noInstanceUid bl1.2), hl1, c1, rfl, by simp⟩
      · rename_i hne
        generalize extractUid bl1.2 bl1.1.decodeInstanceUid bl1.1.decodeString = instanceUid
          at hne ⊢
        have hl2 := doRequest_steps (Request.postOperation instanceUid "create".toList) w1
        cases hd2 : doRequest (Request.postOperation instanceUid "create".toList) w1 with
        | mk res2 w2 =>
          rw [hd2] at hl2
          simp only at hl2
          have hl12 := hl1.trans hl2
          have c2 : ∀ q ∈ [Request.postInstance serviceId displayName
              "Created via Terraform Universal Provider".toList] ++
              [Request.postOperation instanceUid "create".toList],
              (∃ s d c, q = Request.postInstance s d c) ∨
              (∃ u o, q = Request.postOperation u o) ∨
              (∃ o, q = Request.getOperationParams o) ∨
              (∃ p, q = Request.getInstancesPage p) ∨
              ∃ o paramId value, q = Request.postParam o paramId value ∧
                (paramId ∈ params.map Prod.fst ∨
                  ∃ cfsParams, (w.answers.drop 2).head?.bind Answer.cfsParams
                      = some cfsParams ∧
                    ∃ p ∈ cfsParams, p.SvcOperationCfsParamId = paramId) := by
            intro q hq
            rcases List.mem_append.mp hq with h | h
            · exact c1 q h
            · exact Or.inr (Or.inl ⟨_, _, List.mem_singleton.mp h⟩)
          cases res2 with
          | error e => exact ⟨_, w2, .error e, hl12, c2, rfl, by simp⟩
          | ok bl2 =>
            dsimp only
            split
            · exact ⟨_, w2, .error (Err.noOperationUid bl2.2), hl12, c2, rfl, by simp⟩
            · generalize extractUid bl2.2 bl2.1.decodeInstanceOperationUid bl2.1.decodeString
                = opUid
              obtain ⟨i3, w4, r, h1, h2, h3⟩ := configure_prepare instanceUid opUid params w2
              have hw2 : w2.answers = w.answers.drop 2 := hl12.2
              refine ⟨_, w4, r.map (fun _ => (instanceUid, opUid)), hl12.trans h1, ?_, ?_, ?_⟩
              · intro q hq
                rcases List.mem_append.mp hq with h | h
                · exact c2 q h
                · rcases h2 q h with h | h | ⟨paramId, value, hq2, hid⟩
                  · exact Or.inr (Or.inr (Or.inl ⟨opUid, h⟩))
                  · exact Or.inr (Or.inr (Or.inr (Or.inl h)))
                  · refine Or.inr (Or.inr (Or.inr (Or.inr ⟨opUid, paramId, value, hq2, ?_⟩)))
                    rw [← hw2]
                    exact hid
              · rw [h3]
                cases r <;> rfl
              · intro ids hids
                cases r with
                | error e => simp [Except.map] at hids
                | ok u =>
                  simp only [Except.map, Except.ok.injEq] at hids
                  rw [← hids]
                  exact hne

/-- The steps from the validation on: either the validation request fails, and nothing else is
issued, or it succeeds and only run, status and instance requests follow. -/
theorem finish_cases (instanceUid opUid : Str) (w : World) :
    (failedAnswer w.answers.head? = true ∧
      (∃ e, (CreateGenericInstanceUniversalV6.finish instanceUid opUid w).1
        = .error (Err.validationFailed e)) ∧
      (CreateGenericInstanceUniversalV6.finish instanceUid opUid w).2.log
        = w.log ++ [Request.getValidate opUid]) ∨
    (failedAnswer w.answers.head? = false ∧
      ∃ tail, (CreateGenericInstanceUniversalV6.finish instanceUid opUid w).2.log
          = w.log ++ Request.getValidate opUid :: tail ∧
        ∀ q ∈ tail, q = Request.postRun opUid ∨ q = Request.getOperationStatus opUid ∨
          q = Request.getInstance instanceUid) := by
  unfold CreateGenericInstanceUniversalV6.finish
  have hl5 := doRequest_log (Request.getValidate opUid) w
  cases hd5 : doRequest (Request.getValidate opUid) w with
  | mk res5 w5 =>
    rw [hd5] at hl5
    simp only at hl5
    cases res5 with
    | error e => exact Or.inl ⟨doRequest_error_head _ _ _ _ hd5, ⟨e, rfl⟩, hl5⟩
    | ok bl5 =>
      right
      obtain ⟨rp, h1, h2, _, _⟩ := doRequest_ok_head _ _ _ _ _ hd5
      refine ⟨by rw [h1]; simp [failedAnswer, h2], ?_⟩
      dsimp only
      have hl6 := doRequest_log (Request.postRun opUid) w5
      cases hd6 : doRequest (Request.postRun opUid) w5 with
      | mk res6 w6 =>
        rw [hd6] at hl6
        simp only at hl6
        cases res6 with
        | error e => exact ⟨[Request.postRun opUid], by rw [hl6, hl5]; simp, by simp⟩
        | ok bl6 =>
          dsimp only
          obtain ⟨i7, hl7, hg7⟩ := waitForOperationFinish_log opUid defaultOperationTimeout w6
          cases hwait : waitForOperationFinish opUid defaultOperationTimeout w6 with
          | mk res7 w7 =>
            rw [hwait] at hl7
            simp only at hl7
            have c7 : ∀ q ∈ Request.postRun opUid :: i7, q = Request.postRun opUid ∨
                q = Request.getOperationStatus opUid ∨ q = Request.getInstance instanceUid := by
              intro q hq
              rcases List.mem_cons.mp hq with h | h
              · exact Or.inl h
              · exact Or.inr (Or.inl (hg7 q h))
            cases res7 with
            | error e => exact ⟨_, by rw [hl7, hl6, hl5]; simp, c7⟩
            | ok u7 =>
              dsimp only
              have hl8 := ensureInstanceCreated_log instanceUid w7
              cases hens : ensureInstanceCreated instanceUid w7 with
              | mk res8 w8 =>
                rw [hens] at hl8
                simp only at hl8
                have c8 : ∀ q ∈ Request.postRun opUid :: (i7 ++
                    [Request.getInstance instanceUid]), q = Request.postRun opUid ∨
                    q = Request.getOperationStatus opUid ∨
                    q = Request.getInstance instanceUid := by
                  intro q hq
                  rcases List.mem_cons.mp hq with h | h
                  · exact Or.inl h
                  · rcases List.mem_append.mp h with h | h
                    · exact Or.inr (Or.inl (hg7 q h))
                    · exact Or.inr (Or.inr (List.mem_singleton.mp h))
                cases res8 with
                | error e => exact ⟨_, by rw [hl8, hl7, hl6, hl5]; simp, c8⟩
                | ok u8 => exact ⟨_, by rw [hl8, hl7, hl6, hl5]; simp, c8⟩

/-- Claim C11, amended: every parameter request that `CreateGenericInstanceUniversalV6` issues
is for an id that the caller supplied or that is present in the descriptor list of the
operation; ids supplied by the caller are not checked against the descriptor list. -/
theorem CreateGenericInstanceUniversalV6_submitted_ids (serviceId : Int) (displayName : Str)
    (params : List (Int × Str)) (w : World) (a1 a2 a3 : Answer) (rest : List Answer)
    (cfsParams : List universalCfsParam) (hanswers : w.answers = a1 :: a2 :: a3 :: rest)
    (hdesc : a3.cfsParams = some cfsParams) :
    ∃ issued,
      (CreateGenericInstanceUniversalV6 serviceId displayName params w).2.log
        = w.log ++ issued ∧
      ∀ opUid paramId value, Request.postParam opUid paramId value ∈ issued →
        paramId ∈ params.map Prod.fst ∨
          ∃ p ∈ cfsParams, p.SvcOperationCfsParamId = paramId := by
  obtain ⟨P, w4, r, hsteps, hclass, heq, _⟩ :=
    create_prepare serviceId displayName params w
  have hP : ∀ opUid paramId value, Request.postParam opUid paramId value ∈ P →
      paramId ∈ params.map Prod.fst ∨ ∃ p ∈ cfsParams, p.SvcOperationCfsParamId = paramId := by
    intro opUid paramId value hmem
    rcases hclass _ hmem with ⟨_, _, _, h⟩ | ⟨_, _, h⟩ | ⟨_, h⟩ | ⟨_, h⟩ |
      ⟨o, q, v, h, hid⟩
    · simp at h
    · simp at h
    · simp at h
    · simp at h
    · simp only [Request.postParam.injEq] at h
      rw [h.2.1]
      rcases hid with hid | ⟨cfs, hc, p, hp, hpid⟩
      · exact Or.inl hid
      · rw [hanswers] at hc
        simp only [List.drop_succ_cons, List.drop_zero, List.head?_cons] at hc
        have hc2 : a3.cfsParams = some cfs := hc
        rw [hdesc] at hc2
        simp only [Option.some.injEq] at hc2
        subst hc2
        exact Or.inr ⟨p, hp, hpid⟩
  rw [heq]
  cases r with
  | error e => exact ⟨P, hsteps.1, hP⟩
  | ok ids =>
    dsimp only
    rcases finish_cases ids.1 ids.2 w4 with ⟨_, _, hlog⟩ | ⟨_, tail, hlog, htail⟩
    · refine ⟨P ++ [Request.getValidate ids.2], by rw [hlog, hsteps.1]; simp, ?_⟩
      intro opUid paramId value hmem
      rcases List.mem_append.mp hmem with h | h
      · exact hP _ _ _ h
      · simp at h
    · refine ⟨P ++ Request.getValidate ids.2 :: tail, by rw [hlog, hsteps.1]; simp, ?_⟩
      intro opUid paramId value hmem
      rcases List.mem_append.mp hmem with h | h
      · exact hP _ _ _ h
      · rcases List.mem_cons.mp h with h | h
        · simp at h
        · rcases htail _ h with h | h | h <;> simp at h

/-- Claim C12, amended: if the validation request of `CreateGenericInstanceUniversalV6` (the
request number `k` of the call) gets a failed answer (no answer, a failed round trip or a
status of 400 or more), the call returns a validation-failed error and issues no run
request. -/
theorem CreateGenericInstanceUniversalV6_validation_failed (serviceId : Int)
    (displayName : Str) (params : List (Int × Str)) (w : World) :
    ∃ issued,
      (CreateGenericInstanceUniversalV6 serviceId displayName params w).2.log
        = w.log ++ issued ∧
      ∀ (k : Nat) (opUid : Str), issued[k]? = some (Request.getValidate opUid) →
        failedAnswer (w.answers[k]?) = true →
        (∃ e, (CreateGenericInstanceUniversalV6 serviceId displayName params w).1
          = .error (Err.validationFailed e)) ∧
        ∀ r ∈ issued, r.isRun = false := by
  obtain ⟨P, w4, r, hsteps, hclass, heq, _⟩ :=
    create_prepare serviceId displayName params w
  have hP : ∀ q ∈ P, (∀ o, q ≠ Request.getValidate o) ∧ q.isRun = false := by
    intro q hq
    rcases hclass q hq with ⟨_, _, _, h⟩ | ⟨_, _, h⟩ | ⟨_, h⟩ | ⟨_, h⟩ | ⟨_, _, _, h, _⟩ <;>
      (subst h; exact ⟨fun o => by simp, rfl⟩)
  have hnotP : ∀ (k : Nat) (opUid : Str), P[k]? ≠ some (Request.getValidate opUid) := by
    intro k opUid h
    exact (hP _ (List.getElem?_mem h)).1 opUid rfl
  rw [heq]
  cases r with
  | error e =>
    refine ⟨P, hsteps.1, ?_⟩
    intro k opUid hk _
    exact absurd hk (hnotP k opUid)
  | ok ids =>
    dsimp only
    rcases finish_cases ids.1 ids.2 w4 with ⟨_, he, hlog⟩ | ⟨hok, tail, hlog, htail⟩
    · refine ⟨P ++ [Request.getValidate ids.2], by rw [hlog, hsteps.1]; simp, ?_⟩
      intro k opUid _ _
      refine ⟨he, ?_⟩
      intro q hq
      rcases List.mem_append.mp hq with h | h
      · exact (hP q h).2
      · rw [List.mem_singleton.mp h]; rfl
    · refine ⟨P ++ Request.getValidate ids.2 :: tail, by rw [hlog, hsteps.1]; simp, ?_⟩
      intro k opUid hk hfail
      exfalso
      rcases Nat.lt_trichotomy k P.length with hlt | heq2 | hgt
      · rw [List.getElem?_append_left hlt] at hk
        exact hnotP k opUid hk
      · subst heq2
        have : w.answers[P.length]? = w4.answers.head? := by
          rw [hsteps.2, List.head?_drop]
        rw [this, hok] at hfail
        exact absurd hfail (by decide)
      · rw [List.getElem?_append_right (by omega)] at hk
        obtain ⟨j, hj⟩ : ∃ j, k - P.length = j + 1 := ⟨k - P.length - 1, by omega⟩
        rw [hj, List.getElem?_cons_succ] at hk
        rcases htail _ (List.getElem?_mem hk) with h | h | h <;> simp at h

/-- Witness for C11: a create sequence with one supplied parameter and one required default. -/
theorem CreateGenericInstanceUniversalV6_submitted_ids_witness :
    ∃ issued,
      (CreateGenericInstanceUniversalV6 1 "demo".toList [(3, "x".toList)]
        exampleCreateWorld).2.log = exampleCreateWorld.log ++ issued ∧
      ∀ opUid paramId value, Request.postParam opUid paramId value ∈ issued →
        paramId ∈ [(3, "x".toList)].map Prod.fst ∨
          ∃ p ∈ [exampleParam 3 true "string".toList, exampleParam 5 true "map".toList,
            exampleParam 6 false "string".toList], p.SvcOperationCfsParamId = paramId :=
  CreateGenericInstanceUniversalV6_submitted_ids 1 "demo".toList [(3, "x".toList)]
    exampleCreateWorld (plainAnswer 201 "./u1".toList) (plainAnswer 201 "./op9".toList)
    (paramsAnswer [exampleParam 3 true "string".toList, exampleParam 5 true "map".toList,
        exampleParam 6 false "string".toList])
    _ _ rfl rfl

/-- Counterexample to C11 as stated: the descriptor list of the operation is empty and the
caller supplies the id 99; the value is submitted for the id 99. -/
theorem CreateGenericInstanceUniversalV6_submits_unknown_id :
    CreateGenericInstanceUniversalV6 1 "demo".toList [(99, "x".toList)]
        (exampleWorld [Tick.fire 5] (exampleCreateAnswers [] 1 (plainAnswer 200 [])))
      = (.ok "u1".toList, World.mk 5 [] []
          [Request.postInstance 1 "demo".toList
              "Created via Terraform Universal Provider".toList,
            Request.postOperation "u1".toList "create".toList,
            Request.getOperationParams "op9".toList,
            Request.postParam "op9".toList 99 "x".toList,
            Request.getValidate "op9".toList, Request.postRun "op9".toList,
            Request.getOperationStatus "op9".toList, Request.getInstance "u1".toList]) := by
  decide

/-- Witness for C12: the validation request is answered with the status 422. -/
theorem CreateGenericInstanceUniversalV6_validation_failed_witness :
    ∃ e, (CreateGenericInstanceUniversalV6 1 "demo".toList []
      (exampleWorld [Tick.fire 5] (exampleCreateAnswers [] 0 (plainAnswer 422 [])))).1
        = .error (Err.validationFailed e) := by
  obtain ⟨issued, hlog, h⟩ := CreateGenericInstanceUniversalV6_validation_failed 1
    "demo".toList [] (exampleWorld [Tick.fire 5] (exampleCreateAnswers [] 0 (plainAnswer 422 [])))
  have hl : (CreateGenericInstanceUniversalV6 1 "demo".toList []
      (exampleWorld [Tick.fire 5] (exampleCreateAnswers [] 0 (plainAnswer 422 [])))).2.log
      = [Request.postInstance 1 "demo".toList
            "Created via Terraform Universal Provider".toList,
          Request.postOperation "u1".toList "create".toList,
          Request.getOperationParams "op9".toList, Request.getValidate "op9".toList] := by
    decide
  rw [hl] at hlog
  have hi : issued = [Request.postInstance 1 "demo".toList
        "Created via Terraform Universal Provider".toList,
      Request.postOperation "u1".toList "create".toList,
      Request.getOperationParams "op9".toList, Request.getValidate "op9".toList] := by
    rw [hlog]; rfl
  subst hi
  exact (h 3 "op9".toList rfl (by decide)).1

/-- Counterexample to C12 as stated: the validation request is answered with the status 304,
which is not a 2xx status, and the call goes on to the run request and returns the id. -/
theorem CreateGenericInstanceUniversalV6_runs_after_304 :
    (304 < 200 ∨ 300 ≤ 304) ∧
    CreateGenericInstanceUniversalV6 1 "demo".toList []
        (exampleWorld [Tick.fire 5] (exampleCreateAnswers [] 0 (plainAnswer 304 [])))
      = (.ok "u1".toList, World.mk 5 [] []
          [Request.postInstance 1 "demo".toList
              "Created via Terraform Universal Provider".toList,
            Request.postOperation "u1".toList "create".toList,
            Request.getOperationParams "op9".toList,
            Request.getValidate "op9".toList, Request.postRun "op9".toList,
            Request.getOperationStatus "op9".toList, Request.getInstance "u1".toList]) := by
  decide

/-- The function `HasPrefix` is the prefix relation of lists. -/
theorem HasPrefix_iff : ∀ (s p : Str), HasPrefix s p = true ↔ p <+: s := by
  intro s
  induction s with
  | nil =>
    intro p
    cases p with
    | nil => simp [HasPrefix]
    | cons a p => simp [HasPrefix]
  | cons c s ih =>
    intro p
    cases p with
    | nil => simp [HasPrefix]
    | cons a p =>
      simp only [HasPrefix, Bool.and_eq_true, decide_eq_true_eq, ih, List.cons_prefix_cons]
      constructor
      · rintro ⟨h1, h2⟩
        exact ⟨h1.symm, h2⟩
      · rintro ⟨h1, h2⟩
        exact ⟨h1.symm, h2⟩

/-- The function `Contains` is the infix relation of lists. -/
theorem Contains_iff : ∀ (s sub : Str), Contains s sub = true ↔ sub <:+: s := by
  intro s
  induction s with
  | nil =>
    intro sub
    cases sub with
    | nil => simp [Contains]
    | cons a p => simp [Contains]
  | cons c s ih =>
    intro sub
    rw [Contains, Bool.or_eq_true, HasPrefix_iff, ih, List.infix_cons_iff]

/-- An infix that starts with a rune kept by `dropWhile` survives the `dropWhile`. -/
theorem infix_dropWhile (p : Char → Bool) (a : Char) (m : Str) (ha : p a = false) :
    ∀ t : Str, (a :: m) <:+: t → (a :: m) <:+: t.dropWhile p := by
  intro t
  induction t with
  | nil => intro h; simp at h
  | cons x xs ih =>
    intro h
    by_cases hx : p x = true
    · rw [List.dropWhile_cons_of_pos hx]
      rw [List.infix_cons_iff] at h
      rcases h with h | h
      · rw [List.cons_prefix_cons] at h
        rw [h.1, hx] at ha
        cases ha
      · exact ih h
    · rw [List.dropWhile_cons_of_neg hx]
      exact h

/-- An infix without white space at its ends survives the trimming. -/
theorem infix_TrimSpace (m t : Str) (hne : m ≠ [])
    (hfirst : ∀ a ∈ m.head?, isSpace a = false) (hlast : ∀ a ∈ m.getLast?, isSpace a = false)
    (h : m <:+: t) : m <:+: TrimSpace t := by
  unfold TrimSpace
  rw [← List.reverse_infix, List.reverse_reverse]
  have h1 : m <:+: t.dropWhile isSpace := by
    cases m with
    | nil => exact absurd rfl hne
    | cons a m' => exact infix_dropWhile isSpace a m' (hfirst a (by simp)) t h
  have h2 : m.reverse <:+: (t.dropWhile isSpace).reverse := List.reverse_infix.mpr h1
  cases hr : m.reverse with
  | nil =>
    rw [List.reverse_eq_nil_iff] at hr
    exact absurd hr hne
  | cons b r =>
    rw [hr] at h2
    refine infix_dropWhile isSpace b r (hlast b ?_) _ h2
    rw [List.getLast?_eq_head?_reverse, hr]
    simp

/-- Lower-casing leaves white space alone. -/
theorem lowerRune_of_isSpace (c : Char) (h : isSpace c = true) : lowerRune c = c := by
  unfold isSpace at h
  unfold lowerRune
  simp only [Bool.or_eq_true, beq_iff_eq, Bool.and_eq_true, decide_eq_true_eq] at h
  rw [if_neg (by omega), if_neg (by omega), if_neg (by omega)]

/-- A marker without white space at its ends that is absent from the trimmed, lower-cased text
is absent from the lower-cased text. -/
theorem Contains_ToLower_TrimSpace (m s : Str) (hne : m ≠ [])
    (hfirst : ∀ a ∈ m.head?, isSpace a = false) (hlast : ∀ a ∈ m.getLast?, isSpace a = false)
    (h : Contains (ToLower (TrimSpace s)) m = false) : Contains (ToLower s) m = false := by
  rw [Bool.eq_false_iff] at h ⊢
  intro hc
  apply h
  rw [Contains_iff] at hc ⊢
  unfold ToLower at hc ⊢
  obtain ⟨pre, post, hpp⟩ := hc
  have hs : s.map lowerRune = (pre ++ m) ++ post := hpp.symm
  obtain ⟨l1, l2, hl, hl1, hl2⟩ := List.map_eq_append_iff.mp hs
  obtain ⟨l3, u, hl', hl3, hu⟩ := List.map_eq_append_iff.mp hl1
  have hu_ne : u ≠ [] := by
    intro hu0
    rw [hu0] at hu
    exact hne hu.symm
  have hinf : u <:+: s := ⟨l3, l2, by rw [hl, hl']⟩
  have hf : ∀ a ∈ u.head?, isSpace a = false := by
    intro a ha
    cases hsp : isSpace a with
    | false => rfl
    | true =>
      have hlow := lowerRune_of_isSpace a hsp
      have : lowerRune a ∈ m.head? := by
        rw [← hu, List.head?_map]
        simp only [Option.mem_def] at ha ⊢
        rw [ha]
        rfl
      rw [hlow] at this
      rw [hfirst a this] at hsp
      exact hsp.symm
  have hlst : ∀ a ∈ u.getLast?, isSpace a = false := by
    intro a ha
    cases hsp : isSpace a with
    | false => rfl
    | true =>
      have hlow := lowerRune_of_isSpace a hsp
      have : lowerRune a ∈ m.getLast? := by
        rw [← hu, List.getLast?_map]
        simp only [Option.mem_def] at ha ⊢
        rw [ha]
        rfl
      rw [hlow] at this
      rw [hlast a this] at hsp
      exact hsp.symm
  have := infix_TrimSpace u s hu_ne hf hlst hinf
  rw [← hu]
  exact List.IsInfix.map lowerRune this


/-- A prefix of `l1 ++ x :: l2` that does not hold `x` is a prefix of `l1`. -/
theorem prefix_of_prefix_append (x : Char) (l2 : Str) :
    ∀ (l1 m : Str), m <+: l1 ++ x :: l2 → x ∉ m → m <+: l1 := by
  intro l1
  induction l1 with
  | nil =>
    intro m h hx
    cases m with
    | nil => exact List.nil_prefix
    | cons z m' =>
      rw [List.nil_append, List.cons_prefix_cons] at h
      exact absurd (by rw [h.1]; exact List.mem_cons_self _ _) hx
  | cons y l1 ih =>
    intro m h hx
    cases m with
    | nil => exact List.nil_prefix
    | cons z m' =>
      rw [List.cons_append, List.cons_prefix_cons] at h
      rw [List.cons_prefix_cons]
      exact ⟨h.1, ih m' h.2 (fun hm => hx (List.mem_cons_of_mem _ hm))⟩

/-- An infix of `a ++ x :: b` that does not hold `x` is an infix of `a` or of `b`. -/
theorem infix_split (x : Char) (b m : Str) (hx : x ∉ m) :
    ∀ a : Str, m <:+: a ++ x :: b → m <:+: a ∨ m <:+: b := by
  intro a
  induction a with
  | nil =>
    intro h
    rw [List.nil_append, List.infix_cons_iff] at h
    rcases h with h | h
    · left
      exact (prefix_of_prefix_append x b [] m (by simpa using h) hx).isInfix
    · right
      exact h
  | cons y a ih =>
    intro h
    rw [List.cons_append, List.infix_cons_iff] at h
    rcases h with h | h
    · left
      exact (prefix_of_prefix_append x b (y :: a) m (by simpa using h) hx).isInfix
    · rcases ih h with h1 | h1
      · left
        exact List.infix_cons h1
      · right
        exact h1

/-- A marker without a blank that occurs in the name hint of the V2 flow occurs in the name
hint of the later flows, which adds the label. -/
theorem Contains_hint_of_V2 (n c l s m : Str) (hm : ' ' ∉ m)
    (h : Contains (ToLower (n ++ " ".toList ++ c ++ " ".toList ++ s)) m = true) :
    Contains (ToLower (n ++ " ".toList ++ c ++ " ".toList ++ l ++ " ".toList ++ s)) m = true := by
  rw [Contains_iff] at h ⊢
  have e1 : ToLower (n ++ " ".toList ++ c ++ " ".toList ++ s)
      = ToLower (n ++ " ".toList ++ c) ++ ' ' :: ToLower s := by
    simp [ToLower, lowerRune]
  have e2 : ToLower (n ++ " ".toList ++ c ++ " ".toList ++ l ++ " ".toList ++ s)
      = ToLower (n ++ " ".toList ++ c) ++ (' ' :: ToLower l ++ ' ' :: ToLower s) := by
    simp [ToLower, lowerRune]
  rw [e1] at h
  rw [e2]
  rcases infix_split ' ' _ m hm _ h with h1 | h1
  · exact List.IsInfix.trans h1 ⟨[], ' ' :: ToLower l ++ ' ' :: ToLower s, by simp⟩
  · refine List.IsInfix.trans h1 ?_
    exact ⟨ToLower (n ++ " ".toList ++ c) ++ ' ' :: ToLower l ++ [' '], [], by simp⟩

/-! ## The instance state that is returned -/

/-- Claim C29: whenever `GetInstanceState` returns a state without error, that state has
`IsDeleted = false`, has neither `OperationIsPending` nor `OperationIsInProgress` set, and its
lower-cased status (as it is, and trimmed as the code reads it) contains none of `not created`,
`pending`, `failed`, `error`. -/
theorem GetInstanceState_returns_valid (instanceUid : Str) (w w1 : World)
    (state : InstanceStateResponse)
    (h : GetInstanceState instanceUid w = (.ok state, w1)) :
    state.IsDeleted = false ∧ state.OperationIsPending = false ∧
    state.OperationIsInProgress = false ∧
    Contains (ToLower state.ExplainedStatus) "not created".toList = false ∧
    Contains (ToLower state.ExplainedStatus) "pending".toList = false ∧
    Contains (ToLower state.ExplainedStatus) "failed".toList = false ∧
    Contains (ToLower state.ExplainedStatus) "error".toList = false ∧
    Contains (ToLower (TrimSpace state.ExplainedStatus)) "not created".toList = false ∧
    Contains (ToLower (TrimSpace state.ExplainedStatus)) "pending".toList = false ∧
    Contains (ToLower (TrimSpace state.ExplainedStatus)) "failed".toList = false ∧
    Contains (ToLower (TrimSpace state.ExplainedStatus)) "error".toList = false := by
  obtain ⟨h1, h2, h3, h4, h5, h6, h7⟩ :=
    validateInstanceStatus_ok state (GetInstanceState_ok instanceUid w w1 state h)
  refine ⟨h1, h2, h3, ?_, ?_, ?_, ?_, h4, h5, h6, h7⟩
  · exact Contains_ToLower_TrimSpace _ _ (by decide) (by decide) (by decide) h4
  · exact Contains_ToLower_TrimSpace _ _ (by decide) (by decide) (by decide) h5
  · exact Contains_ToLower_TrimSpace _ _ (by decide) (by decide) (by decide) h6
  · exact Contains_ToLower_TrimSpace _ _ (by decide) (by decide) (by decide) h7

/-- Witness for C29: a running instance whose status has blanks around it. -/
theorem GetInstanceState_returns_valid_witness :
    (exampleInstance " Running ".toList false).IsDeleted = false ∧
    (exampleInstance " Running ".toList false).OperationIsPending = false ∧
    (exampleInstance " Running ".toList false).OperationIsInProgress = false ∧
    Contains (ToLower (exampleInstance " Running ".toList false).ExplainedStatus)
      "not created".toList = false ∧
    Contains (ToLower (exampleInstance " Running ".toList false).ExplainedStatus)
      "pending".toList = false ∧
    Contains (ToLower (exampleInstance " Running ".toList false).ExplainedStatus)
      "failed".toList = false ∧
    Contains (ToLower (exampleInstance " Running ".toList false).ExplainedStatus)
      "error".toList = false ∧
    Contains (ToLower (TrimSpace (exampleInstance " Running ".toList false).ExplainedStatus))
      "not created".toList = false ∧
    Contains (ToLower (TrimSpace (exampleInstance " Running ".toList false).ExplainedStatus))
      "pending".toList = false ∧
    Contains (ToLower (TrimSpace (exampleInstance " Running ".toList false).ExplainedStatus))
      "failed".toList = false ∧
    Contains (ToLower (TrimSpace (exampleInstance " Running ".toList false).ExplainedStatus))
      "error".toList = false :=
  GetInstanceState_returns_valid "u1".toList
    (exampleWorld [] [instanceAnswer (exampleInstance " Running ".toList false)])
    (World.mk 0 [] [] [Request.getInstance "u1".toList])
    (exampleInstance " Running ".toList false) (by decide)

/-! ## The frame of the reference resolver -/

/-- An id without a descriptor that carries a positive `refSvcId` has no entry in `refById`. -/
theorem lookup_none_of_no_reference (opParams : List universalCfsParam) (paramId : Int)
    (h : ∀ p ∈ opParams, p.SvcOperationCfsParamId = paramId → ∀ r, p.RefSvcId = some r → r ≤ 0) :
    resolveRefSvcParamValues.lookup (resolveRefSvcParamValues.refById opParams) paramId = none := by
  unfold resolveRefSvcParamValues.lookup
  rw [Option.map_eq_none', List.find?_eq_none]
  intro kv hkv
  rw [List.mem_reverse] at hkv
  unfold resolveRefSvcParamValues.refById at hkv
  rw [List.mem_filterMap] at hkv
  obtain ⟨p, hp, hpk⟩ := hkv
  intro hk
  simp only [decide_eq_true_eq] at hk
  cases hr : p.RefSvcId with
  | none => rw [hr] at hpk; simp at hpk
  | some r =>
    rw [hr] at hpk
    simp only at hpk
    by_cases hpos : r > 0
    · rw [if_pos hpos] at hpk
      simp only [Option.some.injEq] at hpk
      have hid : p.SvcOperationCfsParamId = paramId := by
        rw [← hk, ← hpk]
      have := h p hp hid r hr
      omega
    · rw [if_neg hpos] at hpk
      simp at hpk

/-- The loop of the resolver keeps, at its place, every entry whose id has no entry in
`refById`. -/
theorem resolveRefSvcParamValues_loop_frame (refById : List (Int × Int)) :
    ∀ (params : List (Int × Str)) (w : World) (resolved : List (Int × Str)),
      (resolveRefSvcParamValues.loop refById params w).1 = .ok resolved →
      ∀ (i : Nat) (paramId : Int) (value : Str), params[i]? = some (paramId, value) →
        resolveRefSvcParamValues.lookup refById paramId = none →
        resolved[i]? = some (paramId, value) := by
  intro params
  induction params with
  | nil =>
    intro w resolved _ i paramId value hi
    simp at hi
  | cons kv rest ih =>
    intro w resolved h i paramId value hi hnone
    obtain ⟨k, v⟩ := kv
    rw [resolveRefSvcParamValues.loop] at h
    have tail : ∀ (w0 : World) (x : Str),
        (match resolveRefSvcParamValues.loop refById rest w0 with
          | (.error e, w2) => ((.error e, w2) : Except Err (List (Int × Str)) × World)
          | (.ok resolved, w2) => (.ok ((k, x) :: resolved), w2)).1 = .ok resolved →
        (i = 0 → x = v) → resolved[i]? = some (paramId, value) := by
      intro w0 x h0 hx
      cases hl : resolveRefSvcParamValues.loop refById rest w0 with
      | mk res w2 =>
        rw [hl] at h0
        cases res with
        | error e => simp at h0
        | ok rr =>
          simp only [Except.ok.injEq] at h0
          subst h0
          cases i with
          | zero =>
            simp only [List.getElem?_cons_zero, Option.some.injEq, Prod.mk.injEq] at hi ⊢
            rw [hx rfl]
            exact hi
          | succ j =>
            simp only [List.getElem?_cons_succ] at hi ⊢
            exact ih w0 rr (by rw [hl]) j paramId value hi hnone
    cases hlk : resolveRefSvcParamValues.lookup refById k with
    | none =>
      rw [hlk] at h
      exact tail w v h (fun _ => rfl)
    | some refSvcId =>
      rw [hlk] at h
      dsimp only at h
      by_cases hu : (!isUUIDLike v) = true
      · rw [if_pos hu] at h
        cases hf : findInstanceUidByDisplayNameRefSvc refSvcId v w with
        | mk res w1 =>
          rw [hf] at h
          cases res with
          | error e => simp at h
          | ok uid =>
            dsimp only at h
            by_cases hz : uid = []
            · rw [if_pos hz] at h
              simp at h
            · rw [if_neg hz] at h
              refine tail w1 uid h ?_
              intro hi0
              subst hi0
              simp only [List.getElem?_cons_zero, Option.some.injEq, Prod.mk.injEq] at hi
              rw [hi.1, hnone] at hlk
              cases hlk
      · rw [if_neg hu] at h
        exact tail w v h (fun _ => rfl)

/-- Claim C30: whenever `resolveRefSvcParamValues` succeeds, the returned map has the same
parameter ids as the supplied map (in the same order), and every parameter whose id has no
descriptor with a positive `refSvcId` keeps its supplied value. -/
theorem resolveRefSvcParamValues_frame (opParams : List universalCfsParam)
    (params : List (Int × Str)) (w : World) (resolved : List (Int × Str))
    (h : (resolveRefSvcParamValues opParams params w).1 = .ok resolved) :
    resolved.map Prod.fst = params.map Prod.fst ∧
    ∀ (i : Nat) (paramId : Int) (value : Str), params[i]? = some (paramId, value) →
      (∀ p ∈ opParams, p.SvcOperationCfsParamId = paramId →
        ∀ r, p.RefSvcId = some r → r ≤ 0) →
      resolved[i]? = some (paramId, value) := by
  obtain ⟨issued, _, _, hids⟩ := resolveRefSvcParamValues_spec opParams params w
  refine ⟨hids resolved h, ?_⟩
  intro i paramId value hi hno
  unfold resolveRefSvcParamValues at h
  by_cases h1 : params.length = 0 ∨ opParams.length = 0
  · rw [if_pos h1] at h
    simp only [Except.ok.injEq] at h
    rw [← h]
    exact hi
  · rw [if_neg h1] at h
    dsimp only at h
    by_cases h2 : (resolveRefSvcParamValues.refById opParams).length = 0
    · rw [if_pos h2] at h
      simp only [Except.ok.injEq] at h
      rw [← h]
      exact hi
    · rw [if_neg h2] at h
      exact resolveRefSvcParamValues_loop_frame _ params w resolved h i paramId value hi
        (lookup_none_of_no_reference opParams paramId hno)

/-- Witness for C30: the parameter 4 has no referencing descriptor and keeps its value, the
parameter 3 is resolved. -/
theorem resolveRefSvcParamValues_frame_witness :
    [((4 : Int), "x".toList), (3, "u8".toList)].map Prod.fst
      = [((4 : Int), "x".toList), (3, "S3-Main".toList)].map Prod.fst ∧
    ∀ (i : Nat) (paramId : Int) (value : Str),
      [((4 : Int), "x".toList), (3, "S3-Main".toList)][i]? = some (paramId, value) →
      (∀ p ∈ [{ exampleParam 3 true "string".toList with RefSvcId := some 12 },
          exampleParam 4 true "string".toList],
        p.SvcOperationCfsParamId = paramId → ∀ r, p.RefSvcId = some r → r ≤ 0) →
      [((4 : Int), "x".toList), (3, "u8".toList)][i]? = some (paramId, value) :=
  resolveRefSvcParamValues_frame
    [{ exampleParam 3 true "string".toList with RefSvcId := some 12 },
      exampleParam 4 true "string".toList]
    [(4, "x".toList), (3, "S3-Main".toList)]
    (exampleWorld [] [pageAnswer
      [{ InstanceUid := "u8".toList, DisplayName := "s3-main".toList, ServiceId := 12 }]])
    [(4, "x".toList), (3, "u8".toList)] (by decide)

/-! ## Running an action on an instance -/

/-- The loop over the available operations finds the first operation with the name of the
action, in any letter case; without one the id is 0. -/
theorem findOperationId_eq (action : Str) : ∀ ops : List ApiOperation,
    findOperationId action ops
      = match ops.find? fun op => EqualFold op.Operation action with
        | some op => op.SvcOperationId
        | none => 0 := by
  intro ops
  induction ops with
  | nil => rfl
  | cons op rest ih =>
    rw [findOperationId, List.find?_cons]
    cases h : EqualFold op.Operation action with
    | true => simp
    | false => simpa using ih

/-- The method `GetInstanceState` issues its one request and consumes one answer. -/
theorem GetInstanceState_world (instanceUid : Str) (w w1 : World)
    (r : Except Err InstanceStateResponse) (h : GetInstanceState instanceUid w = (r, w1)) :
    w1 = { w with answers := w.answers.tail, log := w.log ++ [Request.getInstance instanceUid] } := by
  unfold GetInstanceState World.send at h
  cases ha : w.answers with
  | nil =>
    rw [ha] at h
    simp only [Prod.mk.injEq] at h
    rw [← h.2]
    simp [ha]
  | cons a rest =>
    rw [ha] at h
    cases a with
    | netErr =>
      simp only [Prod.mk.injEq] at h
      rw [← h.2]
      simp
    | resp rp =>
      dsimp only at h
      split at h
      · simp only [Prod.mk.injEq] at h
        rw [← h.2]
        simp
      · split at h
        · simp only [Prod.mk.injEq] at h
          rw [← h.2]
          simp
        · split at h
          · simp only [Prod.mk.injEq] at h
            rw [← h.2]
            simp
          · simp only [Prod.mk.injEq] at h
            rw [← h.2]
            simp

/-- Once the instance state is read, `RunInstanceOperationUniversal` goes on without waiting:
a state that `GetInstanceState` returns has no pending and no running operation. -/
theorem RunInstanceOperationUniversal_of_state (instanceUid action : Str)
    (params : List (Int × Str)) (w w1 : World) (state : InstanceStateResponse)
    (hstate : GetInstanceState instanceUid w = (.ok state, w1)) :
    RunInstanceOperationUniversal instanceUid action params w =
      if findOperationId action state.AvailableOperations = 0 then
        (.error (Err.actionNotAvailable action instanceUid), w1)
      else
        match postIgnoreResponse (Request.postAction instanceUid
            (findOperationId action state.AvailableOperations) action) true w1 with
        | (.error e, w3) => (.error (Err.createOperation action e), w3)
        | (.ok opUid, w3) =>
          if opUid = [] then (.error (Err.noOperationUidFor action), w3)
          else
            match submitParams opUid params [] w3 with
            | (.error e, w4) => (.error e, w4)
            | (.ok _, w4) =>
              match doRequest (Request.postRun opUid) w4 with
              | (.error e, w5) => (.error e, w5)
              | (.ok _, w5) => waitForOperationFinish opUid defaultOperationTimeout w5 := by
  obtain ⟨_, h2, h3, _⟩ :=
    validateInstanceStatus_ok state (GetInstanceState_ok instanceUid w w1 state hstate)
  unfold RunInstanceOperationUniversal
  rw [hstate]
  simp only [h2, h3, Bool.or_self, Bool.false_eq_true, if_false]

/-- The submission of the supplied parameters appends to the log. -/
theorem submitParams_log (opUid : Str) : ∀ (params : List (Int × Str)) (sent : List Int)
    (w : World), ∃ issued, (submitParams opUid params sent w).2.log = w.log ++ issued := by
  intro params sent w
  obtain ⟨issued, h, _⟩ := submitParams_steps opUid params sent w
  exact ⟨issued, h.1⟩

/-- Claim C22, amended: once the instance state is read, `RunInstanceOperationUniversal`
creates the operation with the `svcOperationId` of the first available operation whose name
equals the requested action (case-insensitively) when that id is not 0: the request that
follows the state request is the create-operation request with this id.  It fails with the
action-not-available error, having issued the state request only and so no write request, when
the action is not among the available operations or the id of the first such operation is 0. -/
theorem RunInstanceOperationUniversal_action (instanceUid action : Str)
    (params : List (Int × Str)) (w w1 : World) (state : InstanceStateResponse)
    (hstate : GetInstanceState instanceUid w = (.ok state, w1)) :
    (∀ op, (state.AvailableOperations.find? fun op => EqualFold op.Operation action) = some op →
      op.SvcOperationId ≠ 0 →
      ∃ issued, (RunInstanceOperationUniversal instanceUid action params w).2.log
        = w.log ++ [Request.getInstance instanceUid,
            Request.postAction instanceUid op.SvcOperationId action] ++ issued) ∧
    ((state.AvailableOperations.find? fun op => EqualFold op.Operation action) = none ∨
        (∃ op, (state.AvailableOperations.find? fun op => EqualFold op.Operation action)
          = some op ∧ op.SvcOperationId = 0) →
      RunInstanceOperationUniversal instanceUid action params w
        = (.error (Err.actionNotAvailable action instanceUid), w1) ∧
      w1.log = w.log ++ [Request.getInstance instanceUid]) := by
  have hw1 : w1.log = w.log ++ [Request.getInstance instanceUid] := by
    have := GetInstanceState_log instanceUid w
    rw [hstate] at this
    exact this
  rw [RunInstanceOperationUniversal_of_state instanceUid action params w w1 state hstate,
    findOperationId_eq]
  constructor
  · intro op hop hne
    rw [hop]
    dsimp only
    rw [if_neg hne]
    have hp := postIgnoreResponse_log (Request.postAction instanceUid op.SvcOperationId action)
      true w1
    cases hpi : postIgnoreResponse (Request.postAction instanceUid op.SvcOperationId action)
        true w1 with
    | mk res w3 =>
      rw [hpi] at hp
      simp only at hp
      rw [hw1] at hp
      cases res with
      | error e => exact ⟨[], by simpa using hp⟩
      | ok opUid =>
        dsimp only
        by_cases hz : opUid = []
        · rw [if_pos hz]
          exact ⟨[], by simpa using hp⟩
        · rw [if_neg hz]
          obtain ⟨i1, hs1⟩ := submitParams_log opUid params [] w3
          cases hsp : submitParams opUid params [] w3 with
          | mk res4 w4 =>
            rw [hsp] at hs1
            simp only at hs1
            cases res4 with
            | error e =>
              refine ⟨i1, ?_⟩
              simp only [hs1, hp, List.append_assoc, List.cons_append, List.nil_append]
            | ok sent =>
              dsimp only
              have hd := doRequest_log (Request.postRun opUid) w4
              cases hdr : doRequest (Request.postRun opUid) w4 with
              | mk res5 w5 =>
                rw [hdr] at hd
                simp only at hd
                cases res5 with
                | error e =>
                  refine ⟨i1 ++ [Request.postRun opUid], ?_⟩
                  simp only [hd, hs1, hp, List.append_assoc, List.cons_append, List.nil_append]
                | ok b =>
                  dsimp only
                  obtain ⟨i2, hwf, _⟩ := waitForOperationFinish_log opUid
                    defaultOperationTimeout w5
                  refine ⟨i1 ++ [Request.postRun opUid] ++ i2, ?_⟩
                  simp only [hwf, hd, hs1, hp, List.append_assoc, List.cons_append,
                    List.nil_append]
  · intro h
    have hz : (match state.AvailableOperations.find? fun op => EqualFold op.Operation action with
        | some op => op.SvcOperationId
        | none => 0) = 0 := by
      rcases h with h | ⟨op, h, h0⟩
      · rw [h]
      · rw [h]
        exact h0
    rw [if_pos hz]
    exact ⟨rfl, hw1⟩

/-- Witness for C22: the action `RESUME` on an instance that offers `resume` under the id 7. -/
theorem RunInstanceOperationUniversal_action_witness :
    ∃ issued, (RunInstanceOperationUniversal "u1".toList "RESUME".toList []
        (exampleWorld [] [instanceAnswer (exampleInstance "Suspended".toList false)])).2.log
      = (exampleWorld [] [instanceAnswer (exampleInstance "Suspended".toList false)]).log ++
        [Request.getInstance "u1".toList, Request.postAction "u1".toList 7 "RESUME".toList]
        ++ issued :=
  (RunInstanceOperationUniversal_action "u1".toList "RESUME".toList []
    (exampleWorld [] [instanceAnswer (exampleInstance "Suspended".toList false)])
    (World.mk 0 [] [] [Request.getInstance "u1".toList])
    (exampleInstance "Suspended".toList false) (by decide)).1
    { SvcOperationId := 7, Operation := "resume".toList } (by decide) (by decide)

/-- Counterexample to C22 as stated: the instance offers the operation `resume` with the
`svcOperationId` 0; the action `resume` is among the available operations, yet the call fails
with the action-not-available error and creates no operation. -/
theorem RunInstanceOperationUniversal_zero_id_not_created :
    GetInstanceState "u1".toList
        (exampleWorld [] [instanceAnswer { exampleInstance "Suspended".toList false with
          AvailableOperations := [{ SvcOperationId := 0, Operation := "resume".toList }] },
          plainAnswer 201 "./op9".toList])
      = (.ok { exampleInstance "Suspended".toList false with
          AvailableOperations := [{ SvcOperationId := 0, Operation := "resume".toList }] },
        World.mk 0 [] [plainAnswer 201 "./op9".toList] [Request.getInstance "u1".toList]) ∧
    (∃ op ∈ ({ exampleInstance "Suspended".toList false with
          AvailableOperations := [{ SvcOperationId := 0, Operation := "resume".toList }] }
        ).AvailableOperations, EqualFold op.Operation "resume".toList = true) ∧
    RunInstanceOperationUniversal "u1".toList "resume".toList []
        (exampleWorld [] [instanceAnswer { exampleInstance "Suspended".toList false with
          AvailableOperations := [{ SvcOperationId := 0, Operation := "resume".toList }] },
          plainAnswer 201 "./op9".toList])
      = (.error (Err.actionNotAvailable "resume".toList "u1".toList),
        World.mk 0 [] [plainAnswer 201 "./op9".toList] [Request.getInstance "u1".toList]) := by
  refine ⟨by decide, ⟨{ SvcOperationId := 0, Operation := "resume".toList }, by decide, by decide⟩,
    by decide⟩

/-- Claim C23, the code on the failing inputs: when the answer to the state request is a
(not deleted) state with a pending or running operation, `RunInstanceOperationUniversal` and
`RunInstanceOperationUniversalWithDefaults` return the error `instance %s not ready: operation
pending`; no tick is consumed and no further request is issued, so the call neither waits nor
starts the operation. -/
theorem RunInstanceOperationUniversal_busy_fails (instanceUid action : Str)
    (params : List (Int × Str)) (w : World) (rp : Response) (rest : List Answer)
    (state : InstanceStateResponse)
    (hanswer : w.answers = Answer.resp rp :: rest) (hstatus : rp.status = 200)
    (hstate : rp.body.decodeInstance = some state) (hdeleted : state.IsDeleted = false)
    (hbusy : state.OperationIsPending = true ∨ state.OperationIsInProgress = true) :
    RunInstanceOperationUniversal instanceUid action params w
      = (.error (Err.instanceNotReady state.InstanceUid),
        { w with answers := rest, log := w.log ++ [Request.getInstance instanceUid] }) ∧
    RunInstanceOperationUniversalWithDefaults instanceUid action params w
      = (.error (Err.instanceNotReady state.InstanceUid),
        { w with answers := rest, log := w.log ++ [Request.getInstance instanceUid] }) := by
  have hv : validateInstanceStatus state = .error (Err.instanceNotReady state.InstanceUid) := by
    unfold validateInstanceStatus
    rw [hdeleted]
    rcases hbusy with h | h <;> simp [h]
  have hg : GetInstanceState instanceUid w
      = (.error (Err.instanceNotReady state.InstanceUid),
        { w with answers := rest, log := w.log ++ [Request.getInstance instanceUid] }) := by
    unfold GetInstanceState World.send
    rw [hanswer]
    dsimp only
    rw [if_neg (by simp [hstatus]), hstate]
    dsimp only
    rw [hv]
  constructor
  · unfold RunInstanceOperationUniversal
    rw [hg]
  · unfold RunInstanceOperationUniversalWithDefaults
    rw [hg]

/-- Witness for C23: the instance reports a running operation, and would be idle at the next
state request. -/
theorem RunInstanceOperationUniversal_busy_fails_witness :
    RunInstanceOperationUniversal "u1".toList "suspend".toList []
        (exampleWorld [Tick.fire 5] [instanceAnswer { exampleInstance "Running".toList false with
          OperationIsInProgress := true },
          instanceAnswer (exampleInstance "Running".toList false)])
      = (.error (Err.instanceNotReady "u1".toList),
        World.mk 0 [Tick.fire 5] [instanceAnswer (exampleInstance "Running".toList false)]
          [Request.getInstance "u1".toList]) ∧
    RunInstanceOperationUniversalWithDefaults "u1".toList "suspend".toList []
        (exampleWorld [Tick.fire 5] [instanceAnswer { exampleInstance "Running".toList false with
          OperationIsInProgress := true },
          instanceAnswer (exampleInstance "Running".toList false)])
      = (.error (Err.instanceNotReady "u1".toList),
        World.mk 0 [Tick.fire 5] [instanceAnswer (exampleInstance "Running".toList false)]
          [Request.getInstance "u1".toList]) :=
  RunInstanceOperationUniversal_busy_fails "u1".toList "suspend".toList []
    (exampleWorld [Tick.fire 5] [instanceAnswer { exampleInstance "Running".toList false with
      OperationIsInProgress := true },
      instanceAnswer (exampleInstance "Running".toList false)])
    { status := 200, location := [], body := Body.obj (
      { jsonObject.empty with inst := { exampleInstance "Running".toList false with
        OperationIsInProgress := true } }) }
    [instanceAnswer (exampleInstance "Running".toList false)]
    { exampleInstance "Running".toList false with OperationIsInProgress := true }
    rfl rfl rfl rfl (Or.inr rfl)


/-! ## The identifiers of the create sequence -/

/-- The function `extractUIDFromLocation` strips the prefix `./`. -/
theorem extractUIDFromLocation_eq (loc : Str) :
    extractUIDFromLocation loc = TrimPrefix loc "./".toList := by
  unfold extractUIDFromLocation
  by_cases h : loc = []
  · rw [if_pos h, h]
    rfl
  · rw [if_neg h]

/-- The extraction of a new identifier is the choice the specification describes. -/
theorem extractUid_eq (location : Str) (field bare : Option Str) :
    extractUid location field bare = pickIdentifier location (field.getD []) (bare.getD []) := by
  unfold extractUid pickIdentifier
  rw [extractUIDFromLocation_eq]
  dsimp only
  generalize TrimPrefix location "./".toList = t
  by_cases h : t = []
  · subst h
    cases field with
    | none =>
      cases bare with
      | none => simp
      | some b =>
        by_cases hb : b = [] <;> simp [hb]
    | some f =>
      by_cases hf : f = []
      · cases bare with
        | none => simp [hf]
        | some b => by_cases hb : b = [] <;> simp [hf, hb]
      · simp [hf]
  · rw [if_neg h, if_pos h]

/-- Claim C24: in `CreateGenericInstanceUniversalV6` the instance id, and then the operation
id, is the `Location` header with its `./` prefix stripped when that is non-empty, otherwise
the body field (`instanceUid`, `instanceOperationUid`) when non-empty, otherwise the bare
string body when non-empty (`pickIdentifier`).  When the choice is empty the call fails with
the extraction error and issues no further request; otherwise the call goes on with the
identifier: the operation is created for the instance id, and the remaining steps run for the
two identifiers. -/
theorem CreateGenericInstanceUniversalV6_identifiers (serviceId : Int) (displayName : Str)
    (params : List (Int × Str)) (w : World) (rp1 : Response) (rest : List Answer)
    (instanceUid : Str)
    (hanswer : w.answers = Answer.resp rp1 :: rest) (hstatus : rp1.status < 400)
    (hid : instanceUid = pickIdentifier rp1.location (rp1.body.decodeInstanceUid.getD [])
      (rp1.body.decodeString.getD [])) :
    (instanceUid = [] →
      CreateGenericInstanceUniversalV6 serviceId displayName params w
        = (.error (Err.noInstanceUid rp1.location),
          { w with answers := rest, log := w.log ++ [Request.postInstance serviceId displayName
            "Created via Terraform Universal Provider".toList] })) ∧
    (instanceUid ≠ [] → ∀ (rp2 : Response) (rest2 : List Answer) (opUid : Str),
      rest = Answer.resp rp2 :: rest2 → rp2.status < 400 →
      opUid = pickIdentifier rp2.location (rp2.body.decodeInstanceOperationUid.getD [])
        (rp2.body.decodeString.getD []) →
      (opUid = [] →
        CreateGenericInstanceUniversalV6 serviceId displayName params w
          = (.error (Err.noOperationUid rp2.location),
            { w with answers := rest2, log := w.log ++ [Request.postInstance serviceId displayName
              "Created via Terraform Universal Provider".toList] ++
              [Request.postOperation instanceUid "create".toList] })) ∧
      (opUid ≠ [] →
        CreateGenericInstanceUniversalV6 serviceId displayName params w
          = CreateGenericInstanceUniversalV6.configure instanceUid opUid params
            { w with answers := rest2, log := w.log ++ [Request.postInstance serviceId displayName
              "Created via Terraform Universal Provider".toList] ++
              [Request.postOperation instanceUid "create".toList] })) := by
  have hd1 : doRequest (Request.postInstance serviceId displayName
      "Created via Terraform Universal Provider".toList) w
      = (.ok (rp1.body, rp1.location), { w with answers := rest, log := w.log ++
        [Request.postInstance serviceId displayName
          "Created via Terraform Universal Provider".toList] }) := by
    unfold doRequest World.send
    rw [hanswer]
    dsimp only
    rw [if_neg (by omega)]
  unfold CreateGenericInstanceUniversalV6
  rw [hd1]
  dsimp only
  rw [extractUid_eq, ← hid]
  constructor
  · intro h0
    rw [if_pos h0]
  · intro hne rp2 rest2 opUid hrest hstatus2 hop
    rw [if_neg hne]
    have hd2 : doRequest (Request.postOperation instanceUid "create".toList)
        { w with answers := rest, log := w.log ++ [Request.postInstance serviceId displayName
          "Created via Terraform Universal Provider".toList] }
        = (.ok (rp2.body, rp2.location), { w with answers := rest2, log := w.log ++
          [Request.postInstance serviceId displayName
            "Created via Terraform Universal Provider".toList] ++
          [Request.postOperation instanceUid "create".toList] }) := by
      unfold doRequest World.send
      dsimp only
      rw [hrest]
      dsimp only
      rw [if_neg (by omega)]
    rw [hd2]
    dsimp only
    rw [extractUid_eq, ← hop]
    constructor
    · intro h0
      rw [if_pos h0]
    · intro h1
      rw [if_neg h1]

/-- Witness for C24: the instance id comes from the body field (the header is `./`), the
operation id from a bare string body. -/
theorem CreateGenericInstanceUniversalV6_identifiers_witness :
    CreateGenericInstanceUniversalV6 1 "demo".toList []
        (exampleWorld [] [Answer.resp { status := 201, location := "./".toList, body := Body.obj (
            { jsonObject.empty with instanceUid := "u1".toList }) },
          Answer.resp { status := 201, location := [], body := Body.str "op9".toList }])
      = CreateGenericInstanceUniversalV6.configure "u1".toList "op9".toList []
          (World.mk 0 [] []
            [Request.postInstance 1 "demo".toList
              "Created via Terraform Universal Provider".toList,
              Request.postOperation "u1".toList "create".toList]) :=
  ((CreateGenericInstanceUniversalV6_identifiers 1 "demo".toList []
    (exampleWorld [] [Answer.resp { status := 201, location := "./".toList, body := Body.obj (
        { jsonObject.empty with instanceUid := "u1".toList }) },
      Answer.resp { status := 201, location := [], body := Body.str "op9".toList }])
    { status := 201, location := "./".toList, body := Body.obj (
        { jsonObject.empty with instanceUid := "u1".toList }) }
    [Answer.resp { status := 201, location := [], body := Body.str "op9".toList }]
    "u1".toList rfl (by decide) (by decide)).2 (by decide)
    { status := 201, location := [], body := Body.str "op9".toList } [] "op9".toList
    rfl (by decide) (by decide)).2 (by decide)

/-! ## Retries -/

/-- The schedule from the attempt number `i` on, for an attempt that is retried. -/
theorem retrySchedule_drop (i : Nat) (h : i < 3) :
    retrySchedule.drop (2 * i)
      = RetryEvent.attempt :: RetryEvent.sleep (doRequestWithRetry.baseWait * (i + 1)) ::
        retrySchedule.drop (2 * (i + 1)) := by
  interval_cases i <;> rfl

/-- The schedule from the attempt number `i` on starts with an attempt. -/
theorem retrySchedule_head (i : Nat) (h : i ≤ 3) :
    [RetryEvent.attempt] <+: retrySchedule.drop (2 * i) := by
  interval_cases i <;> decide

/-- A call of `HttpClient.Do` is recorded as one attempt. -/
theorem perform_trace (w : RetryWorld) :
    w.perform.2.trace = w.trace ++ [RetryEvent.attempt] := by
  unfold RetryWorld.perform
  cases w.outcomes <;> rfl

/-- A call of `GetBody` is not recorded. -/
theorem getBody_trace (w : RetryWorld) : w.getBody.2.trace = w.trace := by
  unfold RetryWorld.getBody
  cases w.bodies <;> rfl

/-- The loop of `doRequestWithRetry`, entered with `i`, follows the schedule from the attempt
number `i` on, whatever the fuel. -/
theorem doRequestWithRetry_loop_trace (hasGetBody : Bool) :
    ∀ (fuel i : Nat) (last : Option Nat × Option RetryErr) (w : RetryWorld), i ≤ 3 →
      ∃ issued, (doRequestWithRetry.loop hasGetBody fuel i last w).2.trace = w.trace ++ issued ∧
        issued <+: retrySchedule.drop (2 * i) ∧
        (i = 0 → 0 < fuel → issued.head? = some RetryEvent.attempt) := by
  intro fuel
  induction fuel with
  | zero =>
    intro i last w _
    exact ⟨[], by simp [doRequestWithRetry.loop], List.nil_prefix, fun _ h => absurd h (by omega)⟩
  | succ fuel ih =>
    intro i last w hi
    rw [doRequestWithRetry.loop]
    rw [if_neg (by simp [doRequestWithRetry.maxRetries]; omega)]
    dsimp only
    have key : ∀ w1 : RetryWorld, w1.trace = w.trace →
        ∃ issued, (match w1.perform with
          | (Attempt.failed errMsg cancelled, w2) =>
            if cancelled = true then
              (((none, some RetryErr.context) : Option Nat × Option RetryErr), w2)
            else if i < doRequestWithRetry.maxRetries ∧
                doRequestWithRetry.transient errMsg = true then
              doRequestWithRetry.loop hasGetBody fuel (i + 1)
                (none, some (RetryErr.network errMsg))
                (w2.sleep (doRequestWithRetry.baseWait * (i + 1)))
            else ((none, some (RetryErr.network errMsg)), w2)
          | (Attempt.answered status, w2) =>
            if i < doRequestWithRetry.maxRetries ∧ status ≥ 500 ∧ status < 600 then
              doRequestWithRetry.loop hasGetBody fuel (i + 1) (some status, none)
                (w2.sleep (doRequestWithRetry.baseWait * (i + 1)))
            else ((some status, none), w2)).2.trace = w.trace ++ issued ∧
          issued <+: retrySchedule.drop (2 * i) ∧ issued.head? = some RetryEvent.attempt := by
      intro w1 hw1
      have hp := perform_trace w1
      have stop : ∀ (r : Option Nat × Option RetryErr) (w2 : RetryWorld),
          w2.trace = w1.trace ++ [RetryEvent.attempt] →
          ∃ issued, ((r, w2) : (Option Nat × Option RetryErr) × RetryWorld).2.trace
              = w.trace ++ issued ∧
            issued <+: retrySchedule.drop (2 * i) ∧ issued.head? = some RetryEvent.attempt := by
        intro r w2 h2
        exact ⟨[RetryEvent.attempt], by rw [← hw1]; exact h2, retrySchedule_head i hi, rfl⟩
      have go : ∀ (r : Option Nat × Option RetryErr) (w2 : RetryWorld),
          w2.trace = w1.trace ++ [RetryEvent.attempt] → i < doRequestWithRetry.maxRetries →
          ∃ issued, (doRequestWithRetry.loop hasGetBody fuel (i + 1) r
              (w2.sleep (doRequestWithRetry.baseWait * (i + 1)))).2.trace = w.trace ++ issued ∧
            issued <+: retrySchedule.drop (2 * i) ∧ issued.head? = some RetryEvent.attempt := by
        intro r w2 h2 hlt
        have hlt3 : i < 3 := hlt
        obtain ⟨issued, ht, hpre, _⟩ := ih (i + 1) r
          (w2.sleep (doRequestWithRetry.baseWait * (i + 1))) (by omega)
        refine ⟨RetryEvent.attempt :: RetryEvent.sleep (doRequestWithRetry.baseWait * (i + 1))
          :: issued, ?_, ?_, rfl⟩
        · rw [ht]
          simp [RetryWorld.sleep, h2, hw1]
        · rw [retrySchedule_drop i hlt3]
          exact (List.prefix_cons_inj _).mpr ((List.prefix_cons_inj _).mpr hpre)
      cases hpf : w1.perform with
      | mk a w2 =>
        rw [hpf] at hp
        simp only at hp
        cases a with
        | failed errMsg cancelled =>
          dsimp only
          by_cases hc : cancelled = true
          · rw [if_pos hc]
            exact stop _ w2 hp
          · rw [if_neg hc]
            by_cases ht : i < doRequestWithRetry.maxRetries ∧
                doRequestWithRetry.transient errMsg = true
            · rw [if_pos ht]
              exact go _ w2 hp ht.1
            · rw [if_neg ht]
              exact stop _ w2 hp
        | answered status =>
          dsimp only
          by_cases ht : i < doRequestWithRetry.maxRetries ∧ status ≥ 500 ∧ status < 600
          · rw [if_pos ht]
            exact go _ w2 hp ht.1
          · rw [if_neg ht]
            exact stop _ w2 hp
    by_cases hr : i > 0 ∧ hasGetBody = true
    · rw [if_pos hr]
      have hgb := getBody_trace w
      cases hg : w.getBody with
      | mk b w1 =>
        rw [hg] at hgb
        simp only at hgb
        cases b with
        | false =>
          exact ⟨[], by simp [hgb], List.nil_prefix, fun h0 => absurd h0 (by omega)⟩
        | true =>
          obtain ⟨issued, h1, h2, h3⟩ := key w1 hgb
          exact ⟨issued, h1, h2, fun _ _ => h3⟩
    · rw [if_neg hr]
      obtain ⟨issued, h1, h2, h3⟩ := key w rfl
      exact ⟨issued, h1, h2, fun _ _ => h3⟩


/-- The loop of `doRequestWithRetry` does not use more than `4 - i` iterations. -/
theorem doRequestWithRetry_loop_fuel (hasGetBody : Bool) :
    ∀ (fuel i : Nat) (last : Option Nat × Option RetryErr) (w : RetryWorld),
      i ≤ 3 → 4 - i ≤ fuel →
      doRequestWithRetry.loop hasGetBody (fuel + 1) i last w
        = doRequestWithRetry.loop hasGetBody fuel i last w := by
  intro fuel
  induction fuel with
  | zero => intro i last w h1 h2; omega
  | succ fuel ih =>
    intro i last w h1 h2
    rw [doRequestWithRetry.loop]
    conv_rhs => rw [doRequestWithRetry.loop]
    by_cases hi : ¬ (i ≤ doRequestWithRetry.maxRetries)
    · rw [if_pos hi, if_pos hi]
    · rw [if_neg hi, if_neg hi]
      dsimp only
      cases (if i > 0 ∧ hasGetBody = true then w.getBody else (true, w)) with
      | mk b w1 =>
        cases b with
        | false => rfl
        | true =>
          dsimp only
          cases w1.perform with
          | mk a w2 =>
            cases a with
            | failed errMsg cancelled =>
              dsimp only
              by_cases hc : cancelled = true
              · rw [if_pos hc, if_pos hc]
              · rw [if_neg hc, if_neg hc]
                by_cases ht : i < doRequestWithRetry.maxRetries ∧
                    doRequestWithRetry.transient errMsg = true
                · rw [if_pos ht, if_pos ht]
                  have : i < 3 := ht.1
                  exact ih (i + 1) _ _ (by omega) (by omega)
                · rw [if_neg ht, if_neg ht]
            | answered status =>
              dsimp only
              by_cases ht : i < doRequestWithRetry.maxRetries ∧ status ≥ 500 ∧ status < 600
              · rw [if_pos ht, if_pos ht]
                have : i < 3 := ht.1
                exact ih (i + 1) _ _ (by omega) (by omega)
              · rw [if_neg ht, if_neg ht]

/-- More fuel than four iterations does not change `doRequestWithRetry`. -/
theorem doRequestWithRetry_fuel (hasGetBody : Bool) (w : RetryWorld) :
    ∀ fuel, 4 ≤ fuel →
      doRequestWithRetry.loop hasGetBody fuel 0 (none, none) w
        = doRequestWithRetry hasGetBody w := by
  intro fuel hfuel
  unfold doRequestWithRetry
  induction fuel, hfuel using Nat.le_induction with
  | base => rfl
  | succ k hk ih =>
    rw [doRequestWithRetry_loop_fuel hasGetBody k 0 _ w (by omega) (by omega)]
    exact ih

/-- Claim C25: what `doRequestWithRetry` does is a non-empty prefix of the schedule attempt,
sleep of 2 s, attempt, sleep of 4 s, attempt, sleep of 6 s, attempt: at most 4 attempts (one
initial attempt and up to 3 retries), and the wait before the retry number `k` is `k` times 2
seconds.  The bound is the one of the loop itself: more fuel gives the same result. -/
theorem doRequestWithRetry_schedule (hasGetBody : Bool) (w : RetryWorld) :
    ∃ issued, (doRequestWithRetry hasGetBody w).2.trace = w.trace ++ issued ∧
      issued <+: retrySchedule ∧
      issued.head? = some RetryEvent.attempt ∧
      (issued.filter fun e => decide (e = RetryEvent.attempt)).length ≤ 4 ∧
      ∀ fuel, 4 ≤ fuel →
        doRequestWithRetry.loop hasGetBody fuel 0 (none, none) w
          = doRequestWithRetry hasGetBody w := by
  obtain ⟨issued, h1, h2, h3⟩ :=
    doRequestWithRetry_loop_trace hasGetBody (doRequestWithRetry.maxRetries + 1) 0 (none, none) w
      (by omega)
  refine ⟨issued, h1, h2, h3 rfl (by simp), ?_, doRequestWithRetry_fuel hasGetBody w⟩
  have := (h2.sublist.filter fun e => decide (e = RetryEvent.attempt)).length_le
  exact this

/-- Claim C26, amended: when every attempt of a request answers HTTP 503 (and the body of the
request can be reset), `doRequestWithRetry` retries it 3 times, with the sleeps of the
schedule, and then returns the last 503 response to its caller with a nil error. -/
theorem doRequestWithRetry_all_503 (hasGetBody : Bool) (w : RetryWorld)
    (rest : List Attempt) (more : List Bool)
    (hattempts : w.outcomes = Attempt.answered 503 :: Attempt.answered 503 ::
      Attempt.answered 503 :: Attempt.answered 503 :: rest)
    (hbodies : hasGetBody = false ∨ w.bodies = true :: true :: true :: more) :
    (doRequestWithRetry hasGetBody w).1 = (some 503, none) ∧
    (doRequestWithRetry hasGetBody w).2.trace = w.trace ++ retrySchedule := by
  obtain ⟨outcomes, bodies, trace⟩ := w
  simp only at hattempts hbodies
  subst hattempts
  rcases hbodies with hb | hb
  · subst hb
    simp [doRequestWithRetry, doRequestWithRetry.loop, doRequestWithRetry.maxRetries,
      RetryWorld.perform, RetryWorld.sleep, RetryWorld.getBody, retrySchedule,
      doRequestWithRetry.baseWait]
  · subst hb
    cases hasGetBody <;>
    simp [doRequestWithRetry, doRequestWithRetry.loop, doRequestWithRetry.maxRetries,
      RetryWorld.perform, RetryWorld.sleep, RetryWorld.getBody, retrySchedule,
      doRequestWithRetry.baseWait]

/-- Witness for C26: four answers 503 to a request whose body can be reset. -/
theorem doRequestWithRetry_all_503_witness :
    (doRequestWithRetry true (RetryWorld.mk (List.replicate 4 (Attempt.answered 503))
      [true, true, true] [])).1 = (some 503, none) ∧
    (doRequestWithRetry true (RetryWorld.mk (List.replicate 4 (Attempt.answered 503))
      [true, true, true] [])).2.trace
      = (RetryWorld.mk (List.replicate 4 (Attempt.answered 503)) [true, true, true] []).trace
        ++ retrySchedule :=
  doRequestWithRetry_all_503 true (RetryWorld.mk (List.replicate 4 (Attempt.answered 503))
    [true, true, true] []) [] [] rfl (Or.inr rfl)

/-- Counterexample to C26 as stated: every attempt answers 503; after the four attempts the
error returned is nil and the response returned is the 503 response. -/
theorem doRequestWithRetry_503_without_error :
    (doRequestWithRetry false (RetryWorld.mk (List.replicate 4 (Attempt.answered 503)) [] [])).1.2
      = none ∧
    (doRequestWithRetry false (RetryWorld.mk (List.replicate 4 (Attempt.answered 503)) [] [])).1.1
      = some 503 ∧
    ((doRequestWithRetry false (RetryWorld.mk (List.replicate 4 (Attempt.answered 503)) []
      [])).2.trace.filter fun e => decide (e = RetryEvent.attempt)).length = 4 := by
  decide

/-! ## The versions of the normalizer -/

/-- The earlier client and the client of `universal_rebuild` have the same
`normalizeUniversalValueV6`, on the fields of the descriptor that both decode. -/
theorem Earlier_normalizeUniversalValueV6_eq (val : Str) (param : universalCfsParamV3)
    (isRequired : Bool) (refSvcId : Option Int) :
    Earlier.normalizeUniversalValueV6 val param
      = normalizeUniversalValueV6 val (param.toUniversal isRequired refSvcId) := rfl

/-- The sixth version by cases: an empty value gets the default of the type, any other value
is trimmed. -/
theorem Earlier_V6_cases (val : Str) (param : universalCfsParamV3) :
    Earlier.normalizeUniversalValueV6 val param =
      if isEmptyValue val = true then
        if Contains (ToLower param.DataType) "array".toList ||
            Contains (ToLower (param.Name ++ " ".toList ++ param.Code ++ " ".toList ++
              param.Label ++ " ".toList ++ param.SvcOperationCfsParam)) "array".toList ||
            Contains (ToLower (param.Name ++ " ".toList ++ param.Code ++ " ".toList ++
              param.Label ++ " ".toList ++ param.SvcOperationCfsParam)) "list".toList then
          "[]".toList
        else if Contains (ToLower param.DataType) "map".toList ||
            Contains (ToLower param.DataType) "json".toList ||
            Contains (ToLower (param.Name ++ " ".toList ++ param.Code ++ " ".toList ++
              param.Label ++ " ".toList ++ param.SvcOperationCfsParam)) "map".toList ||
            Contains (ToLower (param.Name ++ " ".toList ++ param.Code ++ " ".toList ++
              param.Label ++ " ".toList ++ param.SvcOperationCfsParam)) "json".toList then
          "\x7b\x7d".toList
        else []
      else TrimSpace val := by
  rw [Earlier_normalizeUniversalValueV6_eq val param false none, normalizeUniversalValueV6_eq]
  rfl

/-- The sixth version returns a structured empty literal for an empty value when one of its
type tests fires. -/
theorem Earlier_V6_literal (val : Str) (param : universalCfsParamV3)
    (hval : isEmptyValue val = true)
    (h : (Contains (ToLower param.DataType) "array".toList ||
        Contains (ToLower (param.Name ++ " ".toList ++ param.Code ++ " ".toList ++
          param.Label ++ " ".toList ++ param.SvcOperationCfsParam)) "array".toList ||
        Contains (ToLower (param.Name ++ " ".toList ++ param.Code ++ " ".toList ++
          param.Label ++ " ".toList ++ param.SvcOperationCfsParam)) "list".toList) = true ∨
      (Contains (ToLower param.DataType) "map".toList ||
        Contains (ToLower param.DataType) "json".toList ||
        Contains (ToLower (param.Name ++ " ".toList ++ param.Code ++ " ".toList ++
          param.Label ++ " ".toList ++ param.SvcOperationCfsParam)) "map".toList ||
        Contains (ToLower (param.Name ++ " ".toList ++ param.Code ++ " ".toList ++
          param.Label ++ " ".toList ++ param.SvcOperationCfsParam)) "json".toList) = true) :
    isStructuredEmpty (Earlier.normalizeUniversalValueV6 val param) = true := by
  rw [Earlier_V6_cases, if_pos hval]
  generalize (Contains (ToLower param.DataType) "array".toList ||
        Contains (ToLower (param.Name ++ " ".toList ++ param.Code ++ " ".toList ++
          param.Label ++ " ".toList ++ param.SvcOperationCfsParam)) "array".toList ||
        Contains (ToLower (param.Name ++ " ".toList ++ param.Code ++ " ".toList ++
          param.Label ++ " ".toList ++ param.SvcOperationCfsParam)) "list".toList) = A at h ⊢
  generalize (Contains (ToLower param.DataType) "map".toList ||
        Contains (ToLower param.DataType) "json".toList ||
        Contains (ToLower (param.Name ++ " ".toList ++ param.Code ++ " ".toList ++
          param.Label ++ " ".toList ++ param.SvcOperationCfsParam)) "map".toList ||
        Contains (ToLower (param.Name ++ " ".toList ++ param.Code ++ " ".toList ++
          param.Label ++ " ".toList ++ param.SvcOperationCfsParam)) "json".toList) = M at h ⊢
  cases A <;> cases M <;> first | rfl | (simp at h)

/-- The sixth version returns a value whose trimmed form is a structured empty literal as that
literal. -/
theorem Earlier_V6_of_literal (val : Str) (param : universalCfsParamV3)
    (h : isStructuredEmpty (TrimSpace val) = true) :
    isStructuredEmpty (Earlier.normalizeUniversalValueV6 val param) = true := by
  have hne : isEmptyValue val = false := by
    unfold isStructuredEmpty at h
    unfold isEmptyValue
    simp only [Bool.or_eq_true, decide_eq_true_eq] at h
    rcases h with h | h <;> rw [h] <;> rfl
  rw [Earlier_V6_cases, if_neg (by simp [hne])]
  exact h

/-- The sixth version returns a structured empty literal as it is. -/
theorem Earlier_V6_of_literal_value (val : Str) (param : universalCfsParamV3)
    (h : isStructuredEmpty val = true) :
    isStructuredEmpty (Earlier.normalizeUniversalValueV6 val param) = true := by
  apply Earlier_V6_of_literal
  unfold isStructuredEmpty at h
  simp only [Bool.or_eq_true, decide_eq_true_eq] at h
  rcases h with h | h <;> rw [h] <;> rfl

/-- The sixth version on the empty value, by the declared data type: a literal for `map`,
`json` and `array`; for `list` a literal or the empty string. -/
theorem Earlier_V6_by_type (param : universalCfsParamV3) :
    (ToLower param.DataType = "map".toList ∨ ToLower param.DataType = "json".toList ∨
      ToLower param.DataType = "array".toList →
      isStructuredEmpty (Earlier.normalizeUniversalValueV6 [] param) = true) ∧
    (ToLower param.DataType = "list".toList →
      isStructuredEmpty (Earlier.normalizeUniversalValueV6 [] param) = true ∨
        Earlier.normalizeUniversalValueV6 [] param = []) := by
  constructor
  · intro h
    apply Earlier_V6_literal [] param (by decide)
    rcases h with h | h | h <;> rw [h]
    · right
      have : Contains "map".toList "map".toList = true := by decide
      rw [this]
      simp
    · right
      have : Contains "json".toList "json".toList = true := by decide
      rw [this]
      simp
    · left
      have : Contains "array".toList "array".toList = true := by decide
      rw [this]
      simp
  · intro _
    rw [Earlier_V6_cases, if_pos (by decide)]
    split
    · left; rfl
    · split
      · left; rfl
      · right; rfl

/-- The sixth version on the empty value returns a literal when the name hint holds one of
the four markers. -/
theorem Earlier_V6_by_hint (param : universalCfsParamV3) (m : Str)
    (hm : m = "map".toList ∨ m = "json".toList ∨ m = "array".toList ∨ m = "list".toList)
    (h : Contains (ToLower (param.Name ++ " ".toList ++ param.Code ++ " ".toList ++
      param.Label ++ " ".toList ++ param.SvcOperationCfsParam)) m = true) :
    isStructuredEmpty (Earlier.normalizeUniversalValueV6 [] param) = true := by
  apply Earlier_V6_literal [] param (by decide)
  rcases hm with hm | hm | hm | hm <;> subst hm
  · right; rw [h]; simp
  · right; rw [h]; simp
  · left; rw [h]; simp
  · left; rw [h]; simp

/-- Where the first version returns a structured empty literal, so does the sixth, except for
the data type `list`. -/
theorem normalizeUniversalValueV6_covers_V1 (val : Str) (param : universalCfsParamV3)
    (h : isStructuredEmpty (normalizeUniversalValue val param.DataType) = true) :
    isStructuredEmpty (Earlier.normalizeUniversalValueV6 val param) = true ∨
    (val = [] ∧ ToLower param.DataType = "list".toList ∧
      Earlier.normalizeUniversalValueV6 val param = []) := by
  have hempty : isStructuredEmpty [] = false := by decide
  have hlist : ToLower param.DataType = "list".toList →
      isStructuredEmpty (Earlier.normalizeUniversalValueV6 [] param) = true ∨
      (([] : Str) = [] ∧ ToLower param.DataType = "list".toList ∧
        Earlier.normalizeUniversalValueV6 [] param = []) := by
    intro hl
    rcases (Earlier_V6_by_type param).2 hl with h1 | h1
    · exact Or.inl h1
    · exact Or.inr ⟨rfl, hl, h1⟩
  unfold normalizeUniversalValue at h
  by_cases hv : val = []
  · subst hv
    rw [if_neg (by simp)] at h
    dsimp only at h
    by_cases h1 : ToLower param.DataType = "map".toList ∨
        ToLower param.DataType = "json".toList
    · exact Or.inl ((Earlier_V6_by_type param).1 (by tauto))
    · rw [if_neg h1] at h
      by_cases h2 : ToLower param.DataType = "array".toList ∨
          ToLower param.DataType = "list".toList
      · rcases h2 with h2 | h2
        · exact Or.inl ((Earlier_V6_by_type param).1 (by tauto))
        · exact hlist h2
      · rw [if_neg h2, hempty] at h
        cases h
  · rw [if_pos hv] at h
    exact Or.inl (Earlier_V6_of_literal_value val param h)

/-- Where the second version returns a structured empty literal, so does the sixth, except
for the data type `list`. -/
theorem normalizeUniversalValueV6_covers_V2 (val : Str) (param : universalCfsParamV3)
    (h : isStructuredEmpty (normalizeUniversalValueV2 val param.toV2) = true) :
    isStructuredEmpty (Earlier.normalizeUniversalValueV6 val param) = true ∨
    (val = [] ∧ ToLower param.DataType = "list".toList ∧
      Earlier.normalizeUniversalValueV6 val param = []) := by
  have hempty : isStructuredEmpty [] = false := by decide
  have hlist : ToLower param.DataType = "list".toList →
      isStructuredEmpty (Earlier.normalizeUniversalValueV6 [] param) = true ∨
      (([] : Str) = [] ∧ ToLower param.DataType = "list".toList ∧
        Earlier.normalizeUniversalValueV6 [] param = []) := by
    intro hl
    rcases (Earlier_V6_by_type param).2 hl with h1 | h1
    · exact Or.inl h1
    · exact Or.inr ⟨rfl, hl, h1⟩
  unfold normalizeUniversalValueV2 at h
  by_cases hv : val = []
  · subst hv
    rw [if_neg (by simp)] at h
    dsimp only [universalCfsParamV3.toV2] at h
    by_cases h1 : ToLower param.DataType = "map".toList ∨
        ToLower param.DataType = "json".toList ∨
        Contains (ToLower (param.Name ++ " ".toList ++ param.Code ++ " ".toList ++
          param.SvcOperationCfsParam)) "map".toList = true ∨
        Contains (ToLower (param.Name ++ " ".toList ++ param.Code ++ " ".toList ++
          param.SvcOperationCfsParam)) "json".toList = true
    · rcases h1 with h1 | h1 | h1 | h1
      · exact Or.inl ((Earlier_V6_by_type param).1 (by tauto))
      · exact Or.inl ((Earlier_V6_by_type param).1 (by tauto))
      · exact Or.inl (Earlier_V6_by_hint param _ (by tauto)
          (Contains_hint_of_V2 _ _ _ _ _ (by decide) h1))
      · exact Or.inl (Earlier_V6_by_hint param _ (by tauto)
          (Contains_hint_of_V2 _ _ _ _ _ (by decide) h1))
    · rw [if_neg h1] at h
      by_cases h2 : ToLower param.DataType = "array".toList ∨
          ToLower param.DataType = "list".toList ∨
          Contains (ToLower (param.Name ++ " ".toList ++ param.Code ++ " ".toList ++
            param.SvcOperationCfsParam)) "array".toList = true ∨
          Contains (ToLower (param.Name ++ " ".toList ++ param.Code ++ " ".toList ++
            param.SvcOperationCfsParam)) "list".toList = true
      · rcases h2 with h2 | h2 | h2 | h2
        · exact Or.inl ((Earlier_V6_by_type param).1 (by tauto))
        · exact hlist h2
        · exact Or.inl (Earlier_V6_by_hint param _ (by tauto)
            (Contains_hint_of_V2 _ _ _ _ _ (by decide) h2))
        · exact Or.inl (Earlier_V6_by_hint param _ (by tauto)
            (Contains_hint_of_V2 _ _ _ _ _ (by decide) h2))
      · rw [if_neg h2, hempty] at h
        cases h
  · rw [if_pos hv] at h
    exact Or.inl (Earlier_V6_of_literal_value val param h)

/-- Where the third version returns a structured empty literal, so does the sixth, except for
the data type `list`. -/
theorem normalizeUniversalValueV6_covers_V3 (val : Str) (param : universalCfsParamV3)
    (h : isStructuredEmpty (normalizeUniversalValueV3 val param) = true) :
    isStructuredEmpty (Earlier.normalizeUniversalValueV6 val param) = true ∨
    (val = [] ∧ ToLower param.DataType = "list".toList ∧
      Earlier.normalizeUniversalValueV6 val param = []) := by
  have hempty : isStructuredEmpty [] = false := by decide
  have hlist : ToLower param.DataType = "list".toList →
      isStructuredEmpty (Earlier.normalizeUniversalValueV6 [] param) = true ∨
      (([] : Str) = [] ∧ ToLower param.DataType = "list".toList ∧
        Earlier.normalizeUniversalValueV6 [] param = []) := by
    intro hl
    rcases (Earlier_V6_by_type param).2 hl with h1 | h1
    · exact Or.inl h1
    · exact Or.inr ⟨rfl, hl, h1⟩
  unfold normalizeUniversalValueV3 at h
  by_cases hv : val = []
  · subst hv
    rw [if_neg (by simp)] at h
    dsimp only at h
    by_cases h1 : ToLower param.DataType = "map".toList ∨
        ToLower param.DataType = "json".toList ∨
        Contains (ToLower (param.Name ++ " ".toList ++ param.Code ++ " ".toList ++
          param.Label ++ " ".toList ++ param.SvcOperationCfsParam)) "map".toList = true ∨
        Contains (ToLower (param.Name ++ " ".toList ++ param.Code ++ " ".toList ++
          param.Label ++ " ".toList ++ param.SvcOperationCfsParam)) "json".toList = true
    · rcases h1 with h1 | h1 | h1 | h1
      · exact Or.inl ((Earlier_V6_by_type param).1 (by tauto))
      · exact Or.inl ((Earlier_V6_by_type param).1 (by tauto))
      · exact Or.inl (Earlier_V6_by_hint param _ (by tauto) h1)
      · exact Or.inl (Earlier_V6_by_hint param _ (by tauto) h1)
    · rw [if_neg h1] at h
      by_cases h2 : ToLower param.DataType = "array".toList ∨
          ToLower param.DataType = "list".toList ∨
          Contains (ToLower (param.Name ++ " ".toList ++ param.Code ++ " ".toList ++
            param.Label ++ " ".toList ++ param.SvcOperationCfsParam)) "array".toList = true ∨
          Contains (ToLower (param.Name ++ " ".toList ++ param.Code ++ " ".toList ++
            param.Label ++ " ".toList ++ param.SvcOperationCfsParam)) "list".toList = true
      · rcases h2 with h2 | h2 | h2 | h2
        · exact Or.inl ((Earlier_V6_by_type param).1 (by tauto))
        · exact hlist h2
        · exact Or.inl (Earlier_V6_by_hint param _ (by tauto) h2)
        · exact Or.inl (Earlier_V6_by_hint param _ (by tauto) h2)
      · rw [if_neg h2, hempty] at h
        cases h
  · rw [if_pos hv] at h
    exact Or.inl (Earlier_V6_of_literal_value val param h)

/-- Where the fourth version returns a structured empty literal, so does the sixth. -/
theorem normalizeUniversalValueV6_covers_V4 (val : Str) (param : universalCfsParamV3)
    (h : isStructuredEmpty (normalizeUniversalValueV4 val param) = true) :
    isStructuredEmpty (Earlier.normalizeUniversalValueV6 val param) = true ∨
    (val = [] ∧ ToLower param.DataType = "list".toList ∧
      Earlier.normalizeUniversalValueV6 val param = []) := by
  have hempty : isStructuredEmpty [] = false := by decide
  have hlist : ToLower param.DataType = "list".toList →
      isStructuredEmpty (Earlier.normalizeUniversalValueV6 [] param) = true ∨
      (([] : Str) = [] ∧ ToLower param.DataType = "list".toList ∧
        Earlier.normalizeUniversalValueV6 [] param = []) := by
    intro hl
    rcases (Earlier_V6_by_type param).2 hl with h1 | h1
    · exact Or.inl h1
    · exact Or.inr ⟨rfl, hl, h1⟩
  left
  unfold normalizeUniversalValueV4 at h
  dsimp only at h
  by_cases ht : TrimSpace val = []
  · rw [if_neg (by simp [ht])] at h
    have hval : isEmptyValue val = true := by
      unfold isEmptyValue
      rw [ht]
      rfl
    rw [ht] at h
    apply Earlier_V6_literal val param hval
    by_cases ha : (Contains (ToLower param.DataType) "array".toList ||
        Contains (ToLower (param.Name ++ " ".toList ++ param.Code ++ " ".toList ++
          param.Label ++ " ".toList ++ param.SvcOperationCfsParam)) "array".toList ||
        Contains (ToLower (param.Name ++ " ".toList ++ param.Code ++ " ".toList ++
          param.Label ++ " ".toList ++ param.SvcOperationCfsParam)) "list".toList) = true
    · exact Or.inl ha
    · rw [if_neg ha] at h
      right
      by_contra hm
      rw [if_neg hm, hempty] at h
      cases h
  · rw [if_pos ht] at h
    exact Earlier_V6_of_literal val param h

/-- Where the fifth version returns a structured empty literal, so does the sixth. -/
theorem normalizeUniversalValueV6_covers_V5 (val : Str) (param : universalCfsParamV3)
    (h : isStructuredEmpty (normalizeUniversalValueV5 val param) = true) :
    isStructuredEmpty (Earlier.normalizeUniversalValueV6 val param) = true ∨
    (val = [] ∧ ToLower param.DataType = "list".toList ∧
      Earlier.normalizeUniversalValueV6 val param = []) := by
  have hempty : isStructuredEmpty [] = false := by decide
  have hlist : ToLower param.DataType = "list".toList →
      isStructuredEmpty (Earlier.normalizeUniversalValueV6 [] param) = true ∨
      (([] : Str) = [] ∧ ToLower param.DataType = "list".toList ∧
        Earlier.normalizeUniversalValueV6 [] param = []) := by
    intro hl
    rcases (Earlier_V6_by_type param).2 hl with h1 | h1
    · exact Or.inl h1
    · exact Or.inr ⟨rfl, hl, h1⟩
  left
  unfold normalizeUniversalValueV5 at h
  dsimp only at h
  by_cases ht : (if EqualFold (TrimSpace val) "null".toList = true then []
      else TrimSpace val) = []
  · rw [ht] at h
    rw [if_neg (by simp)] at h
    have hval : isEmptyValue val = true := by
      unfold isEmptyValue
      by_cases hn : EqualFold (TrimSpace val) "null".toList = true
      · rw [hn]
        simp
      · rw [if_neg hn] at ht
        rw [ht]
        rfl
    apply Earlier_V6_literal val param hval
    by_cases ha : (Contains (ToLower param.DataType) "array".toList ||
        Contains (ToLower (param.Name ++ " ".toList ++ param.Code ++ " ".toList ++
          param.Label ++ " ".toList ++ param.SvcOperationCfsParam)) "array".toList ||
        Contains (ToLower (param.Name ++ " ".toList ++ param.Code ++ " ".toList ++
          param.Label ++ " ".toList ++ param.SvcOperationCfsParam)) "list".toList) = true
    · exact Or.inl ha
    · rw [if_neg ha] at h
      right
      by_contra hm
      rw [if_neg hm, hempty] at h
      cases h
  · rw [if_pos ht] at h
    by_cases hn : EqualFold (TrimSpace val) "null".toList = true
    · rw [if_pos hn] at ht
      exact absurd rfl ht
    · rw [if_neg hn] at h
      exact Earlier_V6_of_literal val param h

/-- Claim C27, what the code satisfies: for every raw value and descriptor for which an
earlier version (`normalizeUniversalValue`, V2, V3, V4 or V5) returns a structured empty
literal, `normalizeUniversalValueV6` returns a structured empty literal too, or else the value
is empty, the declared data type is `list` and V6 returns the empty string. -/
theorem normalizeUniversalValueV6_most_permissive (val : Str) (param : universalCfsParamV3)
    (h : isStructuredEmpty (normalizeUniversalValue val param.DataType) = true ∨
      isStructuredEmpty (normalizeUniversalValueV2 val param.toV2) = true ∨
      isStructuredEmpty (normalizeUniversalValueV3 val param) = true ∨
      isStructuredEmpty (normalizeUniversalValueV4 val param) = true ∨
      isStructuredEmpty (normalizeUniversalValueV5 val param) = true) :
    isStructuredEmpty (Earlier.normalizeUniversalValueV6 val param) = true ∨
    (val = [] ∧ ToLower param.DataType = "list".toList ∧
      Earlier.normalizeUniversalValueV6 val param = []) := by
  rcases h with h | h | h | h | h
  · exact normalizeUniversalValueV6_covers_V1 val param h
  · exact normalizeUniversalValueV6_covers_V2 val param h
  · exact normalizeUniversalValueV6_covers_V3 val param h
  · exact normalizeUniversalValueV6_covers_V4 val param h
  · exact normalizeUniversalValueV6_covers_V5 val param h

/-- Witness for C27: the empty value for a descriptor of type `Map`. -/
theorem normalizeUniversalValueV6_most_permissive_witness :
    isStructuredEmpty (Earlier.normalizeUniversalValueV6 [] (universalCfsParamV3.mk 5 none none
      "Map".toList "labels".toList [] [] [])) = true ∨
    (([] : Str) = [] ∧
      ToLower (universalCfsParamV3.mk 5 none none "Map".toList "labels".toList [] [] []).DataType
        = "list".toList ∧
      Earlier.normalizeUniversalValueV6 [] (universalCfsParamV3.mk 5 none none
        "Map".toList "labels".toList [] [] []) = []) :=
  normalizeUniversalValueV6_most_permissive []
    (universalCfsParamV3.mk 5 none none "Map".toList "labels".toList [] [] [])
    (Or.inl (by decide))

/-- Claim C27, the code at the failing input: for the empty value and the declared data type
`list` without hints the first three versions return `[]`, and the fourth, the fifth and the
sixth return the empty string. -/
theorem normalizeUniversalValueV6_less_permissive_on_list :
    isStructuredEmpty (normalizeUniversalValue [] "list".toList) = true ∧
    isStructuredEmpty (normalizeUniversalValueV2 []
      (universalCfsParamV3.mk 5 none none "list".toList [] [] [] []).toV2) = true ∧
    isStructuredEmpty (normalizeUniversalValueV3 []
      (universalCfsParamV3.mk 5 none none "list".toList [] [] [] [])) = true ∧
    isStructuredEmpty (normalizeUniversalValueV4 []
      (universalCfsParamV3.mk 5 none none "list".toList [] [] [] [])) = false ∧
    isStructuredEmpty (normalizeUniversalValueV5 []
      (universalCfsParamV3.mk 5 none none "list".toList [] [] [] [])) = false ∧
    Earlier.normalizeUniversalValueV6 []
      (universalCfsParamV3.mk 5 none none "list".toList [] [] [] []) = [] ∧
    isStructuredEmpty (Earlier.normalizeUniversalValueV6 []
      (universalCfsParamV3.mk 5 none none "list".toList [] [] [] [])) = false := by
  decide

/-! ## The paginated scans -/

/-- If the first answer is not an empty page, the requests `mid` are no list requests and the
requests `rest` stop at the first empty page, then so do the requests `req :: mid ++ rest`. -/
theorem stops_compose (read : Answer → Option (List listItem)) (answers : List Answer)
    (req : Request) (mid rest : List Request)
    (hhead : (answers[0]?).bind read ≠ some [])
    (hmid : ∀ r ∈ mid, r.isListPage = false)
    (hrest : ∀ (j p : Nat), rest[j]? = some (Request.getInstancesPage p) →
      ((answers.drop (1 + mid.length))[j]?).bind read = some [] → j + 1 = rest.length) :
    ∀ (j p : Nat), (req :: (mid ++ rest))[j]? = some (Request.getInstancesPage p) →
      (answers[j]?).bind read = some [] → j + 1 = (req :: (mid ++ rest)).length := by
  intro j p hj ha
  cases j with
  | zero => exact absurd ha hhead
  | succ j =>
    rw [List.getElem?_cons_succ] at hj
    by_cases hlt : j < mid.length
    · rw [List.getElem?_append_left hlt] at hj
      have hm := hmid _ (List.getElem?_mem hj)
      simp [Request.isListPage] at hm
    · rw [List.getElem?_append_right (by omega)] at hj
      have := hrest (j - mid.length) p hj (by
        rw [List.getElem?_drop]
        have e : 1 + mid.length + (j - mid.length) = j + 1 := by omega
        rw [e]
        exact ha)
      simp only [List.length_cons, List.length_append]
      omega

/-- The list requests from `page` on, unfolded once. -/
theorem range_map_succ (page n : Nat) :
    (List.range (n + 1)).map (fun k => Request.getInstancesPage (page + k))
      = Request.getInstancesPage page ::
        (List.range n).map (fun k => Request.getInstancesPage (page + 1 + k)) := by
  rw [List.range_succ_eq_map, List.map_cons, List.map_map]
  congr 1
  apply List.map_congr_left
  intro k _
  simp only [Function.comp, Nat.add_zero]
  congr 1
  omega

/-- A round trip followed by further requests. -/
theorem send_steps_one (w : World) (r : Request) (issued : List Request) (w2 : World)
    (h : Steps (w.send r).2 w2 issued) : Steps w w2 (r :: issued) :=
  (send_steps w r).trans h

/-- The answer to a round trip is the next answer of the script, or a network failure. -/
theorem send_answer (w : World) (r : Request) :
    (w.send r).1 = (w.answers[0]?).getD Answer.netErr := by
  unfold World.send
  cases h : w.answers <;> simp

/-- The scan of `findInstanceUidByDisplayNameRefSvc`, entered with `page`: it requests the
pages `page`, `page + 1`, ..., not beyond page 100 whatever the fuel, and nothing after an
empty page. -/
theorem findInstanceUid_pages_paginate (serviceId : Int) (displayName : Str) :
    ∀ (fuel page : Nat) (w : World), page ≤ 100 →
      ∃ n, n + page ≤ 101 ∧
        Steps w (findInstanceUidByDisplayNameRefSvc.pages serviceId displayName fuel page w).2
          ((List.range n).map fun k => Request.getInstancesPage (page + k)) ∧
        ∀ (j p : Nat), ((List.range n).map fun k => Request.getInstancesPage (page + k))[j]?
            = some (Request.getInstancesPage p) →
          (w.answers[j]?).bind Answer.page = some [] → j + 1 = n := by
  intro fuel
  induction fuel with
  | zero =>
    intro page w _
    exact ⟨0, by omega, by simpa [findInstanceUidByDisplayNameRefSvc.pages] using Steps.refl w,
      by simp⟩
  | succ fuel ih =>
    intro page w hpage
    have one : ∀ (r : Except Err Str) (w1 : World),
        w1 = (w.send (Request.getInstancesPage page)).2 →
        ∃ n, n + page ≤ 101 ∧
          Steps w ((r, w1) : Except Err Str × World).2
            ((List.range n).map fun k => Request.getInstancesPage (page + k)) ∧
          ∀ (j p : Nat), ((List.range n).map fun k => Request.getInstancesPage (page + k))[j]?
              = some (Request.getInstancesPage p) →
            (w.answers[j]?).bind Answer.page = some [] → j + 1 = n := by
      intro r w1 hw1
      refine ⟨1, by omega, ?_, ?_⟩
      · rw [hw1]
        simpa using send_steps w (Request.getInstancesPage page)
      · intro j p hj _
        cases j with
        | zero => rfl
        | succ j =>
          rw [List.getElem?_eq_none (by simp)] at hj
          cases hj
    rw [findInstanceUidByDisplayNameRefSvc.pages]
    unfold doRequest
    have hans := send_answer w (Request.getInstancesPage page)
    cases hs : w.send (Request.getInstancesPage page) with
    | mk a w1 =>
      rw [hs] at hans
      simp only at hans
      have hw1 : w1 = (w.send (Request.getInstancesPage page)).2 := by rw [hs]
      cases a with
      | netErr => exact one _ w1 hw1
      | resp rp =>
        dsimp only
        by_cases hst : rp.status ≥ 400
        · rw [if_pos hst]
          exact one _ w1 hw1
        · rw [if_neg hst]
          dsimp only
          cases hdec : rp.body.decodeResults with
          | none => exact one _ w1 hw1
          | some results =>
            dsimp only
            by_cases hlen : results.length = 0
            · rw [if_pos hlen]
              exact one _ w1 hw1
            · rw [if_neg hlen]
              cases hscan : findInstanceUidByDisplayNameRefSvc.scan serviceId displayName
                  results with
              | some uid => exact one _ w1 hw1
              | none =>
                dsimp only
                by_cases hp : page + 1 > 100
                · rw [if_pos hp]
                  exact one _ w1 hw1
                · rw [if_neg hp]
                  obtain ⟨n, hn, hsteps, hstop⟩ := ih (page + 1) w1 (by omega)
                  refine ⟨n + 1, by omega, ?_, ?_⟩
                  · rw [range_map_succ]
                    rw [hw1] at hsteps ⊢
                    exact send_steps_one w _ _ _ hsteps
                  · rw [range_map_succ]
                    intro j p hj ha
                    have hhead : (w.answers[0]?).bind Answer.page ≠ some [] := by
                      cases h0 : w.answers[0]? with
                      | none => simp
                      | some a0 =>
                        rw [h0] at hans
                        simp only [Option.getD_some] at hans
                        rw [← hans]
                        simp only [Option.some_bind, Answer.page, if_neg hst, hdec]
                        intro hc
                        simp only [Option.some.injEq] at hc
                        rw [hc] at hlen
                        exact hlen rfl
                    have hst1 := (send_steps w (Request.getInstancesPage page)).2
                    rw [hs] at hst1
                    simp only [List.length_singleton] at hst1
                    have := stops_compose Answer.page w.answers (Request.getInstancesPage page)
                      [] ((List.range n).map fun k => Request.getInstancesPage (page + 1 + k))
                      hhead (by simp) (by
                        intro j' p' hj' ha'
                        simp only [List.length_nil, Nat.add_zero] at ha'
                        rw [← hst1] at ha'
                        have := hstop j' p' hj' ha'
                        simpa using this) j p (by simpa using hj) ha
                    simpa using this

/-- The method `GetInstanceState` is one step. -/
theorem GetInstanceState_steps (instanceUid : Str) (w : World) :
    Steps w (GetInstanceState instanceUid w).2 [Request.getInstance instanceUid] := by
  have h := GetInstanceState_world instanceUid w (GetInstanceState instanceUid w).2
    (GetInstanceState instanceUid w).1 rfl
  rw [h]
  constructor
  · rfl
  · simp

/-- The scan of one page in `FindInstanceByDisplayName` issues state requests only. -/
theorem FindInstanceByDisplayName_scan_steps (serviceId : Int) (displayName : Str) :
    ∀ (items : List listItem) (w : World), ∃ issued,
      Steps w (FindInstanceByDisplayName.scan serviceId displayName items w).2 issued ∧
      ∀ r ∈ issued, r.isListPage = false := by
  intro items
  induction items with
  | nil =>
    intro w
    exact ⟨[], by simpa [FindInstanceByDisplayName.scan] using Steps.refl w, by simp⟩
  | cons item rest ih =>
    intro w
    rw [FindInstanceByDisplayName.scan]
    by_cases hm : item.ServiceId = serviceId ∧ item.DisplayName = displayName
    · rw [if_pos hm]
      have hg := GetInstanceState_steps item.InstanceUid w
      cases hgs : GetInstanceState item.InstanceUid w with
      | mk res w1 =>
        rw [hgs] at hg
        simp only at hg
        cases res with
        | error e => exact ⟨_, hg, by simp [Request.isListPage]⟩
        | ok state =>
          dsimp only
          by_cases hd : isInstanceDeleted state = true
          · rw [if_pos hd]
            obtain ⟨issued, h1, h2⟩ := ih w1
            refine ⟨[Request.getInstance item.InstanceUid] ++ issued, hg.trans h1, ?_⟩
            intro r hr
            rcases List.mem_append.mp hr with hr | hr
            · simp only [List.mem_singleton] at hr
              rw [hr]
              rfl
            · exact h2 r hr
          · rw [if_neg hd]
            exact ⟨_, hg, by simp [Request.isListPage]⟩
    · rw [if_neg hm]
      exact ih w

/-- The scan of `FindInstanceByDisplayName`, entered with `page`: its list requests are for
the pages `page`, `page + 1`, ..., not beyond page 100 whatever the fuel, and nothing follows
an empty page. -/
theorem FindInstanceByDisplayName_pages_paginate (serviceId : Int) (displayName : Str) :
    ∀ (fuel page : Nat) (w : World), page ≤ 100 →
      ∃ issued n, n + page ≤ 101 ∧
        Steps w (FindInstanceByDisplayName.pages serviceId displayName fuel page w).2 issued ∧
        issued.filter Request.isListPage
          = ((List.range n).map fun k => Request.getInstancesPage (page + k)) ∧
        ∀ (j p : Nat), issued[j]? = some (Request.getInstancesPage p) →
          (w.answers[j]?).bind Answer.listPage = some [] → j + 1 = issued.length := by
  intro fuel
  induction fuel with
  | zero =>
    intro page w _
    exact ⟨[], 0, by omega, by simpa [FindInstanceByDisplayName.pages] using Steps.refl w,
      by simp, by simp⟩
  | succ fuel ih =>
    intro page w hpage
    have one : ∀ (r : Except Err (Option InstanceStateResponse)) (w1 : World),
        w1 = (w.send (Request.getInstancesPage page)).2 →
        ∃ issued n, n + page ≤ 101 ∧
          Steps w ((r, w1) : Except Err (Option InstanceStateResponse) × World).2 issued ∧
          issued.filter Request.isListPage
            = ((List.range n).map fun k => Request.getInstancesPage (page + k)) ∧
          ∀ (j p : Nat), issued[j]? = some (Request.getInstancesPage p) →
            (w.answers[j]?).bind Answer.listPage = some [] → j + 1 = issued.length := by
      intro r w1 hw1
      refine ⟨[Request.getInstancesPage page], 1, by omega, ?_, ?_, ?_⟩
      · rw [hw1]
        exact send_steps w (Request.getInstancesPage page)
      · rfl
      · intro j p hj _
        cases j with
        | zero => rfl
        | succ j =>
          rw [List.getElem?_eq_none (by simp)] at hj
          cases hj
    rw [FindInstanceByDisplayName.pages]
    have hans := send_answer w (Request.getInstancesPage page)
    cases hs : w.send (Request.getInstancesPage page) with
    | mk a w1 =>
      rw [hs] at hans
      simp only at hans
      have hw1 : w1 = (w.send (Request.getInstancesPage page)).2 := by rw [hs]
      cases a with
      | netErr => exact one _ w1 hw1
      | resp rp =>
        dsimp only
        by_cases hst : rp.status ≠ 200
        · rw [if_pos hst]
          exact one _ w1 hw1
        · rw [if_neg hst]
          cases hdec : rp.body.decodeResults with
          | none => exact one _ w1 hw1
          | some results =>
            dsimp only
            by_cases hlen : results.length = 0
            · rw [if_pos hlen]
              exact one _ w1 hw1
            · rw [if_neg hlen]
              have hhead : (w.answers[0]?).bind Answer.listPage ≠ some [] := by
                cases h0 : w.answers[0]? with
                | none => simp
                | some a0 =>
                  rw [h0] at hans
                  simp only [Option.getD_some] at hans
                  rw [← hans]
                  simp only [Option.some_bind, Answer.listPage, if_neg hst, hdec]
                  intro hc
                  simp only [Option.some.injEq] at hc
                  rw [hc] at hlen
                  exact hlen rfl
              have hst1 := send_steps w (Request.getInstancesPage page)
              rw [hs] at hst1
              simp only at hst1
              obtain ⟨mid, hmid, hmidp⟩ :=
                FindInstanceByDisplayName_scan_steps serviceId displayName results w1
              have hfilter : mid.filter Request.isListPage = [] := by
                rw [List.filter_eq_nil_iff]
                intro r hr
                rw [hmidp r hr]
                simp
              have stop : ∀ (r : Except Err (Option InstanceStateResponse)) (w2 : World),
                  w2 = (FindInstanceByDisplayName.scan serviceId displayName results w1).2 →
                  ∃ issued n, n + page ≤ 101 ∧
                    Steps w ((r, w2) : Except Err (Option InstanceStateResponse) × World).2
                      issued ∧
                    issued.filter Request.isListPage
                      = ((List.range n).map fun k => Request.getInstancesPage (page + k)) ∧
                    ∀ (j p : Nat), issued[j]? = some (Request.getInstancesPage p) →
                      (w.answers[j]?).bind Answer.listPage = some [] →
                      j + 1 = issued.length := by
                intro r w2 hw2
                refine ⟨Request.getInstancesPage page :: (mid ++ []), 1, by omega, ?_, ?_, ?_⟩
                · rw [hw2, List.append_nil]
                  exact hst1.trans hmid
                · rw [List.append_nil, List.filter_cons_of_pos (by rfl), hfilter]
                  rfl
                · exact stops_compose Answer.listPage w.answers _ mid [] hhead hmidp (by simp)
              cases hscan : FindInstanceByDisplayName.scan serviceId displayName results w1 with
              | mk found w2 =>
                have hw2 : w2 = (FindInstanceByDisplayName.scan serviceId displayName
                    results w1).2 := by rw [hscan]
                rw [hscan] at hmid
                simp only at hmid
                cases found with
                | some res =>
                  cases res with
                  | error e => exact stop _ w2 hw2
                  | ok state => exact stop _ w2 hw2
                | none =>
                  dsimp only
                  by_cases hp : page + 1 > 100
                  · rw [if_pos hp]
                    exact stop _ w2 hw2
                  · rw [if_neg hp]
                    obtain ⟨rest, n, hn, hsteps, hpages, hstop⟩ := ih (page + 1) w2 (by omega)
                    refine ⟨Request.getInstancesPage page :: (mid ++ rest), n + 1, by omega,
                      ?_, ?_, ?_⟩
                    · exact hst1.trans (hmid.trans hsteps)
                    · rw [List.filter_cons_of_pos (by rfl), List.filter_append, hfilter,
                        List.nil_append, hpages, range_map_succ]
                    · refine stops_compose Answer.listPage w.answers _ mid rest hhead hmidp ?_
                      intro j p hj ha
                      have e : w2.answers = w.answers.drop (1 + mid.length) := by
                        rw [hmid.2, hst1.2, List.drop_drop]
                        simp [Nat.add_comm]
                      rw [← e] at ha
                      exact hstop j p hj ha

/-- The scan of `findInstanceUidByDisplayNameRefSvc` does not use more than `101 - page`
iterations. -/
theorem findInstanceUid_pages_fuel (serviceId : Int) (displayName : Str) :
    ∀ (fuel page : Nat) (w : World), page ≤ 100 → 101 - page ≤ fuel →
      findInstanceUidByDisplayNameRefSvc.pages serviceId displayName (fuel + 1) page w
        = findInstanceUidByDisplayNameRefSvc.pages serviceId displayName fuel page w := by
  intro fuel
  induction fuel with
  | zero => intro page w h1 h2; omega
  | succ fuel ih =>
    intro page w h1 h2
    rw [findInstanceUidByDisplayNameRefSvc.pages]
    conv_rhs => rw [findInstanceUidByDisplayNameRefSvc.pages]
    cases doRequest (Request.getInstancesPage page) w with
    | mk res w1 =>
      cases res with
      | error e => rfl
      | ok bl =>
        dsimp only
        cases bl.1.decodeResults with
        | none => rfl
        | some results =>
          dsimp only
          by_cases hlen : results.length = 0
          · rw [if_pos hlen, if_pos hlen]
          · rw [if_neg hlen, if_neg hlen]
            cases findInstanceUidByDisplayNameRefSvc.scan serviceId displayName results with
            | some uid => rfl
            | none =>
              dsimp only
              by_cases hp : page + 1 > 100
              · rw [if_pos hp, if_pos hp]
              · rw [if_neg hp, if_neg hp]
                exact ih (page + 1) w1 (by omega) (by omega)

/-- The scan of `FindInstanceByDisplayName` does not use more than `101 - page`
iterations. -/
theorem FindInstanceByDisplayName_pages_fuel (serviceId : Int) (displayName : Str) :
    ∀ (fuel page : Nat) (w : World), page ≤ 100 → 101 - page ≤ fuel →
      FindInstanceByDisplayName.pages serviceId displayName (fuel + 1) page w
        = FindInstanceByDisplayName.pages serviceId displayName fuel page w := by
  intro fuel
  induction fuel with
  | zero => intro page w h1 h2; omega
  | succ fuel ih =>
    intro page w h1 h2
    rw [FindInstanceByDisplayName.pages]
    conv_rhs => rw [FindInstanceByDisplayName.pages]
    cases w.send (Request.getInstancesPage page) with
    | mk a w1 =>
      cases a with
      | netErr => rfl
      | resp rp =>
        dsimp only
        by_cases hst : rp.status ≠ 200
        · rw [if_pos hst, if_pos hst]
        · rw [if_neg hst, if_neg hst]
          cases rp.body.decodeResults with
          | none => rfl
          | some results =>
            dsimp only
            by_cases hlen : results.length = 0
            · rw [if_pos hlen, if_pos hlen]
            · rw [if_neg hlen, if_neg hlen]
              cases FindInstanceByDisplayName.scan serviceId displayName results w1 with
              | mk found w2 =>
                cases found with
                | some res => cases res <;> rfl
                | none =>
                  dsimp only
                  by_cases hp : page + 1 > 100
                  · rw [if_pos hp, if_pos hp]
                  · rw [if_neg hp, if_neg hp]
                    exact ih (page + 1) w2 (by omega) (by omega)

/-- Claim C21: for every script of answers, one call of `findInstanceUidByDisplayNameRefSvc`
issues the list requests for the pages 1, 2, ..., `n` (each with size 100) and nothing else,
and the list requests of one call of `FindInstanceByDisplayName` are those for the pages 1, 2,
..., `n`; in both `n` is at most 100, and a list request that is answered with an empty page is
the last request of the call.  Both scans terminate by their own test on the page number: the
result is the same for every bound of 100 or more iterations. -/
theorem scans_paginate (serviceId : Int) (displayName : Str) (w : World) :
    (∃ n, n ≤ 100 ∧
      Steps w (findInstanceUidByDisplayNameRefSvc serviceId displayName w).2 (pageRequests n) ∧
      (∀ (j p : Nat), (pageRequests n)[j]? = some (Request.getInstancesPage p) →
        (w.answers[j]?).bind Answer.page = some [] → j + 1 = n) ∧
      ∀ fuel, 100 ≤ fuel →
        findInstanceUidByDisplayNameRefSvc.pages serviceId displayName fuel 1 w
          = findInstanceUidByDisplayNameRefSvc serviceId displayName w) ∧
    (∃ issued n, n ≤ 100 ∧
      Steps w (FindInstanceByDisplayName serviceId displayName w).2 issued ∧
      issued.filter Request.isListPage = pageRequests n ∧
      (∀ (j p : Nat), issued[j]? = some (Request.getInstancesPage p) →
        (w.answers[j]?).bind Answer.listPage = some [] → j + 1 = issued.length) ∧
      ∀ fuel, 100 ≤ fuel →
        FindInstanceByDisplayName.pages serviceId displayName fuel 1 w
          = FindInstanceByDisplayName serviceId displayName w) := by
  have hreq : ∀ n, ((List.range n).map fun k => Request.getInstancesPage (1 + k))
      = pageRequests n := by
    intro n
    unfold pageRequests
    apply List.map_congr_left
    intro k _
    rw [Nat.add_comm]
  constructor
  · obtain ⟨n, hn, hsteps, hstop⟩ :=
      findInstanceUid_pages_paginate serviceId displayName 100 1 w (by omega)
    rw [hreq] at hsteps hstop
    refine ⟨n, by omega, hsteps, hstop, ?_⟩
    intro fuel hfuel
    unfold findInstanceUidByDisplayNameRefSvc
    induction fuel, hfuel using Nat.le_induction with
    | base => rfl
    | succ k hk ih =>
      rw [findInstanceUid_pages_fuel serviceId displayName k 1 w (by omega) (by omega)]
      exact ih
  · obtain ⟨issued, n, hn, hsteps, hpages, hstop⟩ :=
      FindInstanceByDisplayName_pages_paginate serviceId displayName 100 1 w (by omega)
    rw [hreq] at hpages
    refine ⟨issued, n, by omega, hsteps, hpages, hstop, ?_⟩
    intro fuel hfuel
    unfold FindInstanceByDisplayName
    induction fuel, hfuel using Nat.le_induction with
    | base => rfl
    | succ k hk ih =>
      rw [FindInstanceByDisplayName_pages_fuel serviceId displayName k 1 w (by omega) (by omega)]
      exact ih


/-- Witness for C21: a scan of the referenced service over a page without a match and an
empty page. -/
theorem scans_paginate_witness :
    ∃ n, n ≤ 100 ∧
      Steps (exampleWorld [] [pageAnswer
          [{ InstanceUid := "u7".toList, DisplayName := "other".toList, ServiceId := 12 }],
          pageAnswer [], pageAnswer []])
        (findInstanceUidByDisplayNameRefSvc 12 "s3-main".toList
          (exampleWorld [] [pageAnswer
            [{ InstanceUid := "u7".toList, DisplayName := "other".toList, ServiceId := 12 }],
            pageAnswer [], pageAnswer []])).2 (pageRequests n) ∧
      (∀ (j p : Nat), (pageRequests n)[j]? = some (Request.getInstancesPage p) →
        ((exampleWorld [] [pageAnswer
            [{ InstanceUid := "u7".toList, DisplayName := "other".toList, ServiceId := 12 }],
            pageAnswer [], pageAnswer []]).answers[j]?).bind Answer.page = some [] →
        j + 1 = n) ∧
      ∀ fuel, 100 ≤ fuel →
        findInstanceUidByDisplayNameRefSvc.pages 12 "s3-main".toList fuel 1
            (exampleWorld [] [pageAnswer
              [{ InstanceUid := "u7".toList, DisplayName := "other".toList, ServiceId := 12 }],
              pageAnswer [], pageAnswer []])
          = findInstanceUidByDisplayNameRefSvc 12 "s3-main".toList
            (exampleWorld [] [pageAnswer
              [{ InstanceUid := "u7".toList, DisplayName := "other".toList, ServiceId := 12 }],
              pageAnswer [], pageAnswer []]) :=
  (scans_paginate 12 "s3-main".toList
    (exampleWorld [] [pageAnswer
      [{ InstanceUid := "u7".toList, DisplayName := "other".toList, ServiceId := 12 }],
      pageAnswer [], pageAnswer []])).1

/-! ## Deleting a resource -/

/-- Claim C28: with `mode` the trimmed, lower-cased `delete_mode`, `DeleteResource` returns
success in the unchanged world (no request is issued) when `mode` is empty or `state_only`; it
is `RunInstanceOperationUniversal` for the instance, the action `mode` and no parameters when
`mode` is `suspend` or `delete`; and it returns the invalid-delete_mode error in the unchanged
world for every other `mode`. -/
theorem DeleteResource_by_mode (instanceID deleteMode : Str) (w : World) :
    (ToLower (TrimSpace deleteMode) = [] ∨
        ToLower (TrimSpace deleteMode) = "state_only".toList →
      DeleteResource instanceID deleteMode w = (.ok (), w)) ∧
    (ToLower (TrimSpace deleteMode) = "suspend".toList ∨
        ToLower (TrimSpace deleteMode) = "delete".toList →
      DeleteResource instanceID deleteMode w
        = RunInstanceOperationUniversal instanceID (ToLower (TrimSpace deleteMode)) [] w) ∧
    (ToLower (TrimSpace deleteMode) ≠ [] →
      ToLower (TrimSpace deleteMode) ≠ "state_only".toList →
      ToLower (TrimSpace deleteMode) ≠ "suspend".toList →
      ToLower (TrimSpace deleteMode) ≠ "delete".toList →
      DeleteResource instanceID deleteMode w = (.error (Err.invalidDeleteMode deleteMode), w)) := by
  unfold DeleteResource
  dsimp only
  refine ⟨?_, ?_, ?_⟩
  · intro h
    rcases h with h | h <;> rw [h] <;> rfl
  · intro h
    rcases h with h | h <;> rw [h] <;> rfl
  · intro h1 h2 h3 h4
    have hm : (if ToLower (TrimSpace deleteMode) = [] then "state_only".toList
        else ToLower (TrimSpace deleteMode)) = ToLower (TrimSpace deleteMode) := if_neg h1
    rw [hm, if_neg h2, if_neg (fun h => h.elim h3 h4)]

/-- Witness for C28: the mode ` Suspend ` runs the action `suspend`. -/
theorem DeleteResource_by_mode_witness :
    DeleteResource "u1".toList " Suspend ".toList (exampleWorld [] [])
      = RunInstanceOperationUniversal "u1".toList
          (ToLower (TrimSpace " Suspend ".toList)) [] (exampleWorld [] []) :=
  (DeleteResource_by_mode "u1".toList " Suspend ".toList (exampleWorld [] [])).2.1
    (Or.inl (by decide))

/-! ## Adoption, by the state the lookup fetched last -/

end Nubes
